import Mathlib

/-!
# libaltsound: the command framer, the command processor and the mixer

A shallow embedding of the command path of `src/altsound.cpp` (functions
`altsound_preprocess_commands`, `altsound_postprocess_commands` and
`AltSoundProcessCommand`, with the framer state that `AltSoundInit` sets), of
its `AudioMixingThread` (the per-stream loop, the snapshot of the active
streams and the whole tick), of `AltSoundInit` and `AltSoundPause`, of the
stream registry of `src/miniaudio_bass_compat.cpp` and of the category and
ducking helpers of `src/altsound_data.cpp`, and theorems about them.

Conventions of the embedding.

* `unsigned int` values are natural numbers below `2 ^ 32`; `int` values are
  integers, with the conversions `toInt32` / `toUInt32` written where the C++
  code converts implicitly.
* `float` volumes are rational numbers.  A volume formula that the code
  evaluates once is read as the exact operation on rationals (its rounding is
  not modelled); the attenuation loop, which divides the same `float` again
  and again, rounds every quotient to a `float` (`f32Round`).
* Calls the command path makes to its collaborators (`handleCmd`,
  `stopMusic`, the wake-up of the mixing thread) are recorded, in order, in
  the field `calls` of the engine state.
-/

namespace AltSound

/-! ## Data model -/

/-- Hardware generation tag (`ALTSOUND_HARDWARE_GEN`).  The constructors are the
tags that `altsound.cpp` names; `OTHER` stands for every other value of the
enumeration. -/
inductive ALTSOUND_HARDWARE_GEN where
  | NONE
  | WPCALPHA_1
  | WPCALPHA_2
  | WPCDMD
  | WPCFLIPTRON
  | WPCDCS
  | WPCSECURITY
  | WPC95DCS
  | WPC95
  | S11
  | S11X
  | S11B2
  | S11C
  | DEDMD16
  | DEDMD32
  | DEDMD64
  | DE
  | WS
  | WS_1
  | WS_2
  | GTS80
  | OTHER (tag : Nat)
  deriving DecidableEq, Repr

/-- The value `~0` as stored in an `unsigned int`. -/
def NOT0 : Nat := 0xFFFFFFFF

/-- Conversion of an `unsigned int` to `int` (two's complement, 32 bits). -/
def toInt32 (n : Nat) : Int :=
  if n % 4294967296 < 2147483648 then (n % 4294967296 : Nat) else ((n % 4294967296 : Nat) : Int) - 4294967296

/-- Conversion of an `int` to `unsigned int` (reduction modulo `2 ^ 32`). -/
def toUInt32 (i : Int) : Nat := (i % 4294967296).toNat

/-- Modelled from the spec: the constant `ALT_MAX_CMDS` is declared in
`altsound_data.hpp`, which is not among the sources; the spec gives the
command buffer four entries (`N = 4`), and `altsound.cpp` reads the entries
`0` to `3`.  This is the array `cmd_buffer[ALT_MAX_CMDS]`: field `bi` is
`cmd_buffer[i]`, the newest byte is `b0`. -/
structure CmdBuffer where
  b0 : Nat
  b1 : Nat
  b2 : Nat
  b3 : Nat
  deriving DecidableEq, Repr

/-- Modelled from the spec: the record `CmdData` is declared in
`altsound_data.hpp`, which is not among the sources.  Its fields are the ones
`altsound.cpp` uses: the parity counter (`unsigned int`), the stored-command
register (an `int`, since it is set to `-1`), the filter flag and the command
buffer (entries `unsigned int`, since they are filled with `~0` and compared
with `b ^ 0xFF`). -/
structure CmdData where
  cmd_counter : Nat
  stored_command : Int
  cmd_filter : Nat
  cmd_buffer : CmdBuffer
  deriving DecidableEq, Repr

/-- A call made by the command path to a collaborator, kept as a record of what
was done: `g_pProcessor->handleCmd(c)`, `g_audioWakeup.notify_one()`,
`altsound_postprocess_commands(c)` and `g_pProcessor->stopMusic()`. -/
inductive Call where
  | handleCmd (c : Nat)
  | notify_one
  | postprocess (c : Nat)
  | stopMusic
  deriving DecidableEq, Repr

/-- Modelled from the spec: the processor class `AltsoundProcessorBase` behind
`g_pProcessor` is not among the sources; its master volume, global volume and
ROM-controls-volume setting are the fields `master_vol`, `global_vol` and
`rom_controls_vol`, which the getters and setters called by the command path
read and write.  The other fields are the globals `g_hardwareGen` and
`g_cmdData` of `altsound.cpp` and the record of the calls made so far. -/
structure Engine where
  g_hardwareGen : ALTSOUND_HARDWARE_GEN
  g_cmdData : CmdData
  master_vol : ℚ
  global_vol : ℚ
  rom_controls_vol : Bool
  calls : List Call

/-! ## The framer -/

/-- The loop `for (i = 0; i < ALT_MAX_CMDS; ++i) cmd_buffer[i] = ~0`. -/
def clearedBuffer : CmdBuffer := ⟨NOT0, NOT0, NOT0, NOT0⟩

/-- The loop `for (i = ALT_MAX_CMDS - 1; i > 0; --i) cmd_buffer[i] = cmd_buffer[i - 1]`
followed by `cmd_buffer[0] = cmd`. -/
def shiftBuffer (b : CmdBuffer) (cmd : Nat) : CmdBuffer := ⟨cmd, b.b0, b.b1, b.b2⟩

/-- The value `min(powf(0.981201f, (float)(255u - v)) * 4.0f, 1.0f)`, or `0` when
`v` is `0` (WPC-DCS master volume); `255u - v` is unsigned arithmetic. -/
def dcsVolume (v : Nat) : ℚ :=
  if v = 0 then 0 else min (((981201 : ℚ) / 1000000) ^ ((255 + 4294967296 - v % 4294967296) % 4294967296) * 4) 1

/-- The value `min((float)v / 127.f, 1.0f)` (WPC volume). -/
def wpcVolume (v : Nat) : ℚ := min ((v : ℚ) / 127) 1

/-- The value `(float)(0x2F - cmd) / 31.f` (Whitestar volume); `0x2F - cmd` is
`int` arithmetic. -/
def wsVolume (cmd : Nat) : ℚ := (((0x2F : Int) - (cmd : Int) : Int) : ℚ) / 31

/-- The state after the statements `cmd_buffer[i] = ~0` (all `i`),
`cmd_counter = 0`, `cmd_filter = 1`. -/
def consume (d : CmdData) : CmdData :=
  { d with cmd_buffer := clearedBuffer, cmd_counter := 0, cmd_filter := 1 }

/-- The function `altsound_preprocess_commands(cmd)`: the framing rules of the
hardware generation, run after the byte has been shifted into the buffer.
The parameter is an `int` converted from the `unsigned int` of the caller; it
is kept as the unsigned value here, which gives the same result in every
comparison the function makes (a value of `2 ^ 31` or more is in none of the
ranges `0x01..0x0F`, `0x10..0x2F`, read as signed or as unsigned). -/
def altsound_preprocess_commands (e : Engine) (cmd : Nat) : Engine :=
  let d := e.g_cmdData
  let b := d.cmd_buffer
  match e.g_hardwareGen with
  | .WPCDCS | .WPCSECURITY | .WPC95DCS | .WPC95 =>
    if b.b3 = 0x55 ∧ b.b2 ≥ 0xAB ∧ b.b2 ≤ 0xB0 ∧ b.b1 = b.b0 ^^^ 0xFF then
      { e with g_cmdData := consume d }
    else if b.b3 = 0x55 ∧ b.b2 = 0xC2 then
      { e with g_cmdData := consume d }
    else if b.b3 = 0x55 ∧ b.b2 = 0xC3 then
      { e with g_cmdData := consume d }
    else if b.b3 = 0x55 ∧ b.b2 ≥ 0xBA ∧ b.b2 ≤ 0xC1 ∧ b.b1 = b.b0 ^^^ 0xFF then
      { e with g_cmdData := consume d }
    else if b.b3 = 0x55 ∧ b.b2 = 0xAA then
      let e1 : Engine :=
        if b.b3 = 0x55 ∧ b.b2 = 0xAA ∧ b.b1 = b.b0 ^^^ 0xFF then
          if e.rom_controls_vol then { e with global_vol := dcsVolume b.b1 } else e
        else e
      { e1 with g_cmdData := consume d }
    else
      { e with g_cmdData := { d with cmd_filter := 0 } }
  | .WPCALPHA_2 | .WPCDMD | .WPCFLIPTRON =>
    let d0 : CmdData := { d with cmd_filter := 0 }
    if b.b2 = 0x79 ∧ b.b1 = b.b0 ^^^ 0xFF then
      let e1 : Engine :=
        if e.rom_controls_vol then { e with global_vol := wpcVolume b.b1 } else e
      { e1 with g_cmdData := consume d0 }
    else if b.b1 = 0x7A then
      { e with g_cmdData := { d0 with stored_command := toInt32 b.b1, cmd_counter := 0 } }
    else if cmd ≠ 0x7A then
      { e with g_cmdData := { d0 with stored_command := 0, cmd_counter := 0 } }
    else
      { e with g_cmdData := { d0 with cmd_counter := 1 } }
  | .WPCALPHA_1 | .S11 | .S11X | .S11B2 | .S11C =>
    if cmd ≠ b.b1 then
      { e with g_cmdData := { d with stored_command := 0, cmd_counter := 0 } }
    else
      { e with g_cmdData := { d with cmd_counter := 1 } }
  | .DEDMD16 | .DEDMD32 | .DEDMD64 | .DE =>
    let d1 : CmdData :=
      if cmd ≠ 0xFF ∧ cmd ≠ 0x00 then { d with stored_command := 0, cmd_counter := 0 }
      else { d with cmd_counter := 1 }
    let d2 : CmdData :=
      if b.b1 = 0x00 ∧ cmd = 0x00 then { d1 with stored_command := 0, cmd_counter := 0 }
      else d1
    { e with g_cmdData := d2 }
  | .WS | .WS_1 | .WS_2 =>
    let d0 : CmdData := { d with cmd_filter := 0 }
    let e1 : Engine :=
      if b.b1 = 0xFE then
        if cmd ≥ 0x10 ∧ cmd ≤ 0x2F then
          let e0 : Engine :=
            if e.rom_controls_vol then { e with global_vol := wsVolume cmd } else e
          { e0 with g_cmdData := consume d0 }
        else if cmd ≥ 0x01 ∧ cmd ≤ 0x0F then
          { e with g_cmdData := { d0 with stored_command := 0, cmd_counter := 0, cmd_filter := 1 } }
        else { e with g_cmdData := d0 }
      else { e with g_cmdData := d0 }
    if cmd &&& 0xFC = 0xFC then
      { e1 with g_cmdData := { e1.g_cmdData with cmd_counter := 1 } }
    else e1
  | .GTS80 =>
    if cmd = 0x00 then
      { e with g_cmdData := { d with stored_command := 0, cmd_counter := 0, cmd_filter := 1 } }
    else
      { e with g_cmdData := { d with stored_command := 0, cmd_counter := 0, cmd_filter := 0 } }
  | _ => e

/-- The function `altsound_postprocess_commands(combined_cmd)`: the hooks run
after a logical command has been handed to the processor. -/
def altsound_postprocess_commands (e : Engine) (combined_cmd : Nat) : Engine :=
  let e0 : Engine := { e with calls := e.calls ++ [Call.postprocess combined_cmd] }
  match e0.g_hardwareGen with
  | .WPCDCS | .WPCSECURITY | .WPC95DCS | .WPC95 =>
    if combined_cmd = 0x03E3 then { e0 with calls := e0.calls ++ [Call.stopMusic] } else e0
  | .DEDMD32 =>
    if combined_cmd = 0x0018 ∨ combined_cmd = 0x0023 then
      { e0 with calls := e0.calls ++ [Call.stopMusic] }
    else e0
  | .WS | .WS_1 | .WS_2 =>
    if combined_cmd = 0x0000 ∨ combined_cmd &&& 0xf0ff = 0xf000 then
      { e0 with calls := e0.calls ++ [Call.stopMusic] }
    else e0
  | _ => e0

/-! ## The command processor -/

/-- Rounding of a rational to the nearest integer, a tie going to the even
one. -/
def roundHalfEven (y : ℚ) : Int :=
  if y - ⌊y⌋ < 1 / 2 then ⌊y⌋
  else if 1 / 2 < y - ⌊y⌋ then ⌊y⌋ + 1
  else if ⌊y⌋ % 2 = 0 then ⌊y⌋ else ⌊y⌋ + 1

/-- The value a real number takes when it is stored in a `float` (IEEE 754
binary32, round to nearest, ties to even): with `2^e ≤ |x| < 2^(e+1)` the
floats around `x` are the multiples of `2^(e - 23)`, and of `2^(-149)` below
`2^(-126)` (subnormal range).  A magnitude of `2^128` or more, which a `float`
holds as infinity, is left as it rounds here: the master volume starts at `1`
and is only ever divided by a number above `1`. -/
def f32Round (x : ℚ) : ℚ :=
  if x = 0 then 0
  else
    let e : Int := max (Int.log 2 |x|) (-126)
    let ulp : ℚ := 2 ^ (e - 23)
    let m : Int := roundHalfEven (|x| / ulp)
    if x < 0 then -((m : ℚ) * ulp) else (m : ℚ) * ulp

/-- The loop `while (attenuation++ < 0) master_vol /= 1.122018454f`: the
literal is the `float` nearest to `1.122018454`, and every quotient is stored
in the `float` `master_vol`. -/
def attenuate (master_vol : ℚ) (attenuation : Int) : ℚ :=
  if attenuation < 0 then
    attenuate (f32Round (master_vol / f32Round ((1122018454 : ℚ) / 1000000000)))
      (attenuation + 1)
  else master_vol
termination_by (-attenuation).toNat
decreasing_by omega

/-- The framer state that `AltSoundInit` sets: counter `0`, stored command `-1`,
filter clear, buffer filled with `~0`. -/
def initCmdData : CmdData :=
  { cmd_counter := 0, stored_command := -1, cmd_filter := 0, cmd_buffer := clearedBuffer }

/-- The engine after a successful `AltSoundInit` (master and global volume `1`,
ROM-controls-volume as read from the manifest, framer state `initCmdData`)
followed by `AltSoundSetHardwareGen(gen)`. -/
def initEngine (gen : ALTSOUND_HARDWARE_GEN) (romVol : Bool) : Engine :=
  { g_hardwareGen := gen, g_cmdData := initCmdData, master_vol := 1, global_vol := 1,
    rom_controls_vol := romVol, calls := [] }

/-- The logical command `(stored_command << 8) | cmd`, an `unsigned int`. -/
def combine (stored_command : Int) (cmd : Nat) : Nat :=
  toUInt32 (stored_command * 256) ||| cmd

/-- The first part of `AltSoundProcessCommand`: attenuation of the master
volume, increment of the counter, shift of the byte into the buffer, and the
framing rules. -/
def frame (e : Engine) (cmd : Nat) (attenuation : Int) : Engine :=
  let d := e.g_cmdData
  altsound_preprocess_commands
    { e with
      master_vol := attenuate e.master_vol attenuation,
      g_cmdData := { d with cmd_counter := (d.cmd_counter + 1) % 4294967296,
                            cmd_buffer := shiftBuffer d.cmd_buffer cmd } }
    cmd

/-- The function `AltSoundProcessCommand(cmd, attenuation)`.  The result of
`g_pProcessor->handleCmd`, whose code is not among the sources, is the
parameter `handleCmd`: it may depend on the whole engine state and on the
command. -/
def AltSoundProcessCommand (handleCmd : Engine → Nat → Bool) (e : Engine) (cmd : Nat)
    (attenuation : Int) : Engine × Bool :=
  let e1 := frame e cmd attenuation
  if e1.g_cmdData.cmd_filter ≠ 0 ∨ e1.g_cmdData.cmd_counter % 2 ≠ 0 then
    ({ e1 with g_cmdData := { e1.g_cmdData with stored_command := toInt32 cmd } }, true)
  else
    let cmd_combined := combine e1.g_cmdData.stored_command cmd
    let e2 : Engine := { e1 with calls := e1.calls ++ [Call.handleCmd cmd_combined] }
    if handleCmd e1 cmd_combined = false then
      (altsound_postprocess_commands e2 cmd_combined, false)
    else
      let e3 : Engine := { e2 with calls := e2.calls ++ [Call.notify_one] }
      (altsound_postprocess_commands e3 cmd_combined, true)

/-- A trace of commands, each sent with attenuation `0` (as the playback loop of
`test.cpp` does). -/
def processCommands (handleCmd : Engine → Nat → Bool) (e : Engine) (cmds : List Nat) : Engine :=
  cmds.foldl (fun s c => (AltSoundProcessCommand handleCmd s c 0).1) e

/-- The logical commands handed to `handleCmd` so far, oldest first. -/
def emitted (e : Engine) : List Nat :=
  e.calls.filterMap (fun c => match c with
    | Call.handleCmd x => some x
    | _ => none)

/-! ## The framer seen on its own state

The framer state after a call depends only on the hardware generation, the
framer state before it and the byte; these functions read that dependency off
the functions above. -/

/-- An engine holding the given generation and framer state (volumes `1`, no
call made yet). -/
def engineOf (gen : ALTSOUND_HARDWARE_GEN) (d : CmdData) : Engine :=
  { g_hardwareGen := gen, g_cmdData := d, master_vol := 1, global_vol := 1,
    rom_controls_vol := false, calls := [] }

/-- The framer state after `frame`. -/
def framedData (gen : ALTSOUND_HARDWARE_GEN) (d : CmdData) (cmd : Nat) : CmdData :=
  (frame (engineOf gen d) cmd 0).g_cmdData

/-- The framer state after one call of `AltSoundProcessCommand`. -/
def stepData (gen : ALTSOUND_HARDWARE_GEN) (d : CmdData) (cmd : Nat) : CmdData :=
  (AltSoundProcessCommand (fun _ _ => true) (engineOf gen d) cmd 0).1.g_cmdData

/-- The logical command one call of `AltSoundProcessCommand` emits, if any. -/
def stepEmit (gen : ALTSOUND_HARDWARE_GEN) (d : CmdData) (cmd : Nat) : List Nat :=
  emitted (AltSoundProcessCommand (fun _ _ => true) (engineOf gen d) cmd 0).1

/-- The framer state after a trace of bytes. -/
def runData (gen : ALTSOUND_HARDWARE_GEN) (d : CmdData) (cmds : List Nat) : CmdData :=
  cmds.foldl (stepData gen) d

/-- The logical commands emitted over a trace of bytes, oldest first. -/
def runEmit (gen : ALTSOUND_HARDWARE_GEN) : CmdData → List Nat → List Nat
  | _, [] => []
  | d, c :: cs => stepEmit gen d c ++ runEmit gen (stepData gen d c) cs


/-- A trace of commands, each sent with the same attenuation. -/
def processCommandsAtt (handleCmd : Engine → Nat → Bool) (attenuation : Int) (e : Engine)
    (cmds : List Nat) : Engine :=
  cmds.foldl (fun s c => (AltSoundProcessCommand handleCmd s c attenuation).1) e

/-! ## The mixing engine: one stream in one tick

The body of the loop `for (auto& streamPair : activeStreams)` of
`AudioMixingThread`.  Buffers are functions from the index to the sample;
`ma_uint64` and `size_t` values are natural numbers. -/

/-- Modelled from the spec: the decoder library (`ma_decoder` of miniaudio) is
not among the sources; the spec has it yield interleaved float frames on
demand and seek.  A decoder is a finite PCM source: `pcm (f * channels + ch)`
is channel `ch` of frame `f`, `length` is its number of frames, `channels` its
output channel count and `pos` the read cursor, in frames. -/
structure Decoder where
  pcm : Nat → ℚ
  length : Nat
  channels : Nat
  pos : Nat

/-- Modelled from the spec: `ma_decoder_read_pcm_frames`, which the wrapper
`altsound_ma_decoder_read_pcm_frames` of `miniaudio_private.c` calls, is not
among the sources.  It reads up to `frameCount` frames from the cursor into the
output buffer, fewer only when the end of the source is reached, and advances
the cursor; the result is the number of frames read, the output buffer and the
decoder. -/
def altsound_ma_decoder_read_pcm_frames (d : Decoder) (pFramesOut : Nat → ℚ) (frameCount : Nat) :
    Nat × (Nat → ℚ) × Decoder :=
  let framesRead := min frameCount (d.length - d.pos)
  (framesRead,
   fun i => if i < framesRead * d.channels then d.pcm (d.pos * d.channels + i) else pFramesOut i,
   { d with pos := d.pos + framesRead })

/-- Modelled from the spec: `ma_decoder_seek_to_pcm_frame`, which the wrapper
`altsound_ma_decoder_seek_to_pcm_frame` calls, is not among the sources; it
moves the read cursor to the given frame. -/
def altsound_ma_decoder_seek_to_pcm_frame (d : Decoder) (frameIndex : Nat) : Decoder :=
  { d with pos := frameIndex }

/-- The record `_internal_stream_data` of `miniaudio_bass_compat.hpp`: a registry
entry.  The decoder pointer is `none` when null; `sync_callback` is the
registered end-of-stream procedure, `none` when null. -/
structure _internal_stream_data where
  decoder : Option Decoder
  playing : Bool
  paused : Bool
  sample_rate : Nat
  channels : Nat
  sync_callback : Option Nat
  sync_userdata : Nat

/-- Modelled from the spec: the record `AltsoundStreamInfo` of a channel slot is
declared in `altsound_data.hpp`, which is not among the sources; these are the
fields the mixer and the registry read: stream handle, sync handle, gain,
ducking multiplier and loop flag. -/
structure AltsoundStreamInfo where
  hstream : Nat
  hsync : Nat
  gain : ℚ
  ducking : ℚ
  loop : Bool

/-- A call `sync_callback(hsync, hstream, data, user)` made by the mixer. -/
structure SyncCall where
  proc : Nat
  hsync : Nat
  hstream : Nat
  data : Nat
  user : Nat
  deriving DecidableEq, Repr

/-- The statement `buf[idx] += x`. -/
def addAt (buf : Nat → ℚ) (idx : Nat) (x : ℚ) : Nat → ℚ :=
  fun i => if i = idx then buf i + x else buf i

/-- The two nested loops over `frame < framesToMix` and `ch < outCh` with the
statement `mixBuffer[(dstBaseFrame + frame) * outCh + ch] += tempBuffer[srcIdx] * volume`,
where `srcIdx frame ch` is the source index of the code path taken. -/
def mixFrames (srcIdx : Nat → Nat → Nat) (mixBuffer tempBuffer : Nat → ℚ)
    (dstBaseFrame framesToMix outCh : Nat) (volume : ℚ) : Nat → ℚ :=
  (List.range framesToMix).foldl
    (fun m frame =>
      (List.range outCh).foldl
        (fun m ch => addAt m ((dstBaseFrame + frame) * outCh + ch)
          (tempBuffer (srcIdx frame ch) * volume))
        m)
    mixBuffer

/-- The variables of the per-stream loop: the mix buffer, the temp buffer, the
registry entry and its decoder, the write position, and the end-of-stream
callbacks fired so far. -/
structure MixState where
  mixBuffer : Nat → ℚ
  tempBuffer : Nat → ℚ
  internal : _internal_stream_data
  decoder : Decoder
  dstBaseFrame : Nat
  fired : List SyncCall

/-- The loop `while (dstBaseFrame < g_bufferSizeFrames)` of `AudioMixingThread`
for one stream; `inCh` is `internal->channels`.  The loop need not end (a
looping stream whose decoder yields no frame is sought back for ever), so it
runs on fuel: `none` when the fuel runs out before the loop ends. -/
def mixLoop (bufferSizeFrames outCh inCh : Nat) (volume : ℚ) (stream : AltsoundStreamInfo) :
    Nat → MixState → Option MixState
  | 0, s => if s.dstBaseFrame < bufferSizeFrames then none else some s
  | fuel + 1, s =>
    if s.dstBaseFrame < bufferSizeFrames then
      let framesRequested := bufferSizeFrames - s.dstBaseFrame
      let r := altsound_ma_decoder_read_pcm_frames s.decoder s.tempBuffer framesRequested
      let framesRead := r.1
      if framesRead = 0 then
        if stream.loop then
          mixLoop bufferSizeFrames outCh inCh volume stream fuel
            { s with tempBuffer := r.2.1,
                     decoder := altsound_ma_decoder_seek_to_pcm_frame r.2.2 0 }
        else
          some { s with
            tempBuffer := r.2.1,
            decoder := r.2.2,
            internal := { s.internal with playing := false },
            fired := match s.internal.sync_callback with
              | some proc =>
                s.fired ++ [{ proc := proc, hsync := stream.hsync, hstream := stream.hstream,
                              data := 0, user := s.internal.sync_userdata }]
              | none => s.fired }
      else
        let framesToMix := framesRead
        let mixed : Nat → ℚ :=
          if inCh = outCh then
            mixFrames (fun frame ch => frame * inCh + ch) s.mixBuffer r.2.1 s.dstBaseFrame
              framesToMix outCh volume
          else
            mixFrames (fun frame ch => frame * inCh + ch % inCh) s.mixBuffer r.2.1 s.dstBaseFrame
              framesToMix outCh volume
        if framesRead < framesRequested then
          if stream.loop then
            mixLoop bufferSizeFrames outCh inCh volume stream fuel
              { s with mixBuffer := mixed, tempBuffer := r.2.1,
                       decoder := altsound_ma_decoder_seek_to_pcm_frame r.2.2 0,
                       dstBaseFrame := s.dstBaseFrame + framesToMix }
          else
            some { s with mixBuffer := mixed, tempBuffer := r.2.1, decoder := r.2.2,
                          dstBaseFrame := s.dstBaseFrame + framesToMix }
        else
          mixLoop bufferSizeFrames outCh inCh volume stream fuel
            { s with mixBuffer := mixed, tempBuffer := r.2.1, decoder := r.2.2,
                     dstBaseFrame := s.dstBaseFrame + framesToMix }
    else some s

/-- The body of `for (auto& streamPair : activeStreams)` for one active stream:
the volume `gain * ducking * getGlobalVol() * getMasterVol()`, then the loop
from `dstBaseFrame = 0`.  `decoder` is the decoder `internal->decoder` points
to (not null for an active stream). -/
def mixStream (fuel bufferSizeFrames outCh : Nat) (globalVol masterVol : ℚ)
    (stream : AltsoundStreamInfo) (internal : _internal_stream_data) (decoder : Decoder)
    (mixBuffer tempBuffer : Nat → ℚ) (fired : List SyncCall) : Option MixState :=
  let volume := stream.gain * stream.ducking * globalVol * masterVol
  let outCh := outCh
  let inCh := internal.channels
  mixLoop bufferSizeFrames outCh inCh volume stream fuel
    { mixBuffer := mixBuffer, tempBuffer := tempBuffer, internal := internal, decoder := decoder,
      dstBaseFrame := 0, fired := fired }

/-! ## The stream registry, the channel table and the mixer tick

The globals of `altsound.cpp` and `miniaudio_bass_compat.cpp` that the mixing
thread and the registry functions share. -/

/-- Modelled from the spec: the constant `ALT_MAX_CHANNELS` is declared in
`altsound_data.hpp`, which is not among the sources; the spec gives the channel
table a fixed capacity, typically 16. -/
def ALT_MAX_CHANNELS : Nat := 16

/-- Modelled from the spec: the macro `MINIAUDIO_NO_STREAM` is not among the
sources; stream handles start at `1` (`g_nextStreamId = 1`) and the spec keys
the registry by handles `≥ 1`, the no-stream handle being `0`. -/
def MINIAUDIO_NO_STREAM : Nat := 0

/-- Modelled from the spec: the result codes `MA_SUCCESS`, `MA_ERROR` and
`MA_INVALID_ARGS` belong to `miniaudio.h`, which is not among the sources;
these are the values of the library. -/
def MA_SUCCESS : Int := 0

/-- Modelled from the spec: see `MA_SUCCESS`. -/
def MA_ERROR : Int := -1

/-- Modelled from the spec: see `MA_SUCCESS`. -/
def MA_INVALID_ARGS : Int := -2

/-- The macro `MINIAUDIO_SYNC_END` of `miniaudio_bass_compat.hpp`. -/
def MINIAUDIO_SYNC_END : Nat := 2

/-- A call `g_audioCallback(mixBuffer, g_bufferSizeFrames, g_sampleRate, g_channels,
g_audioUserData)`: the samples the sink can read, `frameCount * channels` of
them from the start of the mix buffer, and the other arguments. -/
structure Delivery where
  samples : List ℚ
  frameCount : Nat
  sampleRate : Nat
  channels : Nat
  user : Nat
  deriving DecidableEq

/-- The globals of the mixer and the registry: the channel table
`channel_stream` (an array of `ALT_MAX_CHANNELS` pointers, `none` for null),
the registry `g_streamMap` (`none` for an absent key), `g_nextStreamId`, the
counter `sync_id` of `MiniAudio_ChannelSetSync`, `g_last_ma_err`, the output
format and the sink callback, the two volumes the mixer reads from the
processor, the temp buffer of the mixing thread, and the records of the
end-of-stream callbacks fired and of the buffers delivered. -/
structure Mixer where
  channel_stream : List (Option AltsoundStreamInfo)
  g_streamMap : Nat → Option _internal_stream_data
  g_nextStreamId : Nat
  sync_id : Nat
  g_last_ma_err : Int
  g_sampleRate : Nat
  g_channels : Nat
  g_bufferSizeFrames : Nat
  g_audioCallback : Option Nat
  g_audioUserData : Nat
  globalVol : ℚ
  masterVol : ℚ
  tempBuffer : Nat → ℚ
  fired : List SyncCall
  delivered : List Delivery

/-- The mixer and registry globals after `AltSoundInit` on a fresh process: the
channel table filled with null, the registry empty, `g_nextStreamId = 1`, no
sink callback yet, both volumes `1`. -/
def initMixer (sampleRate channels bufferSizeFrames : Nat) : Mixer :=
  { channel_stream := List.replicate ALT_MAX_CHANNELS none,
    g_streamMap := fun _ => none,
    g_nextStreamId := 1,
    sync_id := 1,
    g_last_ma_err := 0,
    g_sampleRate := sampleRate,
    g_channels := channels,
    g_bufferSizeFrames := bufferSizeFrames,
    g_audioCallback := none,
    g_audioUserData := 0,
    globalVol := 1,
    masterVol := 1,
    tempBuffer := fun _ => 0,
    fired := [],
    delivered := [] }

/-- The snapshot loop of `AudioMixingThread`: for every slot in order, the
stream is active when the slot is not null, its handle is not the no-stream
handle, the registry has the handle, and the entry has a decoder, is playing
and is not paused.  A pair holds the slot's stream and the key of the registry
entry the code keeps a pointer to. -/
def activeStreams (channel_stream : List (Option AltsoundStreamInfo))
    (g_streamMap : Nat → Option _internal_stream_data) : List (AltsoundStreamInfo × Nat) :=
  channel_stream.filterMap (fun slot =>
    match slot with
    | some stream =>
      if stream.hstream ≠ MINIAUDIO_NO_STREAM then
        match g_streamMap stream.hstream with
        | some it =>
          if it.decoder.isSome ∧ it.playing = true ∧ it.paused = false then
            some (stream, stream.hstream)
          else none
        | none => none
      else none
    | none => none)

/-- What the loop over the active streams carries: the registry, the mix buffer,
the temp buffer and the callbacks fired. -/
structure TickState where
  g_streamMap : Nat → Option _internal_stream_data
  mixBuffer : Nat → ℚ
  tempBuffer : Nat → ℚ
  fired : List SyncCall

/-- The loop `for (auto& streamPair : activeStreams)`: each stream is mixed in
turn through the pointer to its registry entry, so what one stream leaves in
the entry (decoder position, playing flag) is what a later pair with the same
key finds.  `none` when a per-stream loop runs out of fuel. -/
def mixActive (fuel bufferSizeFrames outCh : Nat) (globalVol masterVol : ℚ) :
    List (AltsoundStreamInfo × Nat) → TickState → Option TickState
  | [], t => some t
  | (stream, key) :: rest, t =>
    match t.g_streamMap key with
    | some internal =>
      match internal.decoder with
      | some decoder =>
        match mixStream fuel bufferSizeFrames outCh globalVol masterVol stream internal decoder
            t.mixBuffer t.tempBuffer t.fired with
        | some r =>
          mixActive fuel bufferSizeFrames outCh globalVol masterVol rest
            { g_streamMap :=
                Function.update t.g_streamMap key
                  (some { r.internal with decoder := some r.decoder }),
              mixBuffer := r.mixBuffer,
              tempBuffer := r.tempBuffer,
              fired := r.fired }
        | none => none
      | none => mixActive fuel bufferSizeFrames outCh globalVol masterVol rest t
    | none => mixActive fuel bufferSizeFrames outCh globalVol masterVol rest t

/-- One pass of the `while (g_audioRunning.load())` loop of `AudioMixingThread`,
the timed wait left out: the mix buffer is zeroed, the active streams are
snapshot and mixed, and the sink callback, when one is installed, receives the
mix buffer.  `none` when a per-stream loop runs out of fuel. -/
def AudioMixingTick (fuel : Nat) (m : Mixer) : Option Mixer :=
  match mixActive fuel m.g_bufferSizeFrames m.g_channels m.globalVol m.masterVol
      (activeStreams m.channel_stream m.g_streamMap)
      { g_streamMap := m.g_streamMap, mixBuffer := fun _ => 0, tempBuffer := m.tempBuffer,
        fired := m.fired } with
  | some t =>
    some { m with
      g_streamMap := t.g_streamMap,
      tempBuffer := t.tempBuffer,
      fired := t.fired,
      delivered :=
        match m.g_audioCallback with
        | some _ =>
          m.delivered ++
            [{ samples := (List.range (m.g_bufferSizeFrames * m.g_channels)).map t.mixBuffer,
               frameCount := m.g_bufferSizeFrames,
               sampleRate := m.g_sampleRate,
               channels := m.g_channels,
               user := m.g_audioUserData }]
        | none => m.delivered }
  | none => none

/-- A number of passes of the mixing loop, one after the other. -/
def AudioMixingTicks (fuel : Nat) : Nat → Mixer → Option Mixer
  | 0, m => some m
  | n + 1, m =>
    match AudioMixingTicks fuel n m with
    | some m1 => AudioMixingTick fuel m1
    | none => none

/-- A number of ticks of one stream on its own: each tick runs `mixStream` from
a zeroed mix buffer on what the tick before left (registry entry, decoder, temp
buffer, callbacks fired). -/
def streamTicks (fuel bufferSizeFrames outCh : Nat) (globalVol masterVol : ℚ)
    (stream : AltsoundStreamInfo) : Nat → MixState → Option MixState
  | 0, s => some s
  | n + 1, s =>
    match streamTicks fuel bufferSizeFrames outCh globalVol masterVol stream n s with
    | some s1 =>
      mixStream fuel bufferSizeFrames outCh globalVol masterVol stream s1.internal s1.decoder
        (fun _ => 0) s1.tempBuffer s1.fired
    | none => none

/-! ## The registry functions of `miniaudio_bass_compat.cpp` -/

/-- The function `MiniAudio_StreamCreateFile`; the parameters `mem`, `offset`,
`length` and `flags`, which the code does not read, are left out.  `file` is
`none` for a null pointer; `result` and `decoder` are what
`altsound_ma_decoder_init_file` (miniaudio, not among the sources) returns for
the file: its result code and the decoder it initialised.  The decoder is
configured with `g_sampleRate`, so the entry's `sample_rate`, which the code
takes from `decoder->outputSampleRate`, is `g_sampleRate`; its `channels` is
the decoder's channel count.  `g_nextStreamId` is a `uint32_t`. -/
def MiniAudio_StreamCreateFile (m : Mixer) (file : Option Nat) (result : Int)
    (decoder : Decoder) : Mixer × Nat :=
  match file with
  | none => ({ m with g_last_ma_err := MA_INVALID_ARGS }, MINIAUDIO_NO_STREAM)
  | some _ =>
    if result ≠ MA_SUCCESS then
      ({ m with g_last_ma_err := result }, MINIAUDIO_NO_STREAM)
    else
      let hstream := m.g_nextStreamId
      ({ m with
          g_nextStreamId := (m.g_nextStreamId + 1) % 4294967296,
          g_streamMap := Function.update m.g_streamMap hstream
            (some { decoder := some decoder, playing := false, paused := false,
                    sample_rate := m.g_sampleRate, channels := decoder.channels,
                    sync_callback := none, sync_userdata := 0 }),
          g_last_ma_err := MA_SUCCESS },
       hstream)

/-- The function `MiniAudio_ChannelSetSync`; `param`, which the code does not
read, is left out, `proc` is `none` for a null pointer, and `sync_id` is the
`static unsigned int` of the function.  The two tests of the first `if`
(`hstream == MINIAUDIO_NO_STREAM || !proc`) have the same outcome and are
made here one after the other. -/
def MiniAudio_ChannelSetSync (m : Mixer) (hstream type : Nat) (proc : Option Nat) (user : Nat) :
    Mixer × Nat :=
  match proc with
  | none => ({ m with g_last_ma_err := MA_INVALID_ARGS }, 0)
  | some p =>
    if hstream = MINIAUDIO_NO_STREAM then ({ m with g_last_ma_err := MA_INVALID_ARGS }, 0)
    else
      match m.g_streamMap hstream with
      | none => ({ m with g_last_ma_err := MA_INVALID_ARGS }, 0)
      | some it =>
        if type &&& MINIAUDIO_SYNC_END ≠ 0 then
          ({ m with
              g_streamMap := Function.update m.g_streamMap hstream
                (some { it with sync_callback := some p, sync_userdata := user }),
              sync_id := (m.sync_id + 1) % 4294967296,
              g_last_ma_err := MA_SUCCESS },
           m.sync_id)
        else ({ m with g_last_ma_err := MA_ERROR }, 0)

/-- The function `MiniAudio_ChannelPlay`. -/
def MiniAudio_ChannelPlay (m : Mixer) (hstream : Nat) (restart : Bool) : Mixer × Nat :=
  if hstream = MINIAUDIO_NO_STREAM then ({ m with g_last_ma_err := MA_INVALID_ARGS }, 0)
  else
    match m.g_streamMap hstream with
    | none => ({ m with g_last_ma_err := MA_INVALID_ARGS }, 0)
    | some it =>
      let decoder :=
        match it.decoder with
        | some d => if restart then some (altsound_ma_decoder_seek_to_pcm_frame d 0) else some d
        | none => none
      ({ m with
          g_streamMap := Function.update m.g_streamMap hstream
            (some { it with decoder := decoder, playing := true, paused := false }),
          g_last_ma_err := MA_SUCCESS },
       1)

/-- The function `MiniAudio_ChannelPause`. -/
def MiniAudio_ChannelPause (m : Mixer) (hstream : Nat) : Mixer × Nat :=
  if hstream = MINIAUDIO_NO_STREAM then ({ m with g_last_ma_err := MA_INVALID_ARGS }, 0)
  else
    match m.g_streamMap hstream with
    | none => ({ m with g_last_ma_err := MA_INVALID_ARGS }, 0)
    | some it =>
      ({ m with
          g_streamMap := Function.update m.g_streamMap hstream (some { it with paused := true }),
          g_last_ma_err := MA_SUCCESS },
       1)

/-- The function `MiniAudio_ChannelStop`. -/
def MiniAudio_ChannelStop (m : Mixer) (hstream : Nat) : Mixer × Nat :=
  if hstream = MINIAUDIO_NO_STREAM then ({ m with g_last_ma_err := MA_INVALID_ARGS }, 0)
  else
    match m.g_streamMap hstream with
    | none => ({ m with g_last_ma_err := MA_INVALID_ARGS }, 0)
    | some it =>
      ({ m with
          g_streamMap := Function.update m.g_streamMap hstream
            (some { it with playing := false, paused := false }),
          g_last_ma_err := MA_SUCCESS },
       1)

/-- The loop of `MiniAudio_StreamFree` over the channel table: the first slot
that is not null and holds the handle is deleted and set to null, and the loop
stops there (`break`). -/
def nullFirstSlot (hstream : Nat) :
    List (Option AltsoundStreamInfo) → List (Option AltsoundStreamInfo)
  | [] => []
  | none :: rest => none :: nullFirstSlot hstream rest
  | some stream :: rest =>
    if stream.hstream = hstream then none :: rest
    else some stream :: nullFirstSlot hstream rest

/-- The function `MiniAudio_StreamFree`. -/
def MiniAudio_StreamFree (m : Mixer) (hstream : Nat) : Mixer × Nat :=
  if hstream = MINIAUDIO_NO_STREAM then ({ m with g_last_ma_err := MA_INVALID_ARGS }, 0)
  else
    match m.g_streamMap hstream with
    | none => ({ m with g_last_ma_err := MA_INVALID_ARGS }, 0)
    | some _ =>
      ({ m with
          g_streamMap := Function.update m.g_streamMap hstream none,
          channel_stream := nullFirstSlot hstream m.channel_stream,
          g_last_ma_err := MA_SUCCESS },
       1)

/-- A call of one of the registry functions, with its arguments. -/
inductive RegistryOp where
  | create (file : Option Nat) (result : Int) (decoder : Decoder)
  | setSync (hstream type : Nat) (proc : Option Nat) (user : Nat)
  | play (hstream : Nat) (restart : Bool)
  | pause (hstream : Nat)
  | stop (hstream : Nat)
  | free (hstream : Nat)

/-- The registry function a `RegistryOp` names, applied to the state. -/
def applyOp (m : Mixer) : RegistryOp → Mixer × Nat
  | .create file result decoder => MiniAudio_StreamCreateFile m file result decoder
  | .setSync hstream type proc user => MiniAudio_ChannelSetSync m hstream type proc user
  | .play hstream restart => MiniAudio_ChannelPlay m hstream restart
  | .pause hstream => MiniAudio_ChannelPause m hstream
  | .stop hstream => MiniAudio_ChannelStop m hstream
  | .free hstream => MiniAudio_StreamFree m hstream

/-- A sequence of registry calls: the state after them and the values they
returned, in order. -/
def runOps : Mixer → List RegistryOp → Mixer × List Nat
  | m, [] => (m, [])
  | m, op :: ops =>
    ((runOps (applyOp m op).1 ops).1, (applyOp m op).2 :: (runOps (applyOp m op).1 ops).2)

/-- The handles that the successful `MiniAudio_StreamCreateFile` calls of a
sequence returned, in order: a create succeeds when the file is not null and
the decoder opened with `MA_SUCCESS`. -/
def createdHandles : Mixer → List RegistryOp → List Nat
  | _, [] => []
  | m, op :: ops =>
    match op with
    | .create (some _) result _ =>
      if result = MA_SUCCESS then (applyOp m op).2 :: createdHandles (applyOp m op).1 ops
      else createdHandles (applyOp m op).1 ops
    | _ => createdHandles (applyOp m op).1 ops


/-- The number of `MiniAudio_StreamCreateFile` calls of a sequence that succeed:
the file is not null and the decoder opened with `MA_SUCCESS`. -/
def successfulCreates : List RegistryOp → Nat
  | [] => 0
  | op :: ops =>
    match op with
    | .create (some _) result _ =>
      if result = MA_SUCCESS then successfulCreates ops + 1 else successfulCreates ops
    | _ => successfulCreates ops

/-- The slots of the channel table that are not null and hold the handle. -/
def slotsReferencing (hstream : Nat) (channel_stream : List (Option AltsoundStreamInfo)) :
    List (Option AltsoundStreamInfo) :=
  channel_stream.filter (fun slot =>
    match slot with
    | some stream => decide (stream.hstream = hstream)
    | none => false)

/-- The first half of the predicate the spec states on the channel table and the
registry, no dangling slot: the handle of every slot that is not null is in
the registry. -/
def slotsRegistered (m : Mixer) : Prop :=
  ∀ stream, some stream ∈ m.channel_stream → (m.g_streamMap stream.hstream).isSome = true

/-- The second half of the predicate, no orphan stream: every handle of the
registry is the handle of a slot that is not null. -/
def streamsReferenced (m : Mixer) : Prop :=
  ∀ hstream, (m.g_streamMap hstream).isSome = true →
    ∃ stream, some stream ∈ m.channel_stream ∧ stream.hstream = hstream

/-- The predicate the spec states on the channel table and the registry: the
handles the slots reference are the handles of the registry. -/
def tableMatchesRegistry (m : Mixer) : Prop :=
  slotsRegistered m ∧ streamsReferenced m
/-! ## Pause, the attribute calls and init -/

/-- The function `AltSoundPause(pause)`: for every slot of the channel table
that is not null, `MiniAudio_ChannelPause(hstream)` when `pause` is set and
`MiniAudio_ChannelPlay(hstream, false)` otherwise; the value the call returns
is only logged.  The calls do not write the channel table, so the slots the
loop reads are those the table held on entry. -/
def AltSoundPause (m : Mixer) (pause : Bool) : Mixer :=
  if pause then
    m.channel_stream.foldl (fun s slot =>
      match slot with
      | none => s
      | some stream => (MiniAudio_ChannelPause s stream.hstream).1) m
  else
    m.channel_stream.foldl (fun s slot =>
      match slot with
      | none => s
      | some stream => (MiniAudio_ChannelPlay s stream.hstream false).1) m

/-- The macro `MINIAUDIO_ATTRIB_VOL` of `miniaudio_bass_compat.hpp`. -/
def MINIAUDIO_ATTRIB_VOL : Nat := 1

/-- The function `MiniAudio_ChannelSetAttribute`; `value`, which the code does
not read, is left out. -/
def MiniAudio_ChannelSetAttribute (m : Mixer) (hstream attrib : Nat) : Mixer × Nat :=
  if hstream = MINIAUDIO_NO_STREAM then ({ m with g_last_ma_err := MA_INVALID_ARGS }, 0)
  else
    match m.g_streamMap hstream with
    | none => ({ m with g_last_ma_err := MA_INVALID_ARGS }, 0)
    | some _ =>
      if attrib = MINIAUDIO_ATTRIB_VOL then ({ m with g_last_ma_err := MA_SUCCESS }, 1)
      else ({ m with g_last_ma_err := MA_ERROR }, 0)

/-- The function `MiniAudio_ChannelGetAttribute`.  `value` is `none` for a null
pointer and otherwise holds what the pointer points to; the third component
of the result is what it points to afterwards. -/
def MiniAudio_ChannelGetAttribute (m : Mixer) (hstream attrib : Nat) (value : Option ℚ) :
    Mixer × Bool × Option ℚ :=
  if hstream = MINIAUDIO_NO_STREAM ∨ value = none then
    ({ m with g_last_ma_err := MA_INVALID_ARGS }, false, value)
  else
    match m.g_streamMap hstream with
    | none => ({ m with g_last_ma_err := MA_INVALID_ARGS }, false, value)
    | some _ =>
      if attrib = MINIAUDIO_ATTRIB_VOL then
        match slotsReferencing hstream m.channel_stream with
        | some stream :: _ => ({ m with g_last_ma_err := MA_SUCCESS }, true, some stream.gain)
        | _ => ({ m with g_last_ma_err := MA_ERROR }, false, value)
      else ({ m with g_last_ma_err := MA_ERROR }, false, value)

/-- Modelled from the spec: the processor classes `GSoundProcessor` and
`AltsoundProcessor` are not among the sources; this names the class
`AltSoundInit` instantiates. -/
inductive ProcessorClass where
  | GSoundProcessor
  | AltsoundProcessor
  deriving DecidableEq

/-- Modelled from the spec: the processor behind `g_pProcessor` (class
`AltsoundProcessorBase`, not among the sources) as far as `AltSoundInit`
writes it: the class instantiated, the format handed to the constructor of
`AltsoundProcessor`, the values handed to `setMasterVol`, `setGlobalVol`,
`romControlsVol`, `recordSoundCmds` and `setSkipCount`, and whether `init()`
has been called. -/
structure Processor where
  cls : ProcessorClass
  format : List Char
  master_vol : ℚ
  global_vol : ℚ
  rom_controls_vol : Bool
  record_sound_cmds : Bool
  skip_count : Nat
  initialised : Bool
  deriving DecidableEq

/-- Modelled from the spec: the class `AltsoundIniProcessor` is not among the
sources; this is what a successful `parse_altsound_ini` leaves for the getters
`getAltsoundFormat`, `usingRomVolumeControl`, `recordSoundCmds` and
`getSkipCount`. -/
structure AltsoundIniProcessor where
  altsound_format : List Char
  rom_volume_control : Bool
  record_sound_cmds : Bool
  skip_count : Nat

/-- The globals of `altsound.cpp` that `AltSoundInit` reads or writes:
`g_pProcessor` (`none` for `NULL`), the framer state, the output format, the
channel table, the flag `g_audioRunning`, and the number of times a mixing
thread has been started. -/
structure Globals where
  g_pProcessor : Option Processor
  g_cmdData : CmdData
  g_sampleRate : Nat
  g_channels : Nat
  g_bufferSizeFrames : Nat
  channel_stream : List (Option AltsoundStreamInfo)
  g_audioRunning : Bool
  threadsStarted : Nat

/-- The last part of `AltSoundInit`, after the processor object has been
created: the settings, `init()`, the reset of the framer state and the start
of the mixing thread. -/
def startProcessor (g : Globals) (ini : AltsoundIniProcessor) (cls : ProcessorClass)
    (format : List Char) : Globals × Bool :=
  ({ g with
      g_pProcessor := some
        { cls := cls, format := format, master_vol := 1, global_vol := 1,
          rom_controls_vol := ini.rom_volume_control,
          record_sound_cmds := ini.record_sound_cmds,
          skip_count := ini.skip_count,
          initialised := true },
      g_cmdData := { cmd_counter := 0, stored_command := -1, cmd_filter := 0,
                     cmd_buffer := clearedBuffer },
      g_audioRunning := true,
      threadsStarted := g.threadsStarted + 1 },
   true)

/-- The function `AltSoundInit`.  The paths only say where the manifest is
looked for; `parsed` is what `parse_altsound_ini` (not among the sources)
makes of it: `none` when it returns `false`.  The test `!g_pProcessor` after
`new` cannot succeed and is left out. -/
def AltSoundInit (g : Globals) (parsed : Option AltsoundIniProcessor)
    (sampleRate channels bufferSizeFrames : Nat) : Globals × Bool :=
  match g.g_pProcessor with
  | some _ => (g, false)
  | none =>
    let g1 : Globals :=
      { g with
        g_sampleRate := sampleRate,
        g_channels := channels,
        g_bufferSizeFrames := bufferSizeFrames,
        channel_stream := g.channel_stream.map (fun _ => none) }
    match parsed with
    | none => (g1, false)
    | some ini_proc =>
      let format := ini_proc.altsound_format
      if format = String.toList "g-sound" then
        startProcessor g1 ini_proc .GSoundProcessor []
      else if format = String.toList "altsound" ∨ format = String.toList "legacy" then
        startProcessor g1 ini_proc .AltsoundProcessor format
      else (g1, false)

/-- A state of the globals with no processor: the output format of the
initialisers of `altsound.cpp` (sample rate `44100`, two channels, `256`
frames), the channel table all null, no mixing thread, and the framer state
given as parameter (the declaration of `CmdData`, which fixes its value at
process start, is not among the sources). -/
def idleGlobals (g_cmdData : CmdData) : Globals :=
  { g_pProcessor := none,
    g_cmdData := g_cmdData,
    g_sampleRate := 44100,
    g_channels := 2,
    g_bufferSizeFrames := 256,
    channel_stream := List.replicate ALT_MAX_CHANNELS none,
    g_audioRunning := false,
    threadsStarted := 0 }

/-! ## The S11 rule as the spec words it -/

/-- The emissions the spec gives for the S11 family, from the byte before
(`prev`) on: a byte is emitted, as it is, when it differs from the byte before
it, and absorbed when it is equal to it. -/
def s11Expected : Nat → List Nat → List Nat
  | _, [] => []
  | prev, cmd :: cmds =>
    (if cmd ≠ prev then [cmd] else []) ++ s11Expected cmd cmds

/-! ## Sample categories and ducking profiles (`altsound_data.cpp`) -/

/-- Modelled from the spec: the enumeration `AltsoundSampleType` is declared in
`altsound_data.hpp`, which is not among the sources; these are the seven
enumerators `altsound_data.cpp` names. -/
inductive AltsoundSampleType where
  | UNDEFINED
  | MUSIC
  | JINGLE
  | SFX
  | CALLOUT
  | SOLO
  | OVERLAY
  deriving DecidableEq

/-- The function `toString(sampleType)`; a `std::string` or C string is the list
of its characters.  The `default` branch is for values outside the
enumeration. -/
def toString (sampleType : AltsoundSampleType) : List Char :=
  match sampleType with
  | .UNDEFINED => String.toList "UNDEFINED"
  | .MUSIC => String.toList "MUSIC"
  | .JINGLE => String.toList "JINGLE"
  | .SFX => String.toList "SFX"
  | .CALLOUT => String.toList "CALLOUT"
  | .SOLO => String.toList "SOLO"
  | .OVERLAY => String.toList "OVERLAY"

/-- The function `toupper` of the C library, in the "C" locale: the letters `a`
to `z` go to `A` to `Z`, every other character is left as it is. -/
def toupper (c : Char) : Char :=
  if 97 ≤ c.toNat ∧ c.toNat ≤ 122 then Char.ofNat (c.toNat - 32) else c

/-- The function `tolower` of the C library, in the "C" locale. -/
def tolower (c : Char) : Char :=
  if 65 ≤ c.toNat ∧ c.toNat ≤ 90 then Char.ofNat (c.toNat + 32) else c

/-- The table `typeMap` of `toSampleType`, as the list of its entries. -/
def typeMap : List (List Char × AltsoundSampleType) :=
  [(String.toList "UNDEFINED", .UNDEFINED),
   (String.toList "MUSIC", .MUSIC),
   (String.toList "JINGLE", .JINGLE),
   (String.toList "SFX", .SFX),
   (String.toList "CALLOUT", .CALLOUT),
   (String.toList "SOLO", .SOLO),
   (String.toList "OVERLAY", .OVERLAY)]

/-- The function `toSampleType(type_in)`: the string is put in upper case and
looked up in `typeMap`; a string that is not a key gives `UNDEFINED`. -/
def toSampleType (type_in : List Char) : AltsoundSampleType :=
  let str := type_in.map toupper
  match typeMap.lookup str with
  | some t => t
  | none => .UNDEFINED

/-- Modelled from the spec: the record `_ducking_profile` is declared in
`altsound_data.hpp`, which is not among the sources; these are the five fields
`altsound_data.cpp` reads. -/
structure _ducking_profile where
  music_duck_vol : ℚ
  callout_duck_vol : ℚ
  sfx_duck_vol : ℚ
  solo_duck_vol : ℚ
  overlay_duck_vol : ℚ
  deriving DecidableEq

/-- Modelled from the spec: the record `_behavior_info` is declared in
`altsound_data.hpp`, which is not among the sources; `getDuckVolume` reads its
map `ducking_profiles` from profile names to profiles (`none` for a name that
is not a key). -/
structure _behavior_info where
  ducking_profiles : List Char → Option _ducking_profile

/-- The function `_behavior_info::getDuckVolume(profile_num, type)`; the key is
`"profile" + std::to_string(profile_num)`, the decimal digits of the number. -/
def getDuckVolume (b : _behavior_info) (profile_num : Nat) (type : AltsoundSampleType) : ℚ :=
  let profile_key := String.toList "profile" ++ (Nat.repr profile_num).toList
  match b.ducking_profiles profile_key with
  | some profile =>
    match type with
    | .MUSIC => profile.music_duck_vol
    | .CALLOUT => profile.callout_duck_vol
    | .SFX => profile.sfx_duck_vol
    | .SOLO => profile.solo_duck_vol
    | .OVERLAY => profile.overlay_duck_vol
    | _ => 1
  | none => 1
/-! ## Basic facts about the embedding -/

theorem preprocess_calls (e : Engine) (cmd : Nat) :
    (altsound_preprocess_commands e cmd).calls = e.calls := by
  obtain ⟨gen, d, mv, gv, rom, calls⟩ := e
  cases gen <;> simp only [altsound_preprocess_commands] <;> (repeat (split <;> try rfl))

theorem preprocess_gen (e : Engine) (cmd : Nat) :
    (altsound_preprocess_commands e cmd).g_hardwareGen = e.g_hardwareGen := by
  obtain ⟨gen, d, mv, gv, rom, calls⟩ := e
  cases gen <;> simp only [altsound_preprocess_commands] <;> (repeat (split <;> try rfl))

theorem preprocess_rom (e : Engine) (cmd : Nat) :
    (altsound_preprocess_commands e cmd).rom_controls_vol = e.rom_controls_vol := by
  obtain ⟨gen, d, mv, gv, rom, calls⟩ := e
  cases gen <;> simp only [altsound_preprocess_commands] <;> (repeat (split <;> try rfl))

theorem preprocess_cmdData (e : Engine) (cmd : Nat) :
    (altsound_preprocess_commands e cmd).g_cmdData
      = (altsound_preprocess_commands (engineOf e.g_hardwareGen e.g_cmdData) cmd).g_cmdData := by
  obtain ⟨gen, d, mv, gv, rom, calls⟩ := e
  cases gen <;> simp only [altsound_preprocess_commands, engineOf] <;>
    (repeat (split <;> try rfl))


theorem postprocess_emitted (e : Engine) (c : Nat) :
    emitted (altsound_postprocess_commands e c) = emitted e := by
  obtain ⟨gen, d, mv, gv, rom, calls⟩ := e
  cases gen <;> simp [altsound_postprocess_commands, emitted] <;> split <;> simp

theorem postprocess_cmdData (e : Engine) (c : Nat) :
    (altsound_postprocess_commands e c).g_cmdData = e.g_cmdData := by
  obtain ⟨gen, d, mv, gv, rom, calls⟩ := e
  cases gen <;> simp [altsound_postprocess_commands] <;> split <;> simp

theorem postprocess_gen (e : Engine) (c : Nat) :
    (altsound_postprocess_commands e c).g_hardwareGen = e.g_hardwareGen := by
  obtain ⟨gen, d, mv, gv, rom, calls⟩ := e
  cases gen <;> simp [altsound_postprocess_commands] <;> split <;> simp

theorem postprocess_vols (e : Engine) (c : Nat) :
    (altsound_postprocess_commands e c).global_vol = e.global_vol
    ∧ (altsound_postprocess_commands e c).master_vol = e.master_vol
    ∧ (altsound_postprocess_commands e c).rom_controls_vol = e.rom_controls_vol := by
  obtain ⟨gen, d, mv, gv, rom, calls⟩ := e
  cases gen <;> simp [altsound_postprocess_commands] <;> split <;> simp

theorem frame_calls (e : Engine) (cmd : Nat) (attenuation : Int) :
    (frame e cmd attenuation).calls = e.calls := by
  simp [frame, preprocess_calls]

theorem frame_gen (e : Engine) (cmd : Nat) (attenuation : Int) :
    (frame e cmd attenuation).g_hardwareGen = e.g_hardwareGen := by
  simp [frame, preprocess_gen]

theorem frame_rom (e : Engine) (cmd : Nat) (attenuation : Int) :
    (frame e cmd attenuation).rom_controls_vol = e.rom_controls_vol := by
  simp [frame, preprocess_rom]

theorem emitted_frame (e : Engine) (cmd : Nat) (attenuation : Int) :
    emitted (frame e cmd attenuation) = emitted e := by
  simp [emitted, frame_calls]

theorem frame_cmdData (e : Engine) (cmd : Nat) (attenuation : Int) :
    (frame e cmd attenuation).g_cmdData = framedData e.g_hardwareGen e.g_cmdData cmd := by
  unfold framedData frame
  rw [preprocess_cmdData]
  conv_rhs => rw [preprocess_cmdData]
  rfl

/-- What one call of `AltSoundProcessCommand` does when the framer absorbs the
byte. -/
theorem process_absorb (handleCmd : Engine → Nat → Bool) (e : Engine) (cmd : Nat)
    (attenuation : Int)
    (h : (frame e cmd attenuation).g_cmdData.cmd_filter ≠ 0 ∨
         (frame e cmd attenuation).g_cmdData.cmd_counter % 2 ≠ 0) :
    AltSoundProcessCommand handleCmd e cmd attenuation
      = ({ frame e cmd attenuation with
            g_cmdData := { (frame e cmd attenuation).g_cmdData with
                            stored_command := toInt32 cmd } }, true) := by
  unfold AltSoundProcessCommand
  simp only [if_pos h]

/-- What one call of `AltSoundProcessCommand` emits when the framer lets the
byte through. -/
theorem process_emit (handleCmd : Engine → Nat → Bool) (e : Engine) (cmd : Nat)
    (attenuation : Int)
    (hf : (frame e cmd attenuation).g_cmdData.cmd_filter = 0)
    (hc : (frame e cmd attenuation).g_cmdData.cmd_counter % 2 = 0) :
    emitted (AltSoundProcessCommand handleCmd e cmd attenuation).1
        = emitted e ++ [combine (frame e cmd attenuation).g_cmdData.stored_command cmd]
    ∧ (AltSoundProcessCommand handleCmd e cmd attenuation).1.g_cmdData
        = (frame e cmd attenuation).g_cmdData
    ∧ (AltSoundProcessCommand handleCmd e cmd attenuation).2
        = handleCmd (frame e cmd attenuation)
            (combine (frame e cmd attenuation).g_cmdData.stored_command cmd) := by
  have hn : ¬ ((frame e cmd attenuation).g_cmdData.cmd_filter ≠ 0 ∨
         (frame e cmd attenuation).g_cmdData.cmd_counter % 2 ≠ 0) := by
    simp [hf, hc]
  unfold AltSoundProcessCommand
  simp only [if_neg hn]
  cases hh : handleCmd (frame e cmd attenuation)
      (combine (frame e cmd attenuation).g_cmdData.stored_command cmd) <;>
    (simp only [hh, postprocess_emitted, postprocess_cmdData, if_true, if_false,
        Bool.false_eq_true, Bool.true_eq_false]
     simp [emitted, frame_calls])

theorem process_gen (handleCmd : Engine → Nat → Bool) (e : Engine) (cmd : Nat)
    (attenuation : Int) :
    (AltSoundProcessCommand handleCmd e cmd attenuation).1.g_hardwareGen = e.g_hardwareGen := by
  by_cases h : (frame e cmd attenuation).g_cmdData.cmd_filter ≠ 0 ∨
         (frame e cmd attenuation).g_cmdData.cmd_counter % 2 ≠ 0
  · rw [process_absorb handleCmd e cmd attenuation h]
    exact frame_gen e cmd attenuation
  · unfold AltSoundProcessCommand
    simp only [if_neg h]
    split <;> simp [postprocess_gen, frame_gen]

theorem process_cmdData (handleCmd : Engine → Nat → Bool) (e : Engine) (cmd : Nat)
    (attenuation : Int) :
    (AltSoundProcessCommand handleCmd e cmd attenuation).1.g_cmdData
      = if (framedData e.g_hardwareGen e.g_cmdData cmd).cmd_filter ≠ 0 ∨
            (framedData e.g_hardwareGen e.g_cmdData cmd).cmd_counter % 2 ≠ 0
        then { framedData e.g_hardwareGen e.g_cmdData cmd with stored_command := toInt32 cmd }
        else framedData e.g_hardwareGen e.g_cmdData cmd := by
  rw [← frame_cmdData e cmd attenuation]
  by_cases h : (frame e cmd attenuation).g_cmdData.cmd_filter ≠ 0 ∨
         (frame e cmd attenuation).g_cmdData.cmd_counter % 2 ≠ 0
  · rw [process_absorb handleCmd e cmd attenuation h, if_pos h]
  · rw [if_neg h]
    push_neg at h
    exact (process_emit handleCmd e cmd attenuation h.1 h.2).2.1

theorem process_emitted (handleCmd : Engine → Nat → Bool) (e : Engine) (cmd : Nat)
    (attenuation : Int) :
    emitted (AltSoundProcessCommand handleCmd e cmd attenuation).1
      = emitted e ++
        (if (framedData e.g_hardwareGen e.g_cmdData cmd).cmd_filter ≠ 0 ∨
            (framedData e.g_hardwareGen e.g_cmdData cmd).cmd_counter % 2 ≠ 0
        then []
        else [combine (framedData e.g_hardwareGen e.g_cmdData cmd).stored_command cmd]) := by
  rw [← frame_cmdData e cmd attenuation]
  by_cases h : (frame e cmd attenuation).g_cmdData.cmd_filter ≠ 0 ∨
         (frame e cmd attenuation).g_cmdData.cmd_counter % 2 ≠ 0
  · rw [process_absorb handleCmd e cmd attenuation h, if_pos h]
    simp [emitted, frame_calls]
  · rw [if_neg h]
    push_neg at h
    exact (process_emit handleCmd e cmd attenuation h.1 h.2).1

theorem stepData_eq (gen : ALTSOUND_HARDWARE_GEN) (d : CmdData) (cmd : Nat) :
    stepData gen d cmd
      = if (framedData gen d cmd).cmd_filter ≠ 0 ∨ (framedData gen d cmd).cmd_counter % 2 ≠ 0
        then { framedData gen d cmd with stored_command := toInt32 cmd }
        else framedData gen d cmd := by
  unfold stepData
  rw [process_cmdData]
  rfl

theorem stepEmit_eq (gen : ALTSOUND_HARDWARE_GEN) (d : CmdData) (cmd : Nat) :
    stepEmit gen d cmd
      = if (framedData gen d cmd).cmd_filter ≠ 0 ∨ (framedData gen d cmd).cmd_counter % 2 ≠ 0
        then []
        else [combine (framedData gen d cmd).stored_command cmd] := by
  unfold stepEmit
  rw [process_emitted]
  simp [engineOf, emitted]

theorem processCommands_gen (handleCmd : Engine → Nat → Bool) (cmds : List Nat) (e : Engine) :
    (processCommands handleCmd e cmds).g_hardwareGen = e.g_hardwareGen := by
  induction cmds generalizing e with
  | nil => rfl
  | cons c cs ih =>
    show (processCommands handleCmd (AltSoundProcessCommand handleCmd e c 0).1 cs).g_hardwareGen = _
    rw [ih, process_gen]

theorem processCommands_cmdData (handleCmd : Engine → Nat → Bool) (cmds : List Nat)
    (e : Engine) :
    (processCommands handleCmd e cmds).g_cmdData = runData e.g_hardwareGen e.g_cmdData cmds := by
  induction cmds generalizing e with
  | nil => rfl
  | cons c cs ih =>
    show (processCommands handleCmd (AltSoundProcessCommand handleCmd e c 0).1 cs).g_cmdData
      = runData e.g_hardwareGen (stepData e.g_hardwareGen e.g_cmdData c) cs
    rw [ih, process_gen, process_cmdData, stepData_eq]

theorem processCommands_emitted (handleCmd : Engine → Nat → Bool) (cmds : List Nat)
    (e : Engine) :
    emitted (processCommands handleCmd e cmds)
      = emitted e ++ runEmit e.g_hardwareGen e.g_cmdData cmds := by
  induction cmds generalizing e with
  | nil => simp [processCommands, runEmit]
  | cons c cs ih =>
    show emitted (processCommands handleCmd (AltSoundProcessCommand handleCmd e c 0).1 cs) = _
    rw [ih, process_gen, process_cmdData, process_emitted, runEmit, stepData_eq, stepEmit_eq,
      List.append_assoc]


theorem toInt32_of_lt (n : Nat) (h : n < 2147483648) : toInt32 n = (n : Int) := by
  unfold toInt32
  have : n % 4294967296 = n := Nat.mod_eq_of_lt (by omega)
  rw [this, if_pos h]

theorem combine_of_nat (h cmd : Nat) (hh : h ≤ 255) :
    combine (h : Int) cmd = (h <<< 8) ||| cmd := by
  unfold combine toUInt32
  rw [Nat.shiftLeft_eq]
  congr 1
  omega

theorem combine_zero (cmd : Nat) : combine 0 cmd = cmd := by
  simp [combine, toUInt32]

/-- C1: `AltSoundProcessCommand` hands a logical command to `handleCmd` if and
only if, after the framing rules ran on the byte, the filter flag is clear and
the parity counter is even; otherwise it returns `true`, makes no call at all
(no dispatch, no post-emission hook) and leaves the byte in the stored-command
register.  A byte on which the filter flag is set is never emitted. -/
theorem C1_dispatch_iff_unfiltered_and_even (handleCmd : Engine → Nat → Bool) (e : Engine)
    (cmd : Nat) (attenuation : Int) :
    (emitted (AltSoundProcessCommand handleCmd e cmd attenuation).1
          = emitted e ++ [combine (frame e cmd attenuation).g_cmdData.stored_command cmd]
        ↔ ((frame e cmd attenuation).g_cmdData.cmd_filter = 0 ∧
            (frame e cmd attenuation).g_cmdData.cmd_counter % 2 = 0))
    ∧ (¬ ((frame e cmd attenuation).g_cmdData.cmd_filter = 0 ∧
            (frame e cmd attenuation).g_cmdData.cmd_counter % 2 = 0) →
        (AltSoundProcessCommand handleCmd e cmd attenuation).2 = true ∧
        (AltSoundProcessCommand handleCmd e cmd attenuation).1.calls = e.calls ∧
        (AltSoundProcessCommand handleCmd e cmd attenuation).1.g_cmdData
          = { (frame e cmd attenuation).g_cmdData with stored_command := toInt32 cmd })
    ∧ ((frame e cmd attenuation).g_cmdData.cmd_filter ≠ 0 →
        emitted (AltSoundProcessCommand handleCmd e cmd attenuation).1 = emitted e) := by
  have habs : ¬ ((frame e cmd attenuation).g_cmdData.cmd_filter = 0 ∧
            (frame e cmd attenuation).g_cmdData.cmd_counter % 2 = 0) →
        (AltSoundProcessCommand handleCmd e cmd attenuation).2 = true ∧
        (AltSoundProcessCommand handleCmd e cmd attenuation).1.calls = e.calls ∧
        (AltSoundProcessCommand handleCmd e cmd attenuation).1.g_cmdData
          = { (frame e cmd attenuation).g_cmdData with stored_command := toInt32 cmd } := by
    intro hn
    have h : (frame e cmd attenuation).g_cmdData.cmd_filter ≠ 0 ∨
         (frame e cmd attenuation).g_cmdData.cmd_counter % 2 ≠ 0 := by
      by_contra hc
      push_neg at hc
      exact hn hc
    rw [process_absorb handleCmd e cmd attenuation h]
    simp [frame_calls]
  refine ⟨⟨?_, ?_⟩, habs, ?_⟩
  · intro heq
    by_contra hn
    have hcalls := (habs hn).2.1
    have : emitted (AltSoundProcessCommand handleCmd e cmd attenuation).1 = emitted e := by
      simp [emitted, hcalls]
    rw [this] at heq
    have := congrArg List.length heq
    simp at this
  · rintro ⟨hf, hc⟩
    exact (process_emit handleCmd e cmd attenuation hf hc).1
  · intro hf
    have hcalls := (habs (fun h => hf h.1)).2.1
    simp [emitted, hcalls]

/-- C2: with generation WPCDMD, WPCALPHA_2 or WPCFLIPTRON and the framer in the
state left by init, the byte `0x7A` is absorbed and the byte `YY` that follows
it is emitted, once, as `(0x7A << 8) | YY`. -/
theorem C2_wpcdmd_two_byte_command (handleCmd : Engine → Nat → Bool)
    (gen : ALTSOUND_HARDWARE_GEN) (romVol : Bool) (YY : Nat)
    (hgen : gen = .WPCDMD ∨ gen = .WPCALPHA_2 ∨ gen = .WPCFLIPTRON) :
    emitted (processCommands handleCmd (initEngine gen romVol) [0x7A]) = []
    ∧ emitted (processCommands handleCmd (initEngine gen romVol) [0x7A, YY])
        = [(0x7A <<< 8) ||| YY] := by
  have hc : combine 122 YY = (0x7A <<< 8) ||| YY := combine_of_nat 122 YY (by decide)
  rw [processCommands_emitted, processCommands_emitted]
  rcases hgen with h | h | h <;> subst h <;>
    simp [initEngine, emitted, runEmit, stepEmit_eq, stepData_eq, framedData, frame, engineOf,
      altsound_preprocess_commands, shiftBuffer, initCmdData, clearedBuffer, NOT0, toInt32, hc]

/-- C2 at generation WPCDMD and the bytes `0x7A, 0x42`: one emission, `0x7A42`. -/
theorem C2_wpcdmd_two_byte_command_witness :
    emitted (processCommands (fun _ _ => true) (initEngine .WPCDMD true) [0x7A]) = []
    ∧ emitted (processCommands (fun _ _ => true) (initEngine .WPCDMD true) [0x7A, 0x42])
        = [0x7A42] :=
  C2_wpcdmd_two_byte_command (fun _ _ => true) .WPCDMD true 0x42 (Or.inl rfl)



/-- The framer state with the counter incremented and the byte shifted in, as
`AltSoundProcessCommand` passes it to the framing rules. -/
theorem framedData_default (gen : ALTSOUND_HARDWARE_GEN) (d : CmdData) (cmd : Nat)
    (hgen : gen = .NONE ∨ ∃ tag, gen = .OTHER tag) :
    framedData gen d cmd
      = { d with cmd_counter := (d.cmd_counter + 1) % 4294967296,
                 cmd_buffer := shiftBuffer d.cmd_buffer cmd } := by
  rcases hgen with h | ⟨tag, h⟩ <;> subst h <;>
    simp [framedData, frame, engineOf, altsound_preprocess_commands]

theorem framedData_dcs (gen : ALTSOUND_HARDWARE_GEN) (d : CmdData) (cmd : Nat)
    (hgen : gen = .WPCDCS ∨ gen = .WPCSECURITY ∨ gen = .WPC95DCS ∨ gen = .WPC95) :
    framedData gen d cmd
      = if d.cmd_buffer.b2 = 0x55 ∧
            ((0xAB ≤ d.cmd_buffer.b1 ∧ d.cmd_buffer.b1 ≤ 0xB0 ∧ d.cmd_buffer.b0 = cmd ^^^ 0xFF) ∨
             d.cmd_buffer.b1 = 0xC2 ∨ d.cmd_buffer.b1 = 0xC3 ∨
             (0xBA ≤ d.cmd_buffer.b1 ∧ d.cmd_buffer.b1 ≤ 0xC1 ∧ d.cmd_buffer.b0 = cmd ^^^ 0xFF) ∨
             d.cmd_buffer.b1 = 0xAA)
        then { d with cmd_counter := 0, cmd_filter := 1, cmd_buffer := clearedBuffer }
        else { d with cmd_counter := (d.cmd_counter + 1) % 4294967296, cmd_filter := 0,
                      cmd_buffer := shiftBuffer d.cmd_buffer cmd } := by
  obtain ⟨cnt, st, fl, b0, b1, b2, b3⟩ := d
  rcases hgen with h | h | h | h <;> subst h <;>
    simp only [framedData, frame, engineOf, altsound_preprocess_commands, shiftBuffer, consume] <;>
    split_ifs <;> first | rfl | (exfalso; simp_all; try omega)


theorem framedData_wpcdmd (gen : ALTSOUND_HARDWARE_GEN) (d : CmdData) (cmd : Nat)
    (hgen : gen = .WPCDMD ∨ gen = .WPCALPHA_2 ∨ gen = .WPCFLIPTRON) :
    framedData gen d cmd
      = if d.cmd_buffer.b1 = 0x79 ∧ d.cmd_buffer.b0 = cmd ^^^ 0xFF then
          { d with cmd_counter := 0, cmd_filter := 1, cmd_buffer := clearedBuffer }
        else if d.cmd_buffer.b0 = 0x7A then
          { d with cmd_counter := 0, stored_command := 0x7A, cmd_filter := 0,
                   cmd_buffer := shiftBuffer d.cmd_buffer cmd }
        else if cmd ≠ 0x7A then
          { d with cmd_counter := 0, stored_command := 0, cmd_filter := 0,
                   cmd_buffer := shiftBuffer d.cmd_buffer cmd }
        else
          { d with cmd_counter := 1, cmd_filter := 0,
                   cmd_buffer := shiftBuffer d.cmd_buffer cmd } := by
  obtain ⟨cnt, st, fl, b0, b1, b2, b3⟩ := d
  rcases hgen with h | h | h <;> subst h <;>
    simp only [framedData, frame, engineOf, altsound_preprocess_commands, shiftBuffer, consume] <;>
    split_ifs <;> first | rfl | simp_all [toInt32]

theorem framedData_s11 (gen : ALTSOUND_HARDWARE_GEN) (d : CmdData) (cmd : Nat)
    (hgen : gen = .WPCALPHA_1 ∨ gen = .S11 ∨ gen = .S11X ∨ gen = .S11B2 ∨ gen = .S11C) :
    framedData gen d cmd
      = if cmd ≠ d.cmd_buffer.b0 then
          { d with cmd_counter := 0, stored_command := 0,
                   cmd_buffer := shiftBuffer d.cmd_buffer cmd }
        else
          { d with cmd_counter := 1, cmd_buffer := shiftBuffer d.cmd_buffer cmd } := by
  obtain ⟨cnt, st, fl, b0, b1, b2, b3⟩ := d
  rcases hgen with h | h | h | h | h <;> subst h <;>
    simp only [framedData, frame, engineOf, altsound_preprocess_commands, shiftBuffer] <;>
    split_ifs <;> rfl

theorem framedData_de (gen : ALTSOUND_HARDWARE_GEN) (d : CmdData) (cmd : Nat)
    (hgen : gen = .DEDMD16 ∨ gen = .DEDMD32 ∨ gen = .DEDMD64 ∨ gen = .DE) :
    framedData gen d cmd
      = if cmd ≠ 0xFF ∧ cmd ≠ 0x00 then
          { d with cmd_counter := 0, stored_command := 0,
                   cmd_buffer := shiftBuffer d.cmd_buffer cmd }
        else if d.cmd_buffer.b0 = 0x00 ∧ cmd = 0x00 then
          { d with cmd_counter := 0, stored_command := 0,
                   cmd_buffer := shiftBuffer d.cmd_buffer cmd }
        else
          { d with cmd_counter := 1, cmd_buffer := shiftBuffer d.cmd_buffer cmd } := by
  obtain ⟨cnt, st, fl, b0, b1, b2, b3⟩ := d
  rcases hgen with h | h | h | h <;> subst h <;>
    simp only [framedData, frame, engineOf, altsound_preprocess_commands, shiftBuffer] <;>
    split_ifs <;> rfl

theorem and_0xFC_ne (cmd : Nat) (h : cmd ≤ 0x2F) : cmd &&& 0xFC ≠ 0xFC := by
  interval_cases cmd <;> decide

theorem framedData_ws (gen : ALTSOUND_HARDWARE_GEN) (d : CmdData) (cmd : Nat)
    (hgen : gen = .WS ∨ gen = .WS_1 ∨ gen = .WS_2) :
    framedData gen d cmd
      = if d.cmd_buffer.b0 = 0xFE ∧ 0x10 ≤ cmd ∧ cmd ≤ 0x2F then
          { d with cmd_counter := 0, cmd_filter := 1, cmd_buffer := clearedBuffer }
        else if d.cmd_buffer.b0 = 0xFE ∧ 0x01 ≤ cmd ∧ cmd ≤ 0x0F then
          { d with cmd_counter := 0, stored_command := 0, cmd_filter := 1,
                   cmd_buffer := shiftBuffer d.cmd_buffer cmd }
        else if cmd &&& 0xFC = 0xFC then
          { d with cmd_counter := 1, cmd_filter := 0,
                   cmd_buffer := shiftBuffer d.cmd_buffer cmd }
        else
          { d with cmd_counter := (d.cmd_counter + 1) % 4294967296, cmd_filter := 0,
                   cmd_buffer := shiftBuffer d.cmd_buffer cmd } := by
  obtain ⟨cnt, st, fl, b0, b1, b2, b3⟩ := d
  by_cases hlow : cmd ≤ 0x2F
  · have hne := and_0xFC_ne cmd hlow
    rcases hgen with h | h | h <;> subst h <;>
      simp only [framedData, frame, engineOf, altsound_preprocess_commands, shiftBuffer,
        consume] <;>
      split_ifs <;> first | rfl | (exfalso; simp_all; try omega)
  · rcases hgen with h | h | h <;> subst h <;>
      simp only [framedData, frame, engineOf, altsound_preprocess_commands, shiftBuffer,
        consume] <;>
      split_ifs <;> first | rfl | (exfalso; simp_all; try omega)

theorem framedData_gts80 (d : CmdData) (cmd : Nat) :
    framedData .GTS80 d cmd
      = if cmd = 0x00 then
          { d with cmd_counter := 0, stored_command := 0, cmd_filter := 1,
                   cmd_buffer := shiftBuffer d.cmd_buffer cmd }
        else
          { d with cmd_counter := 0, stored_command := 0, cmd_filter := 0,
                   cmd_buffer := shiftBuffer d.cmd_buffer cmd } := by
  obtain ⟨cnt, st, fl, b0, b1, b2, b3⟩ := d
  simp only [framedData, frame, engineOf, altsound_preprocess_commands, shiftBuffer]
  split_ifs <;> rfl


/-- Every hardware generation belongs to one of the seven cases of the framer's
switch. -/
theorem gen_family (gen : ALTSOUND_HARDWARE_GEN) :
    (gen = .NONE ∨ ∃ tag, gen = .OTHER tag)
    ∨ (gen = .WPCDCS ∨ gen = .WPCSECURITY ∨ gen = .WPC95DCS ∨ gen = .WPC95)
    ∨ (gen = .WPCDMD ∨ gen = .WPCALPHA_2 ∨ gen = .WPCFLIPTRON)
    ∨ (gen = .WPCALPHA_1 ∨ gen = .S11 ∨ gen = .S11X ∨ gen = .S11B2 ∨ gen = .S11C)
    ∨ (gen = .DEDMD16 ∨ gen = .DEDMD32 ∨ gen = .DEDMD64 ∨ gen = .DE)
    ∨ (gen = .WS ∨ gen = .WS_1 ∨ gen = .WS_2)
    ∨ gen = .GTS80 := by
  cases gen <;> simp

/-- When the framer lets a byte through, the stored-command register holds a
byte value, provided it held one before or still holds the `-1` of init with
an even counter. -/
theorem framedData_stored_of_emit (gen : ALTSOUND_HARDWARE_GEN) (d : CmdData) (cmd : Nat)
    (hinv : (0 ≤ d.stored_command ∧ d.stored_command ≤ 255) ∨
            (d.stored_command = -1 ∧ d.cmd_counter % 2 = 0))
    (hf : (framedData gen d cmd).cmd_filter = 0)
    (hc : (framedData gen d cmd).cmd_counter % 2 = 0) :
    0 ≤ (framedData gen d cmd).stored_command ∧ (framedData gen d cmd).stored_command ≤ 255 := by
  rcases gen_family gen with h | h | h | h | h | h | h
  · rw [framedData_default _ _ _ h] at hf hc ⊢
    dsimp only at hf hc ⊢
    omega
  · rw [framedData_dcs _ _ _ h] at hf hc ⊢
    split_ifs at hf hc ⊢
    dsimp only at hf hc ⊢
    omega
  · rw [framedData_wpcdmd _ _ _ h] at hf hc ⊢
    split_ifs at hf hc ⊢ <;> simp at hf hc ⊢
  · rw [framedData_s11 _ _ _ h] at hf hc ⊢
    split_ifs at hf hc ⊢ <;> simp at hf hc ⊢
  · rw [framedData_de _ _ _ h] at hf hc ⊢
    split_ifs at hf hc ⊢ <;> simp at hf hc ⊢
  · rw [framedData_ws _ _ _ h] at hf hc ⊢
    split_ifs at hf hc ⊢
    all_goals first | (simp at hc; done) | (dsimp only at hf hc ⊢; omega)
  · subst h
    rw [framedData_gts80] at hf hc ⊢
    split_ifs at hf hc ⊢
    simp at hf hc ⊢

/-- After any call on a byte the stored-command register holds a byte value,
provided it held one before or still holds the `-1` of init with an even
counter. -/
theorem stepData_stored (gen : ALTSOUND_HARDWARE_GEN) (d : CmdData) (cmd : Nat)
    (hcmd : cmd ≤ 255)
    (hinv : (0 ≤ d.stored_command ∧ d.stored_command ≤ 255) ∨
            (d.stored_command = -1 ∧ d.cmd_counter % 2 = 0)) :
    0 ≤ (stepData gen d cmd).stored_command ∧ (stepData gen d cmd).stored_command ≤ 255 := by
  rw [stepData_eq]
  split_ifs with h
  · simp only
    rw [toInt32_of_lt cmd (by omega)]
    omega
  · push_neg at h
    exact framedData_stored_of_emit gen d cmd hinv h.1 h.2


theorem combine_byte_bound (s : Int) (cmd : Nat) (h0 : 0 ≤ s) (h1 : s ≤ 255) (hcmd : cmd ≤ 255) :
    combine s cmd = (s.toNat <<< 8) ||| cmd ∧ (s.toNat <<< 8) ||| cmd ≤ 0xFFFF := by
  have hs : (s.toNat : Int) = s := Int.toNat_of_nonneg h0
  have hle : s.toNat ≤ 255 := by omega
  refine ⟨?_, ?_⟩
  · rw [← combine_of_nat s.toNat cmd hle, hs]
  · have hlt : (s.toNat <<< 8) ||| cmd < 2 ^ 16 := by
      apply Nat.or_lt_two_pow
      · rw [Nat.shiftLeft_eq]
        omega
      · omega
    omega

/-- Over a trace of bytes the stored-command register keeps a byte value, or
the `-1` of init with an even counter. -/
theorem runData_stored (gen : ALTSOUND_HARDWARE_GEN) (cmds : List Nat) (d : CmdData)
    (hcmds : ∀ b ∈ cmds, b ≤ 255)
    (hinv : (0 ≤ d.stored_command ∧ d.stored_command ≤ 255) ∨
            (d.stored_command = -1 ∧ d.cmd_counter % 2 = 0)) :
    (0 ≤ (runData gen d cmds).stored_command ∧ (runData gen d cmds).stored_command ≤ 255) ∨
      ((runData gen d cmds).stored_command = -1 ∧ (runData gen d cmds).cmd_counter % 2 = 0) := by
  induction cmds generalizing d with
  | nil => exact hinv
  | cons c cs ih =>
    show (0 ≤ (runData gen (stepData gen d c) cs).stored_command ∧ _) ∨ _
    apply ih
    · intro b hb
      exact hcmds b (List.mem_cons_of_mem _ hb)
    · exact Or.inl (stepData_stored gen d c (hcmds c (List.mem_cons_self _ _)) hinv)

/-- Every logical command emitted over a trace of bytes fits in 16 bits. -/
theorem runEmit_bound (gen : ALTSOUND_HARDWARE_GEN) (cmds : List Nat) (d : CmdData)
    (hcmds : ∀ b ∈ cmds, b ≤ 255)
    (hinv : (0 ≤ d.stored_command ∧ d.stored_command ≤ 255) ∨
            (d.stored_command = -1 ∧ d.cmd_counter % 2 = 0)) :
    ∀ c ∈ runEmit gen d cmds, c ≤ 0xFFFF := by
  induction cmds generalizing d with
  | nil => intro c hc; simp [runEmit] at hc
  | cons b bs ih =>
    have hb : b ≤ 255 := hcmds b (List.mem_cons_self _ _)
    intro c hc
    rw [runEmit, List.mem_append] at hc
    rcases hc with hc | hc
    · rw [stepEmit_eq] at hc
      split_ifs at hc with h
      · simp at hc
      · push_neg at h
        have hs := framedData_stored_of_emit gen d b hinv h.1 h.2
        rw [List.mem_singleton] at hc
        rw [hc, (combine_byte_bound _ b hs.1 hs.2 hb).1]
        exact (combine_byte_bound _ b hs.1 hs.2 hb).2
    · exact ih (stepData gen d b) (fun x hx => hcmds x (List.mem_cons_of_mem _ hx))
        (Or.inl (stepData_stored gen d b hb hinv)) c hc

/-- C3: from the framer state set by init, for every hardware generation and
every trace of bytes, a logical command that `AltSoundProcessCommand` emits
on the next byte `cmd` is `(h << 8) | cmd`, where `h` is the value of the
stored-command register and `0 ≤ h ≤ 255`; every emitted command lies in
`0..0xFFFF`, so the `-1` of init never reaches an emission. -/
theorem C3_emitted_is_high_byte_and_byte (handleCmd : Engine → Nat → Bool)
    (gen : ALTSOUND_HARDWARE_GEN) (romVol : Bool) (bytes : List Nat) (cmd : Nat)
    (hbytes : ∀ b ∈ bytes, b ≤ 255) (hcmd : cmd ≤ 255) :
    (emitted (AltSoundProcessCommand handleCmd
          (processCommands handleCmd (initEngine gen romVol) bytes) cmd 0).1
        = emitted (processCommands handleCmd (initEngine gen romVol) bytes)
      ∨ ∃ h : Nat, h ≤ 255 ∧
          (frame (processCommands handleCmd (initEngine gen romVol) bytes) cmd 0).g_cmdData.stored_command
            = (h : Int) ∧
          emitted (AltSoundProcessCommand handleCmd
              (processCommands handleCmd (initEngine gen romVol) bytes) cmd 0).1
            = emitted (processCommands handleCmd (initEngine gen romVol) bytes)
                ++ [(h <<< 8) ||| cmd] ∧
          (h <<< 8) ||| cmd ≤ 0xFFFF)
    ∧ ∀ c ∈ emitted (processCommands handleCmd (initEngine gen romVol) (bytes ++ [cmd])),
        c ≤ 0xFFFF := by
  have hinit : (0 ≤ initCmdData.stored_command ∧ initCmdData.stored_command ≤ 255) ∨
      (initCmdData.stored_command = -1 ∧ initCmdData.cmd_counter % 2 = 0) :=
    Or.inr ⟨rfl, rfl⟩
  have hgen : (processCommands handleCmd (initEngine gen romVol) bytes).g_hardwareGen = gen :=
    processCommands_gen handleCmd bytes (initEngine gen romVol)
  have hdata : (processCommands handleCmd (initEngine gen romVol) bytes).g_cmdData
      = runData gen initCmdData bytes :=
    processCommands_cmdData handleCmd bytes (initEngine gen romVol)
  have hinv := runData_stored gen bytes initCmdData hbytes hinit
  refine ⟨?_, ?_⟩
  · rw [process_emitted, frame_cmdData, hgen, hdata]
    split_ifs with h
    · left
      simp
    · right
      push_neg at h
      have hs := framedData_stored_of_emit gen _ cmd hinv h.1 h.2
      have hb := combine_byte_bound _ cmd hs.1 hs.2 hcmd
      refine ⟨(framedData gen (runData gen initCmdData bytes) cmd).stored_command.toNat,
        by omega, (Int.toNat_of_nonneg hs.1).symm, ?_, hb.2⟩
      rw [hb.1]
  · rw [processCommands_emitted]
    intro c hc
    have : emitted (initEngine gen romVol) = [] := rfl
    rw [this, List.nil_append] at hc
    refine runEmit_bound gen (bytes ++ [cmd]) initCmdData ?_ hinit c hc
    intro b hb
    rcases List.mem_append.mp hb with hb | hb
    · exact hbytes b hb
    · rw [List.mem_singleton] at hb
      omega

/-- C3 at generation WPCDMD, the trace `0x7A` and the next byte `0x42`. -/
theorem C3_emitted_is_high_byte_and_byte_witness :
    (emitted (AltSoundProcessCommand (fun _ _ => true)
          (processCommands (fun _ _ => true) (initEngine .WPCDMD true) [0x7A]) 0x42 0).1
        = emitted (processCommands (fun _ _ => true) (initEngine .WPCDMD true) [0x7A])
      ∨ ∃ h : Nat, h ≤ 255 ∧
          (frame (processCommands (fun _ _ => true) (initEngine .WPCDMD true) [0x7A]) 0x42 0).g_cmdData.stored_command
            = (h : Int) ∧
          emitted (AltSoundProcessCommand (fun _ _ => true)
              (processCommands (fun _ _ => true) (initEngine .WPCDMD true) [0x7A]) 0x42 0).1
            = emitted (processCommands (fun _ _ => true) (initEngine .WPCDMD true) [0x7A])
                ++ [(h <<< 8) ||| 0x42] ∧
          (h <<< 8) ||| 0x42 ≤ 0xFFFF)
    ∧ ∀ c ∈ emitted (processCommands (fun _ _ => true) (initEngine .WPCDMD true) ([0x7A] ++ [0x42])),
        c ≤ 0xFFFF :=
  C3_emitted_is_high_byte_and_byte (fun _ _ => true) .WPCDMD true [0x7A] 0x42
    (by decide) (by decide)


/-- C4 (as the code has it): with a WPC-DCS generation and the framer in the
state left by init, the bytes `0x55, 0xAA, v, v XOR 0xFF` emit exactly one
logical command, `0x55AA`, on the second byte; the first, third and fourth
byte emit nothing and the filter flag is set on the fourth. -/
theorem C4_dcs_volume_sequence_emits_55AA_once (handleCmd : Engine → Nat → Bool)
    (gen : ALTSOUND_HARDWARE_GEN) (romVol : Bool) (v : Nat)
    (hgen : gen = .WPCDCS ∨ gen = .WPCSECURITY ∨ gen = .WPC95DCS ∨ gen = .WPC95) :
    emitted (processCommands handleCmd (initEngine gen romVol) [0x55]) = []
    ∧ emitted (processCommands handleCmd (initEngine gen romVol) [0x55, 0xAA]) = [0x55AA]
    ∧ emitted (processCommands handleCmd (initEngine gen romVol) [0x55, 0xAA, v]) = [0x55AA]
    ∧ emitted (processCommands handleCmd (initEngine gen romVol) [0x55, 0xAA, v, v ^^^ 0xFF])
        = [0x55AA]
    ∧ (processCommands handleCmd (initEngine gen romVol)
          [0x55, 0xAA, v, v ^^^ 0xFF]).g_cmdData.cmd_filter = 1 := by
  have hc : combine 85 170 = 0x55AA := by decide
  simp only [processCommands_emitted, processCommands_cmdData]
  simp [initEngine, emitted, runEmit, runData, stepEmit_eq, stepData_eq, framedData_dcs _ _ _ hgen,
    shiftBuffer, initCmdData, clearedBuffer, NOT0, toInt32, hc]

/-- C4 (as the code has it) at generation WPCDCS and volume byte `0x7F`. -/
theorem C4_dcs_volume_sequence_emits_55AA_once_witness :
    emitted (processCommands (fun _ _ => true) (initEngine .WPCDCS true) [0x55]) = []
    ∧ emitted (processCommands (fun _ _ => true) (initEngine .WPCDCS true) [0x55, 0xAA]) = [0x55AA]
    ∧ emitted (processCommands (fun _ _ => true) (initEngine .WPCDCS true) [0x55, 0xAA, 0x7F])
        = [0x55AA]
    ∧ emitted (processCommands (fun _ _ => true) (initEngine .WPCDCS true)
          [0x55, 0xAA, 0x7F, 0x7F ^^^ 0xFF]) = [0x55AA]
    ∧ (processCommands (fun _ _ => true) (initEngine .WPCDCS true)
          [0x55, 0xAA, 0x7F, 0x7F ^^^ 0xFF]).g_cmdData.cmd_filter = 1 :=
  C4_dcs_volume_sequence_emits_55AA_once (fun _ _ => true) .WPCDCS true 0x7F (Or.inl rfl)

/-- C4, the claim as stated fails: from init, generation WPCDCS, the bytes
`0x55, 0xAA, 0x7F, 0x80` do emit a logical command, `0x55AA`. -/
theorem C4_counterexample :
    emitted (processCommands (fun _ _ => true) (initEngine .WPCDCS true)
        [0x55, 0xAA, 0x7F, 0x80]) = [0x55AA]
    ∧ emitted (processCommands (fun _ _ => true) (initEngine .WPCDCS true)
        [0x55, 0xAA, 0x7F, 0x80]) ≠ [] := by
  decide


theorem dcsVolume_byte (v : Nat) (hv : v ≤ 255) :
    dcsVolume v = if v = 0 then 0 else min 1 (((981201 : ℚ) / 1000000) ^ (255 - v) * 4) := by
  unfold dcsVolume
  have h : (255 + 4294967296 - v % 4294967296) % 4294967296 = 255 - v := by omega
  rw [h, min_comm]

/-- The framing step on the last byte of a WPC-DCS master-volume sequence. -/
theorem frame_dcs_volume (e : Engine) (v : Nat) (attenuation : Int)
    (hgen : e.g_hardwareGen = .WPCDCS ∨ e.g_hardwareGen = .WPCSECURITY ∨
            e.g_hardwareGen = .WPC95DCS ∨ e.g_hardwareGen = .WPC95)
    (hb0 : e.g_cmdData.cmd_buffer.b0 = v) (hb1 : e.g_cmdData.cmd_buffer.b1 = 0xAA)
    (hb2 : e.g_cmdData.cmd_buffer.b2 = 0x55) :
    (frame e (v ^^^ 0xFF) attenuation).g_cmdData
        = { e.g_cmdData with cmd_counter := 0, cmd_filter := 1, cmd_buffer := clearedBuffer }
    ∧ (frame e (v ^^^ 0xFF) attenuation).global_vol
        = if e.rom_controls_vol then dcsVolume v else e.global_vol := by
  obtain ⟨gen, ⟨cnt, st, fl, b0, b1, b2, b3⟩, mv, gv, rom, calls⟩ := e
  simp only at hgen hb0 hb1 hb2
  subst hb0 hb1 hb2
  have hx : (b0 ^^^ 255) ^^^ 255 = b0 := Nat.xor_cancel_right 255 b0
  rcases hgen with h | h | h | h <;> subst h <;>
    cases rom <;>
    simp [frame, altsound_preprocess_commands, shiftBuffer, consume, hx]

/-- C5: with a WPC-DCS generation and ROM-controls-volume enabled, when the last
four bytes are `0x55, 0xAA, v, v XOR 0xFF`, the call on the last byte sets the
filter flag, resets the counter to `0`, clears the command buffer, emits
nothing, and sets the global volume to `0` when `v = 0` and to
`min(1, 0.981201^(255 - v) * 4)` otherwise. -/
theorem C5_dcs_master_volume (handleCmd : Engine → Nat → Bool) (e : Engine) (v : Nat)
    (attenuation : Int)
    (hgen : e.g_hardwareGen = .WPCDCS ∨ e.g_hardwareGen = .WPCSECURITY ∨
            e.g_hardwareGen = .WPC95DCS ∨ e.g_hardwareGen = .WPC95)
    (hrom : e.rom_controls_vol = true) (hv : v ≤ 255)
    (hb0 : e.g_cmdData.cmd_buffer.b0 = v) (hb1 : e.g_cmdData.cmd_buffer.b1 = 0xAA)
    (hb2 : e.g_cmdData.cmd_buffer.b2 = 0x55) :
    (AltSoundProcessCommand handleCmd e (v ^^^ 0xFF) attenuation).1.g_cmdData.cmd_filter = 1
    ∧ (AltSoundProcessCommand handleCmd e (v ^^^ 0xFF) attenuation).1.g_cmdData.cmd_counter = 0
    ∧ (AltSoundProcessCommand handleCmd e (v ^^^ 0xFF) attenuation).1.g_cmdData.cmd_buffer
        = clearedBuffer
    ∧ (AltSoundProcessCommand handleCmd e (v ^^^ 0xFF) attenuation).1.global_vol
        = (if v = 0 then 0 else min 1 (((981201 : ℚ) / 1000000) ^ (255 - v) * 4))
    ∧ emitted (AltSoundProcessCommand handleCmd e (v ^^^ 0xFF) attenuation).1 = emitted e := by
  obtain ⟨hd, hvol⟩ := frame_dcs_volume e v attenuation hgen hb0 hb1 hb2
  have habs : (frame e (v ^^^ 0xFF) attenuation).g_cmdData.cmd_filter ≠ 0 ∨
         (frame e (v ^^^ 0xFF) attenuation).g_cmdData.cmd_counter % 2 ≠ 0 := by
    left
    rw [hd]
    simp
  rw [process_absorb handleCmd e (v ^^^ 0xFF) attenuation habs]
  simp only [hd, hvol, hrom, if_true, dcsVolume_byte v hv, emitted, frame_calls]
  simp

/-- C5 at generation WPCDCS, a buffer holding `0x7F, 0xAA, 0x55` and the byte `0x80`. -/
theorem C5_dcs_master_volume_witness :
    (AltSoundProcessCommand (fun _ _ => true)
        { initEngine .WPCDCS true with
          g_cmdData := { cmd_counter := 1, stored_command := 0x7F, cmd_filter := 0,
                         cmd_buffer := ⟨0x7F, 0xAA, 0x55, NOT0⟩ } }
        (0x7F ^^^ 0xFF) 0).1.g_cmdData.cmd_filter = 1
    ∧ (AltSoundProcessCommand (fun _ _ => true)
        { initEngine .WPCDCS true with
          g_cmdData := { cmd_counter := 1, stored_command := 0x7F, cmd_filter := 0,
                         cmd_buffer := ⟨0x7F, 0xAA, 0x55, NOT0⟩ } }
        (0x7F ^^^ 0xFF) 0).1.g_cmdData.cmd_counter = 0
    ∧ (AltSoundProcessCommand (fun _ _ => true)
        { initEngine .WPCDCS true with
          g_cmdData := { cmd_counter := 1, stored_command := 0x7F, cmd_filter := 0,
                         cmd_buffer := ⟨0x7F, 0xAA, 0x55, NOT0⟩ } }
        (0x7F ^^^ 0xFF) 0).1.g_cmdData.cmd_buffer = clearedBuffer
    ∧ (AltSoundProcessCommand (fun _ _ => true)
        { initEngine .WPCDCS true with
          g_cmdData := { cmd_counter := 1, stored_command := 0x7F, cmd_filter := 0,
                         cmd_buffer := ⟨0x7F, 0xAA, 0x55, NOT0⟩ } }
        (0x7F ^^^ 0xFF) 0).1.global_vol
        = (if 0x7F = 0 then 0 else min 1 (((981201 : ℚ) / 1000000) ^ (255 - 0x7F) * 4))
    ∧ emitted (AltSoundProcessCommand (fun _ _ => true)
        { initEngine .WPCDCS true with
          g_cmdData := { cmd_counter := 1, stored_command := 0x7F, cmd_filter := 0,
                         cmd_buffer := ⟨0x7F, 0xAA, 0x55, NOT0⟩ } }
        (0x7F ^^^ 0xFF) 0).1
        = emitted { initEngine .WPCDCS true with
          g_cmdData := { cmd_counter := 1, stored_command := 0x7F, cmd_filter := 0,
                         cmd_buffer := ⟨0x7F, 0xAA, 0x55, NOT0⟩ } } :=
  C5_dcs_master_volume (fun _ _ => true) _ 0x7F 0 (Or.inl rfl) rfl (by decide) rfl rfl rfl


/-- C6 (as the code has it): for the WPC-DCS family, after a byte is shifted
into the buffer the framer consumes it with the filter flag set if and only if
`b[3] = 0x55` and: `b[2]` in `0xAB..0xB0` with `b[1] = b[0] XOR 0xFF`; or
`b[2] = 0xC2` or `0xC3`; or `b[2]` in `0xBA..0xC1` with `b[1] = b[0] XOR 0xFF`;
or `b[2] = 0xAA`, whether or not `b[1] = b[0] XOR 0xFF`.  In every other case
the filter flag is clear, the framing rules leave counter, stored command and
buffer as they are, and the byte is emitted as `(stored_command << 8) | cmd`
when the counter is even, or kept as the stored command when it is odd. -/
theorem C6_dcs_filter_iff_meta_sequence (handleCmd : Engine → Nat → Bool) (e : Engine)
    (cmd : Nat) (attenuation : Int)
    (hgen : e.g_hardwareGen = .WPCDCS ∨ e.g_hardwareGen = .WPCSECURITY ∨
            e.g_hardwareGen = .WPC95DCS ∨ e.g_hardwareGen = .WPC95) :
    ((frame e cmd attenuation).g_cmdData.cmd_filter ≠ 0 ↔
        (shiftBuffer e.g_cmdData.cmd_buffer cmd).b3 = 0x55 ∧
        ((0xAB ≤ (shiftBuffer e.g_cmdData.cmd_buffer cmd).b2 ∧
            (shiftBuffer e.g_cmdData.cmd_buffer cmd).b2 ≤ 0xB0 ∧
            (shiftBuffer e.g_cmdData.cmd_buffer cmd).b1
              = (shiftBuffer e.g_cmdData.cmd_buffer cmd).b0 ^^^ 0xFF) ∨
         (shiftBuffer e.g_cmdData.cmd_buffer cmd).b2 = 0xC2 ∨
         (shiftBuffer e.g_cmdData.cmd_buffer cmd).b2 = 0xC3 ∨
         (0xBA ≤ (shiftBuffer e.g_cmdData.cmd_buffer cmd).b2 ∧
            (shiftBuffer e.g_cmdData.cmd_buffer cmd).b2 ≤ 0xC1 ∧
            (shiftBuffer e.g_cmdData.cmd_buffer cmd).b1
              = (shiftBuffer e.g_cmdData.cmd_buffer cmd).b0 ^^^ 0xFF) ∨
         (shiftBuffer e.g_cmdData.cmd_buffer cmd).b2 = 0xAA))
    ∧ ((frame e cmd attenuation).g_cmdData.cmd_filter ≠ 0 →
        (frame e cmd attenuation).g_cmdData
          = { e.g_cmdData with cmd_counter := 0, cmd_filter := 1, cmd_buffer := clearedBuffer }
        ∧ emitted (AltSoundProcessCommand handleCmd e cmd attenuation).1 = emitted e)
    ∧ ((frame e cmd attenuation).g_cmdData.cmd_filter = 0 →
        (frame e cmd attenuation).g_cmdData
          = { e.g_cmdData with cmd_counter := (e.g_cmdData.cmd_counter + 1) % 4294967296,
                               cmd_filter := 0,
                               cmd_buffer := shiftBuffer e.g_cmdData.cmd_buffer cmd }
        ∧ ((e.g_cmdData.cmd_counter + 1) % 4294967296 % 2 = 0 →
            emitted (AltSoundProcessCommand handleCmd e cmd attenuation).1
              = emitted e ++ [combine e.g_cmdData.stored_command cmd])
        ∧ ((e.g_cmdData.cmd_counter + 1) % 4294967296 % 2 ≠ 0 →
            emitted (AltSoundProcessCommand handleCmd e cmd attenuation).1 = emitted e
            ∧ (AltSoundProcessCommand handleCmd e cmd attenuation).1.g_cmdData.stored_command
                = toInt32 cmd)) := by
  have hF := framedData_dcs e.g_hardwareGen e.g_cmdData cmd hgen
  rw [process_emitted, process_cmdData, frame_cmdData]
  simp only [shiftBuffer]
  by_cases hc : e.g_cmdData.cmd_buffer.b2 = 0x55 ∧
      ((0xAB ≤ e.g_cmdData.cmd_buffer.b1 ∧ e.g_cmdData.cmd_buffer.b1 ≤ 0xB0 ∧
          e.g_cmdData.cmd_buffer.b0 = cmd ^^^ 0xFF) ∨
        e.g_cmdData.cmd_buffer.b1 = 0xC2 ∨ e.g_cmdData.cmd_buffer.b1 = 0xC3 ∨
        (0xBA ≤ e.g_cmdData.cmd_buffer.b1 ∧ e.g_cmdData.cmd_buffer.b1 ≤ 0xC1 ∧
          e.g_cmdData.cmd_buffer.b0 = cmd ^^^ 0xFF) ∨
        e.g_cmdData.cmd_buffer.b1 = 0xAA)
  · rw [if_pos hc] at hF
    rw [hF]
    simp [hc]
  · rw [if_neg hc] at hF
    rw [hF]
    refine ⟨by simp [hc], by simp, fun _ => ⟨by simp [shiftBuffer], ?_, ?_⟩⟩
    · intro heven
      simp [heven]
    · intro hodd
      simp [hodd]

/-- C6 (as the code has it) at generation WPCDCS after the bytes `0x55, 0xAA, 0x01`, on the byte `0x01`: the filter flag is set although the parity check fails. -/
theorem C6_dcs_filter_iff_meta_sequence_witness :
    (frame (processCommands (fun _ _ => true) (initEngine .WPCDCS true) [0x55, 0xAA, 0x01])
        0x01 0).g_cmdData.cmd_filter ≠ 0 :=
  (C6_dcs_filter_iff_meta_sequence (fun _ _ => true)
    (processCommands (fun _ _ => true) (initEngine .WPCDCS true) [0x55, 0xAA, 0x01])
    0x01 0 (Or.inl rfl)).1.mpr (by decide)

/-- C6, the claim as stated fails: from init, generation WPCDCS, after the bytes
`0x55, 0xAA, 0x01, 0x01` the buffer held `b[3] = 0x55`, `b[2] = 0xAA` and
`b[1] = 0x01`, which is not `b[0] XOR 0xFF = 0xFE`; yet the last byte was
consumed with the filter flag set, the buffer cleared and nothing emitted for
it. -/
theorem C6_counterexample :
    shiftBuffer (processCommands (fun _ _ => true) (initEngine .WPCDCS true)
        [0x55, 0xAA, 0x01]).g_cmdData.cmd_buffer 0x01 = ⟨0x01, 0x01, 0xAA, 0x55⟩
    ∧ (0x01 : Nat) ≠ 0x01 ^^^ 0xFF
    ∧ (processCommands (fun _ _ => true) (initEngine .WPCDCS true)
        [0x55, 0xAA, 0x01, 0x01]).g_cmdData.cmd_filter = 1
    ∧ (processCommands (fun _ _ => true) (initEngine .WPCDCS true)
        [0x55, 0xAA, 0x01, 0x01]).g_cmdData.cmd_buffer = clearedBuffer
    ∧ emitted (processCommands (fun _ _ => true) (initEngine .WPCDCS true)
        [0x55, 0xAA, 0x01, 0x01])
      = emitted (processCommands (fun _ _ => true) (initEngine .WPCDCS true)
        [0x55, 0xAA, 0x01]) := by
  decide

/-- C7 (as the code has it): with generation S11, S11X, S11B2, S11C or
WPCALPHA_1 and the framer in the state left by init, for bytes `a` and `b`
with `a ≠ b`, sending `a, a, b` yields two emissions: `(0 << 8) | a` on the
first byte and `(0 << 8) | b` on the third; the repeated second byte is
absorbed, and after the third byte nothing is pending (counter `0`, stored
command `0`). -/
theorem C7_s11_repeated_byte_absorbed (handleCmd : Engine → Nat → Bool)
    (gen : ALTSOUND_HARDWARE_GEN) (romVol : Bool) (a b : Nat)
    (hgen : gen = .WPCALPHA_1 ∨ gen = .S11 ∨ gen = .S11X ∨ gen = .S11B2 ∨ gen = .S11C)
    (ha : a ≤ 255) (hab : a ≠ b) :
    emitted (processCommands handleCmd (initEngine gen romVol) [a]) = [(0 <<< 8) ||| a]
    ∧ emitted (processCommands handleCmd (initEngine gen romVol) [a, a]) = [(0 <<< 8) ||| a]
    ∧ emitted (processCommands handleCmd (initEngine gen romVol) [a, a, b])
        = [(0 <<< 8) ||| a, (0 <<< 8) ||| b]
    ∧ (processCommands handleCmd (initEngine gen romVol) [a, a, b]).g_cmdData.cmd_counter = 0
    ∧ (processCommands handleCmd (initEngine gen romVol) [a, a, b]).g_cmdData.stored_command = 0 := by
  have ha0 : a ≠ 4294967295 := by omega
  have hba : b ≠ a := fun h => hab h.symm
  simp only [processCommands_emitted, processCommands_cmdData]
  simp [initEngine, emitted, runEmit, runData, stepEmit_eq, stepData_eq, framedData_s11 _ _ _ hgen,
    shiftBuffer, initCmdData, clearedBuffer, NOT0, combine_zero, ha0, hba]

/-- C7 (as the code has it) at generation S11 and the bytes `0x15, 0x15, 0x22`. -/
theorem C7_s11_repeated_byte_absorbed_witness :
    emitted (processCommands (fun _ _ => true) (initEngine .S11 true) [0x15]) = [0x0015]
    ∧ emitted (processCommands (fun _ _ => true) (initEngine .S11 true) [0x15, 0x15]) = [0x0015]
    ∧ emitted (processCommands (fun _ _ => true) (initEngine .S11 true) [0x15, 0x15, 0x22])
        = [0x0015, 0x0022]
    ∧ (processCommands (fun _ _ => true) (initEngine .S11 true)
          [0x15, 0x15, 0x22]).g_cmdData.cmd_counter = 0
    ∧ (processCommands (fun _ _ => true) (initEngine .S11 true)
          [0x15, 0x15, 0x22]).g_cmdData.stored_command = 0 :=
  C7_s11_repeated_byte_absorbed (fun _ _ => true) .S11 true 0x15 0x22 (Or.inr (Or.inl rfl))
    (by decide) (by decide)

/-- C7, the claim as stated fails: from init, generation S11, the bytes
`0x15, 0x15, 0x22` give two emissions, `0x0015` and `0x0022`; `0x0022` is
emitted on the third byte, not held pending. -/
theorem C7_counterexample :
    emitted (processCommands (fun _ _ => true) (initEngine .S11 true) [0x15, 0x15, 0x22])
      = [0x0015, 0x0022]
    ∧ emitted (processCommands (fun _ _ => true) (initEngine .S11 true) [0x15, 0x15, 0x22])
      ≠ [0x0015] := by
  decide

/-- C8 (as the code has it): with a DE-family generation and the filter flag
clear, every byte `c` other than `0x00` and `0xFF` is emitted on the call that
receives it as `(0 << 8) | c`, whatever came before; the byte `0xFF` is
absorbed; the byte `0x00` is absorbed unless the byte before it in the buffer
is `0x00` too, in which case it is emitted as the logical command `0x0000`. -/
theorem C8_de_byte_commands (handleCmd : Engine → Nat → Bool) (e : Engine) (c : Nat)
    (attenuation : Int)
    (hgen : e.g_hardwareGen = .DEDMD16 ∨ e.g_hardwareGen = .DEDMD32 ∨
            e.g_hardwareGen = .DEDMD64 ∨ e.g_hardwareGen = .DE)
    (hfilter : e.g_cmdData.cmd_filter = 0) :
    (c ≠ 0x00 ∧ c ≠ 0xFF →
        emitted (AltSoundProcessCommand handleCmd e c attenuation).1
          = emitted e ++ [(0 <<< 8) ||| c])
    ∧ (c = 0xFF →
        emitted (AltSoundProcessCommand handleCmd e c attenuation).1 = emitted e)
    ∧ (c = 0x00 ∧ e.g_cmdData.cmd_buffer.b0 ≠ 0x00 →
        emitted (AltSoundProcessCommand handleCmd e c attenuation).1 = emitted e)
    ∧ (c = 0x00 ∧ e.g_cmdData.cmd_buffer.b0 = 0x00 →
        emitted (AltSoundProcessCommand handleCmd e c attenuation).1 = emitted e ++ [0x0000]) := by
  rw [process_emitted, framedData_de _ _ _ hgen]
  refine ⟨?_, ?_, ?_, ?_⟩
  · rintro ⟨h0, hff⟩
    simp [h0, hff, hfilter, combine_zero]
  · intro hff
    subst hff
    simp [hfilter]
  · rintro ⟨h0, hprev⟩
    subst h0
    simp [hfilter, hprev]
  · rintro ⟨h0, hprev⟩
    subst h0
    simp [hfilter, hprev, combine_zero]

/-- C8 (as the code has it) at generation DE: after `0x05, 0xFF, 0x00` the byte `0x07` is emitted at once. -/
theorem C8_de_byte_commands_witness :
    emitted (processCommands (fun _ _ => true) (initEngine .DE true) [0x05, 0xFF, 0x00, 0x07])
      = [0x05, 0x07] :=
  (C8_de_byte_commands (fun _ _ => true)
    (processCommands (fun _ _ => true) (initEngine .DE true) [0x05, 0xFF, 0x00]) 0x07 0
    (Or.inr (Or.inr (Or.inr rfl))) rfl).1 (by decide)

/-- C8, the claim as stated fails: from init, generation DE (filter flag clear
throughout), the second of two `0x00` bytes is not absorbed: it is emitted as
the logical command `0x0000`. -/
theorem C8_counterexample :
    (processCommands (fun _ _ => true) (initEngine .DE true) [0x00]).g_cmdData.cmd_filter = 0
    ∧ emitted (processCommands (fun _ _ => true) (initEngine .DE true) [0x00]) = []
    ∧ emitted (processCommands (fun _ _ => true) (initEngine .DE true) [0x00, 0x00]) = [0x0000]
    ∧ emitted (processCommands (fun _ _ => true) (initEngine .DE true) [0x00, 0x00])
        ≠ emitted (processCommands (fun _ _ => true) (initEngine .DE true) [0x00]) := by
  decide

/-- C9 (as the code has it): with a DE-family generation and the filter flag
clear, a pair of consecutive `0x00` bytes is not dropped: when the current
byte is `0x00` and the previous byte is `0x00`, the call emits the logical
command `0x0000`, leaving the counter and the stored command at `0`. -/
theorem C9_de_zero_pair_emitted (handleCmd : Engine → Nat → Bool) (e : Engine)
    (attenuation : Int)
    (hgen : e.g_hardwareGen = .DEDMD16 ∨ e.g_hardwareGen = .DEDMD32 ∨
            e.g_hardwareGen = .DEDMD64 ∨ e.g_hardwareGen = .DE)
    (hfilter : e.g_cmdData.cmd_filter = 0)
    (hprev : e.g_cmdData.cmd_buffer.b0 = 0x00) :
    emitted (AltSoundProcessCommand handleCmd e 0x00 attenuation).1 = emitted e ++ [0x0000]
    ∧ (AltSoundProcessCommand handleCmd e 0x00 attenuation).1.g_cmdData.cmd_counter = 0
    ∧ (AltSoundProcessCommand handleCmd e 0x00 attenuation).1.g_cmdData.stored_command = 0 := by
  rw [process_emitted, process_cmdData, framedData_de _ _ _ hgen]
  simp [hfilter, hprev, combine_zero]

/-- C9 (as the code has it) at generation DEDMD32: after one `0x00` the second `0x00` emits `0x0000`. -/
theorem C9_de_zero_pair_emitted_witness :
    emitted (AltSoundProcessCommand (fun _ _ => true)
        (processCommands (fun _ _ => true) (initEngine .DEDMD32 true) [0x00]) 0x00 0).1
      = emitted (processCommands (fun _ _ => true) (initEngine .DEDMD32 true) [0x00]) ++ [0x0000]
    ∧ (AltSoundProcessCommand (fun _ _ => true)
        (processCommands (fun _ _ => true) (initEngine .DEDMD32 true) [0x00]) 0x00
          0).1.g_cmdData.cmd_counter = 0
    ∧ (AltSoundProcessCommand (fun _ _ => true)
        (processCommands (fun _ _ => true) (initEngine .DEDMD32 true) [0x00]) 0x00
          0).1.g_cmdData.stored_command = 0 :=
  C9_de_zero_pair_emitted (fun _ _ => true)
    (processCommands (fun _ _ => true) (initEngine .DEDMD32 true) [0x00]) 0
    (Or.inr (Or.inl rfl)) rfl rfl

/-- C9, the claim as stated fails: from init, generation DEDMD32, the bytes
`0x21, 0x00, 0x00` emit `0x0021` and then, on the second `0x00`, the logical
command `0x0000`. -/
theorem C9_counterexample :
    emitted (processCommands (fun _ _ => true) (initEngine .DEDMD32 true) [0x21, 0x00])
      = [0x0021]
    ∧ emitted (processCommands (fun _ _ => true) (initEngine .DEDMD32 true) [0x21, 0x00, 0x00])
      = [0x0021, 0x0000] := by
  decide

theorem wsVolume_range (cmd : Nat) (h : cmd ≤ 0x2F) (h10 : 0x10 ≤ cmd) :
    wsVolume cmd = ((0x2F : ℚ) - (cmd : ℚ)) / 31 ∧ 0 ≤ wsVolume cmd ∧ wsVolume cmd ≤ 1 := by
  have hc : (cmd : ℚ) ≤ 47 := by exact_mod_cast h
  have hc10 : (16 : ℚ) ≤ (cmd : ℚ) := by exact_mod_cast h10
  have he : wsVolume cmd = ((0x2F : ℚ) - (cmd : ℚ)) / 31 := by
    unfold wsVolume
    push_cast
    rfl
  refine ⟨he, ?_, ?_⟩
  · rw [he]
    apply div_nonneg <;> linarith
  · rw [he, div_le_one (by norm_num)]
    linarith

/-- The framing step of a Whitestar generation on a byte that follows `0xFE`. -/
theorem frame_ws_after_FE (e : Engine) (cmd : Nat) (attenuation : Int)
    (hgen : e.g_hardwareGen = .WS ∨ e.g_hardwareGen = .WS_1 ∨ e.g_hardwareGen = .WS_2)
    (hprev : e.g_cmdData.cmd_buffer.b0 = 0xFE) :
    (0x10 ≤ cmd ∧ cmd ≤ 0x2F →
        (frame e cmd attenuation).global_vol
          = if e.rom_controls_vol then wsVolume cmd else e.global_vol)
    ∧ (0x01 ≤ cmd ∧ cmd ≤ 0x0F → (frame e cmd attenuation).global_vol = e.global_vol) := by
  obtain ⟨gen, ⟨cnt, st, fl, b0, b1, b2, b3⟩, mv, gv, rom, calls⟩ := e
  simp only at hgen hprev
  subst hprev
  refine ⟨?_, ?_⟩
  · rintro ⟨h1, h2⟩
    have hne := and_0xFC_ne cmd h2
    rcases hgen with h | h | h <;> subst h <;> cases rom <;>
      simp [frame, altsound_preprocess_commands, shiftBuffer, consume, h1, h2, hne]
  · rintro ⟨h1, h2⟩
    have hne := and_0xFC_ne cmd (by omega)
    have h3 : ¬ (16 ≤ cmd) := by omega
    rcases hgen with h | h | h <;> subst h <;> cases rom <;>
      simp [frame, altsound_preprocess_commands, shiftBuffer, consume, h1, h2, h3, hne]

/-- C10 (as the code has it): with a Whitestar generation, when the previous
byte is `0xFE`: a byte `cmd` in `0x10..0x2F` is consumed with the filter flag
set (buffer cleared, counter `0`, nothing emitted) and, when
ROM-controls-volume is enabled, sets the global volume to `(0x2F - cmd)/31`, a
value in `[0,1]` that is `1` for `0x10` and `0` for `0x2F`; when
ROM-controls-volume is disabled the global volume stays as it is.  A byte
`cmd` in `0x01..0x0F` is dropped: consumed with the filter flag set, nothing
emitted, volume unchanged. -/
theorem C10_ws_volume_after_FE (handleCmd : Engine → Nat → Bool) (e : Engine) (cmd : Nat)
    (attenuation : Int)
    (hgen : e.g_hardwareGen = .WS ∨ e.g_hardwareGen = .WS_1 ∨ e.g_hardwareGen = .WS_2)
    (hprev : e.g_cmdData.cmd_buffer.b0 = 0xFE) :
    (0x10 ≤ cmd ∧ cmd ≤ 0x2F →
        (AltSoundProcessCommand handleCmd e cmd attenuation).1.g_cmdData.cmd_filter = 1
        ∧ (AltSoundProcessCommand handleCmd e cmd attenuation).1.g_cmdData.cmd_buffer
            = clearedBuffer
        ∧ (AltSoundProcessCommand handleCmd e cmd attenuation).1.g_cmdData.cmd_counter = 0
        ∧ emitted (AltSoundProcessCommand handleCmd e cmd attenuation).1 = emitted e
        ∧ (AltSoundProcessCommand handleCmd e cmd attenuation).1.global_vol
            = (if e.rom_controls_vol then ((0x2F : ℚ) - (cmd : ℚ)) / 31 else e.global_vol)
        ∧ 0 ≤ ((0x2F : ℚ) - (cmd : ℚ)) / 31 ∧ ((0x2F : ℚ) - (cmd : ℚ)) / 31 ≤ 1)
    ∧ (0x01 ≤ cmd ∧ cmd ≤ 0x0F →
        (AltSoundProcessCommand handleCmd e cmd attenuation).1.g_cmdData.cmd_filter = 1
        ∧ emitted (AltSoundProcessCommand handleCmd e cmd attenuation).1 = emitted e
        ∧ (AltSoundProcessCommand handleCmd e cmd attenuation).1.global_vol = e.global_vol)
    ∧ wsVolume 0x10 = 1 ∧ wsVolume 0x2F = 0 := by
  have hF := framedData_ws e.g_hardwareGen e.g_cmdData cmd hgen
  obtain ⟨hvol1, hvol2⟩ := frame_ws_after_FE e cmd attenuation hgen hprev
  refine ⟨?_, ?_, ?_, ?_⟩
  · intro hr
    have hc : e.g_cmdData.cmd_buffer.b0 = 0xFE ∧ 0x10 ≤ cmd ∧ cmd ≤ 0x2F := ⟨hprev, hr⟩
    rw [if_pos hc] at hF
    have hfd : (frame e cmd attenuation).g_cmdData
        = { e.g_cmdData with cmd_counter := 0, cmd_filter := 1, cmd_buffer := clearedBuffer } := by
      rw [frame_cmdData, hF]
    have habs : (frame e cmd attenuation).g_cmdData.cmd_filter ≠ 0 ∨
        (frame e cmd attenuation).g_cmdData.cmd_counter % 2 ≠ 0 := by
      left
      rw [hfd]
      simp
    obtain ⟨hw, hw0, hw1⟩ := wsVolume_range cmd hr.2 hr.1
    rw [process_absorb handleCmd e cmd attenuation habs]
    rw [hw] at hw0 hw1
    simp only [hfd, hvol1 hr, emitted, frame_calls, hw, true_and]
    exact ⟨hw0, hw1⟩
  · intro hr
    have hn : ¬ (e.g_cmdData.cmd_buffer.b0 = 0xFE ∧ 0x10 ≤ cmd ∧ cmd ≤ 0x2F) := by
      intro h
      omega
    have hc : e.g_cmdData.cmd_buffer.b0 = 0xFE ∧ 0x01 ≤ cmd ∧ cmd ≤ 0x0F := ⟨hprev, hr⟩
    rw [if_neg hn, if_pos hc] at hF
    have hfd : (frame e cmd attenuation).g_cmdData
        = { e.g_cmdData with cmd_counter := 0, stored_command := 0, cmd_filter := 1,
                             cmd_buffer := shiftBuffer e.g_cmdData.cmd_buffer cmd } := by
      rw [frame_cmdData, hF]
    have habs : (frame e cmd attenuation).g_cmdData.cmd_filter ≠ 0 ∨
        (frame e cmd attenuation).g_cmdData.cmd_counter % 2 ≠ 0 := by
      left
      rw [hfd]
      simp
    rw [process_absorb handleCmd e cmd attenuation habs]
    simp only [hfd, hvol2 hr, emitted, frame_calls, and_self]
  · norm_num [wsVolume]
  · norm_num [wsVolume]

/-- C10 (as the code has it) at generation WS with ROM-controls-volume enabled, after `0xFE`, on the byte `0x10`. -/
theorem C10_ws_volume_after_FE_witness :
    (AltSoundProcessCommand (fun _ _ => true)
        (processCommands (fun _ _ => true) (initEngine .WS true) [0xFE]) 0x10 0).1.global_vol
      = (if (processCommands (fun _ _ => true) (initEngine .WS true) [0xFE]).rom_controls_vol
          then ((0x2F : ℚ) - ((0x10 : Nat) : ℚ)) / 31
          else (processCommands (fun _ _ => true) (initEngine .WS true) [0xFE]).global_vol) :=
  ((C10_ws_volume_after_FE (fun _ _ => true)
    (processCommands (fun _ _ => true) (initEngine .WS true) [0xFE]) 0x10 0
    (Or.inl rfl) rfl).1 (by decide)).2.2.2.2.1

/-- C10, the claim as stated fails: from init with ROM-controls-volume disabled,
generation WS, the bytes `0xFE, 0x2F` leave the global volume at `1`; it is
not set to `(0x2F - 0x2F)/31 = 0`. -/
theorem C10_counterexample :
    (processCommands (fun _ _ => true) (initEngine .WS false) [0xFE, 0x2F]).global_vol = 1
    ∧ (processCommands (fun _ _ => true) (initEngine .WS false) [0xFE, 0x2F]).global_vol
        ≠ ((0x2F : ℚ) - ((0x2F : Nat) : ℚ)) / 31 := by
  have h : (processCommands (fun _ _ => true) (initEngine .WS false) [0xFE, 0x2F]).global_vol
      = 1 := by
    rfl
  rw [h]
  norm_num


/-- C11: with generation GTS80A, for every framer state, the byte `0x00` is
consumed with the filter flag set and nothing emitted, and every non-zero byte
`c` is emitted on the call that receives it as `(0 << 8) | c`, with the filter
flag clear. -/
theorem C11_gts80_clock_and_bytes (handleCmd : Engine → Nat → Bool) (e : Engine) (c : Nat)
    (attenuation : Int) (hgen : e.g_hardwareGen = .GTS80) :
    (c = 0x00 →
        (AltSoundProcessCommand handleCmd e c attenuation).1.g_cmdData.cmd_filter = 1
        ∧ emitted (AltSoundProcessCommand handleCmd e c attenuation).1 = emitted e)
    ∧ (c ≠ 0x00 →
        emitted (AltSoundProcessCommand handleCmd e c attenuation).1
          = emitted e ++ [(0 <<< 8) ||| c]
        ∧ (AltSoundProcessCommand handleCmd e c attenuation).1.g_cmdData.cmd_filter = 0) := by
  rw [process_emitted, process_cmdData, hgen, framedData_gts80]
  refine ⟨?_, ?_⟩
  · intro h0
    subst h0
    simp
  · intro h0
    simp [h0, combine_zero]

/-- C11 at the state left by init: `0x00` emits nothing, then `0x31` is emitted
as `0x0031`. -/
theorem C11_gts80_clock_and_bytes_witness :
    emitted (AltSoundProcessCommand (fun _ _ => true)
        (processCommands (fun _ _ => true) (initEngine .GTS80 true) [0x00]) 0x31 0).1
      = emitted (processCommands (fun _ _ => true) (initEngine .GTS80 true) [0x00]) ++ [0x0031]
    ∧ (AltSoundProcessCommand (fun _ _ => true)
        (processCommands (fun _ _ => true) (initEngine .GTS80 true) [0x00]) 0x31
          0).1.g_cmdData.cmd_filter = 0 :=
  (C11_gts80_clock_and_bytes (fun _ _ => true)
    (processCommands (fun _ _ => true) (initEngine .GTS80 true) [0x00]) 0x31 0 rfl).2 (by decide)

/-- C12: with generation WPCALPHA_2, WPCDMD or WPCFLIPTRON, when the byte does
not complete a `0x79` volume sequence and the previous byte is not `0x7A`: a
byte `c` other than `0x7A` is emitted on the call that receives it as
`(0 << 8) | c`; the byte `0x7A` is absorbed with the parity counter set to `1`
and nothing emitted. -/
theorem C12_wpcdmd_single_byte (handleCmd : Engine → Nat → Bool) (e : Engine) (c : Nat)
    (attenuation : Int)
    (hgen : e.g_hardwareGen = .WPCDMD ∨ e.g_hardwareGen = .WPCALPHA_2 ∨
            e.g_hardwareGen = .WPCFLIPTRON)
    (hvol : ¬ ((shiftBuffer e.g_cmdData.cmd_buffer c).b2 = 0x79 ∧
               (shiftBuffer e.g_cmdData.cmd_buffer c).b1
                 = (shiftBuffer e.g_cmdData.cmd_buffer c).b0 ^^^ 0xFF))
    (hprev : (shiftBuffer e.g_cmdData.cmd_buffer c).b1 ≠ 0x7A) :
    (c ≠ 0x7A →
        emitted (AltSoundProcessCommand handleCmd e c attenuation).1
          = emitted e ++ [(0 <<< 8) ||| c])
    ∧ (c = 0x7A →
        emitted (AltSoundProcessCommand handleCmd e c attenuation).1 = emitted e
        ∧ (AltSoundProcessCommand handleCmd e c attenuation).1.g_cmdData.cmd_counter = 1) := by
  simp only [shiftBuffer] at hvol hprev
  rw [process_emitted, process_cmdData, framedData_wpcdmd _ _ _ hgen, if_neg hvol, if_neg hprev]
  refine ⟨?_, ?_⟩
  · intro h
    simp [h, combine_zero]
  · intro h
    subst h
    simp

/-- C12 at the state left by init, generation WPCDMD: the byte `0x42` is emitted
as `0x0042`. -/
theorem C12_wpcdmd_single_byte_witness :
    emitted (AltSoundProcessCommand (fun _ _ => true) (initEngine .WPCDMD true) 0x42 0).1
      = emitted (initEngine .WPCDMD true) ++ [0x0042] :=
  (C12_wpcdmd_single_byte (fun _ _ => true) (initEngine .WPCDMD true) 0x42 0 (Or.inl rfl)
    (by decide) (by decide)).1 (by decide)

theorem wpcVolume_range (v : Nat) :
    wpcVolume v = min 1 ((v : ℚ) / 127) ∧ 0 ≤ wpcVolume v ∧ wpcVolume v ≤ 1 := by
  have hv : (0 : ℚ) ≤ (v : ℚ) / 127 := div_nonneg (Nat.cast_nonneg v) (by norm_num)
  refine ⟨min_comm _ _, ?_, ?_⟩
  · exact le_min hv (by norm_num)
  · exact min_le_right _ _

/-- The framing step on the last byte of a WPC `0x79` volume sequence. -/
theorem frame_wpc_volume (e : Engine) (cmd : Nat) (attenuation : Int)
    (hgen : e.g_hardwareGen = .WPCDMD ∨ e.g_hardwareGen = .WPCALPHA_2 ∨
            e.g_hardwareGen = .WPCFLIPTRON)
    (hb2 : e.g_cmdData.cmd_buffer.b1 = 0x79)
    (hpar : e.g_cmdData.cmd_buffer.b0 = cmd ^^^ 0xFF) :
    (frame e cmd attenuation).g_cmdData
        = { e.g_cmdData with cmd_counter := 0, cmd_filter := 1, cmd_buffer := clearedBuffer }
    ∧ (frame e cmd attenuation).global_vol
        = if e.rom_controls_vol then wpcVolume e.g_cmdData.cmd_buffer.b0 else e.global_vol := by
  obtain ⟨gen, ⟨cnt, st, fl, b0, b1, b2, b3⟩, mv, gv, rom, calls⟩ := e
  simp only at hgen hb2 hpar
  subst hb2 hpar
  rcases hgen with h | h | h <;> subst h <;>
    cases rom <;>
    simp [frame, altsound_preprocess_commands, shiftBuffer, consume]

/-- C13: with generation WPCALPHA_2, WPCDMD or WPCFLIPTRON, whenever
`b[2] = 0x79` and `b[1] = b[0] XOR 0xFF` the byte is consumed with the filter
flag set, the buffer cleared and the counter reset, nothing is emitted, and
with ROM-controls-volume enabled the global volume becomes `min(1, b[1]/127)`,
which lies in `[0,1]`. -/
theorem C13_wpc_volume (handleCmd : Engine → Nat → Bool) (e : Engine) (cmd : Nat)
    (attenuation : Int)
    (hgen : e.g_hardwareGen = .WPCDMD ∨ e.g_hardwareGen = .WPCALPHA_2 ∨
            e.g_hardwareGen = .WPCFLIPTRON)
    (hb2 : (shiftBuffer e.g_cmdData.cmd_buffer cmd).b2 = 0x79)
    (hpar : (shiftBuffer e.g_cmdData.cmd_buffer cmd).b1
              = (shiftBuffer e.g_cmdData.cmd_buffer cmd).b0 ^^^ 0xFF) :
    (AltSoundProcessCommand handleCmd e cmd attenuation).1.g_cmdData.cmd_filter = 1
    ∧ (AltSoundProcessCommand handleCmd e cmd attenuation).1.g_cmdData.cmd_buffer = clearedBuffer
    ∧ (AltSoundProcessCommand handleCmd e cmd attenuation).1.g_cmdData.cmd_counter = 0
    ∧ emitted (AltSoundProcessCommand handleCmd e cmd attenuation).1 = emitted e
    ∧ (e.rom_controls_vol = true →
        (AltSoundProcessCommand handleCmd e cmd attenuation).1.global_vol
          = min 1 (((shiftBuffer e.g_cmdData.cmd_buffer cmd).b1 : ℚ) / 127))
    ∧ (e.rom_controls_vol = false →
        (AltSoundProcessCommand handleCmd e cmd attenuation).1.global_vol = e.global_vol)
    ∧ 0 ≤ min 1 (((shiftBuffer e.g_cmdData.cmd_buffer cmd).b1 : ℚ) / 127)
    ∧ min 1 (((shiftBuffer e.g_cmdData.cmd_buffer cmd).b1 : ℚ) / 127) ≤ 1 := by
  simp only [shiftBuffer] at hb2 hpar ⊢
  obtain ⟨hd, hvol⟩ := frame_wpc_volume e cmd attenuation hgen hb2 hpar
  obtain ⟨hw, hw0, hw1⟩ := wpcVolume_range e.g_cmdData.cmd_buffer.b0
  have habs : (frame e cmd attenuation).g_cmdData.cmd_filter ≠ 0 ∨
         (frame e cmd attenuation).g_cmdData.cmd_counter % 2 ≠ 0 := by
    left
    rw [hd]
    simp
  rw [hw] at hw0 hw1
  rw [process_absorb handleCmd e cmd attenuation habs]
  simp only [hd, hvol, emitted, frame_calls, true_and]
  refine ⟨?_, ?_, hw0, hw1⟩
  · intro hrom
    rw [if_pos hrom, hw]
  · intro hrom
    simp [hrom]

/-- C13 at generation WPCDMD with ROM-controls-volume enabled: after the bytes
`0x79, 0x40`, the byte `0xBF` sets the global volume to `min(1, 64/127)`. -/
theorem C13_wpc_volume_witness :
    (AltSoundProcessCommand (fun _ _ => true)
        (processCommands (fun _ _ => true) (initEngine .WPCDMD true) [0x79, 0x40])
        0xBF 0).1.global_vol
      = min 1 (((shiftBuffer (processCommands (fun _ _ => true) (initEngine .WPCDMD true)
          [0x79, 0x40]).g_cmdData.cmd_buffer 0xBF).b1 : ℚ) / 127) :=
  (C13_wpc_volume (fun _ _ => true)
    (processCommands (fun _ _ => true) (initEngine .WPCDMD true) [0x79, 0x40]) 0xBF 0
    (Or.inl rfl) (by decide) (by decide)).2.2.2.2.1 rfl

/-- C14 (as the code has it): with an unrecognized hardware-generation tag (NONE
or any tag the framer has no case for) the framing rules change nothing, so
the bytes are paired by the parity counter.  With the filter flag clear, a
byte that makes the counter odd is absorbed and kept as the stored command,
and a byte that makes it even is emitted as `(stored_command << 8) | c`; from
the state left by init the bytes `c1, c2` emit nothing on `c1` and the one
command `(c1 << 8) | c2` on `c2`. -/
theorem C14_unrecognized_gen_pairs_bytes (handleCmd : Engine → Nat → Bool) (e : Engine)
    (c c1 c2 : Nat) (attenuation : Int) (romVol : Bool)
    (hgen : e.g_hardwareGen = .NONE ∨ ∃ tag, e.g_hardwareGen = .OTHER tag)
    (hfilter : e.g_cmdData.cmd_filter = 0) (hc1 : c1 ≤ 255) :
    ((e.g_cmdData.cmd_counter + 1) % 4294967296 % 2 ≠ 0 →
        emitted (AltSoundProcessCommand handleCmd e c attenuation).1 = emitted e
        ∧ (AltSoundProcessCommand handleCmd e c attenuation).1.g_cmdData.stored_command
            = toInt32 c)
    ∧ ((e.g_cmdData.cmd_counter + 1) % 4294967296 % 2 = 0 →
        emitted (AltSoundProcessCommand handleCmd e c attenuation).1
          = emitted e ++ [combine e.g_cmdData.stored_command c])
    ∧ emitted (processCommands handleCmd (initEngine e.g_hardwareGen romVol) [c1]) = []
    ∧ emitted (processCommands handleCmd (initEngine e.g_hardwareGen romVol) [c1, c2])
        = [(c1 <<< 8) ||| c2] := by
  have hF := fun d x => framedData_default e.g_hardwareGen d x hgen
  have hc : toInt32 c1 = (c1 : Int) := toInt32_of_lt c1 (by omega)
  refine ⟨?_, ?_, ?_, ?_⟩
  · intro hodd
    rw [process_emitted, process_cmdData, hF]
    simp [hodd]
  · intro heven
    rw [process_emitted, hF]
    simp [heven, hfilter]
  · rw [processCommands_emitted]
    simp [initEngine, emitted, runEmit, stepEmit_eq, hF, initCmdData]
  · rw [processCommands_emitted]
    simp [initEngine, emitted, runEmit, stepEmit_eq, stepData_eq, hF, initCmdData, hc,
      combine_of_nat c1 c2 hc1]

/-- C14 (as the code has it) at generation NONE from the state left by init: the
bytes `0x12, 0x34` emit the one command `0x1234`. -/
theorem C14_unrecognized_gen_pairs_bytes_witness :
    emitted (processCommands (fun _ _ => true) (initEngine .NONE true) [0x12]) = []
    ∧ emitted (processCommands (fun _ _ => true) (initEngine .NONE true) [0x12, 0x34])
        = [0x1234] :=
  (C14_unrecognized_gen_pairs_bytes (fun _ _ => true) (initEngine .NONE true) 0 0x12 0x34 0 true
    (Or.inl rfl) rfl (by decide)).2.2

/-- C14, the claim as stated fails: from init with generation NONE the byte
`0x12` is not emitted on the call that receives it, and the byte `0x34` that
follows is emitted as `0x1234`, not as `0x0034`. -/
theorem C14_counterexample :
    emitted (processCommands (fun _ _ => true) (initEngine .NONE true) [0x12]) = []
    ∧ emitted (processCommands (fun _ _ => true) (initEngine .NONE true) [0x12, 0x34])
        = [0x1234]
    ∧ emitted (processCommands (fun _ _ => true) (initEngine .NONE true) [0x12, 0x34])
        ≠ [(0 <<< 8) ||| 0x12, (0 <<< 8) ||| 0x34] := by
  decide

/-- C15 (as the code has it): after `AltSoundProcessCommand` emits a logical
command the framer state is the one the framing rules left, nothing is reset
afterwards.  The parity counter is even: it is `0` for WPCALPHA_2, WPCDMD,
WPCFLIPTRON, the S11 family, the DE family and GTS80A, and it is the
incremented counter for the WPC-DCS family, Whitestar and unrecognized tags.
The stored-command register is not cleared: it still holds the high byte of
the command just emitted (for WPC-DCS, Whitestar and unrecognized tags the
value it had before the call). -/
theorem C15_state_after_emission (handleCmd : Engine → Nat → Bool) (e : Engine) (cmd : Nat)
    (attenuation : Int)
    (hf : (frame e cmd attenuation).g_cmdData.cmd_filter = 0)
    (hc : (frame e cmd attenuation).g_cmdData.cmd_counter % 2 = 0) :
    emitted (AltSoundProcessCommand handleCmd e cmd attenuation).1
        = emitted e ++
          [combine (AltSoundProcessCommand handleCmd e cmd attenuation).1.g_cmdData.stored_command
            cmd]
    ∧ (AltSoundProcessCommand handleCmd e cmd attenuation).1.g_cmdData
        = (frame e cmd attenuation).g_cmdData
    ∧ (AltSoundProcessCommand handleCmd e cmd attenuation).1.g_cmdData.cmd_counter % 2 = 0
    ∧ ((e.g_hardwareGen = .WPCDMD ∨ e.g_hardwareGen = .WPCALPHA_2 ∨
          e.g_hardwareGen = .WPCFLIPTRON)
        ∨ (e.g_hardwareGen = .WPCALPHA_1 ∨ e.g_hardwareGen = .S11 ∨ e.g_hardwareGen = .S11X ∨
            e.g_hardwareGen = .S11B2 ∨ e.g_hardwareGen = .S11C)
        ∨ (e.g_hardwareGen = .DEDMD16 ∨ e.g_hardwareGen = .DEDMD32 ∨
            e.g_hardwareGen = .DEDMD64 ∨ e.g_hardwareGen = .DE)
        ∨ e.g_hardwareGen = .GTS80 →
        (AltSoundProcessCommand handleCmd e cmd attenuation).1.g_cmdData.cmd_counter = 0)
    ∧ ((e.g_hardwareGen = .NONE ∨ ∃ tag, e.g_hardwareGen = .OTHER tag)
        ∨ (e.g_hardwareGen = .WPCDCS ∨ e.g_hardwareGen = .WPCSECURITY ∨
            e.g_hardwareGen = .WPC95DCS ∨ e.g_hardwareGen = .WPC95)
        ∨ (e.g_hardwareGen = .WS ∨ e.g_hardwareGen = .WS_1 ∨ e.g_hardwareGen = .WS_2) →
        (AltSoundProcessCommand handleCmd e cmd attenuation).1.g_cmdData.cmd_counter
            = (e.g_cmdData.cmd_counter + 1) % 4294967296
        ∧ (AltSoundProcessCommand handleCmd e cmd attenuation).1.g_cmdData.stored_command
            = e.g_cmdData.stored_command) := by
  obtain ⟨hem, hdata, _⟩ := process_emit handleCmd e cmd attenuation hf hc
  rw [hdata]
  refine ⟨hem, rfl, hc, ?_, ?_⟩
  · rw [frame_cmdData] at hf hc ⊢
    rintro (h | h | h | h)
    · rw [framedData_wpcdmd _ _ _ h] at hf hc ⊢
      split_ifs at hf hc ⊢ <;> simp at hf hc ⊢
    · rw [framedData_s11 _ _ _ h] at hf hc ⊢
      split_ifs at hf hc ⊢ <;> simp at hf hc ⊢
    · rw [framedData_de _ _ _ h] at hf hc ⊢
      split_ifs at hf hc ⊢ <;> simp at hf hc ⊢
    · rw [h, framedData_gts80] at hf hc ⊢
      split_ifs at hf hc ⊢
      simp at hf hc ⊢
  · rw [frame_cmdData] at hf hc ⊢
    rintro (h | h | h)
    · rw [framedData_default _ _ _ h]
      exact ⟨rfl, rfl⟩
    · rw [framedData_dcs _ _ _ h] at hf hc ⊢
      split_ifs at hf hc ⊢
      exact ⟨rfl, rfl⟩
    · rw [framedData_ws _ _ _ h] at hf hc ⊢
      split_ifs at hf hc ⊢
      all_goals first | (simp at hc; done) | exact ⟨rfl, rfl⟩

/-- C15 (as the code has it) at generation WPCDCS from the state left by init:
after `0x55` the byte `0xAA` emits `0x55AA` and leaves the counter at `2` and
the stored command at `0x55`. -/
theorem C15_state_after_emission_witness :
    (AltSoundProcessCommand (fun _ _ => true)
        (processCommands (fun _ _ => true) (initEngine .WPCDCS true) [0x55]) 0xAA
          0).1.g_cmdData.cmd_counter
      = ((processCommands (fun _ _ => true) (initEngine .WPCDCS true)
          [0x55]).g_cmdData.cmd_counter + 1) % 4294967296
    ∧ (AltSoundProcessCommand (fun _ _ => true)
        (processCommands (fun _ _ => true) (initEngine .WPCDCS true) [0x55]) 0xAA
          0).1.g_cmdData.stored_command
      = (processCommands (fun _ _ => true) (initEngine .WPCDCS true)
          [0x55]).g_cmdData.stored_command :=
  (C15_state_after_emission (fun _ _ => true)
    (processCommands (fun _ _ => true) (initEngine .WPCDCS true) [0x55]) 0xAA 0
    (by decide) (by decide)).2.2.2.2 (Or.inr (Or.inl (Or.inl rfl)))

/-- C15, the claim as stated fails: from init with generation WPCDCS the bytes
`0x55, 0xAA` emit `0x55AA`, after which the parity counter is `2`, not `0`,
and the stored-command register still holds `0x55`. -/
theorem C15_counterexample :
    emitted (processCommands (fun _ _ => true) (initEngine .WPCDCS true) [0x55, 0xAA])
      = [0x55AA]
    ∧ (processCommands (fun _ _ => true) (initEngine .WPCDCS true)
        [0x55, 0xAA]).g_cmdData.cmd_counter = 2
    ∧ (processCommands (fun _ _ => true) (initEngine .WPCDCS true)
        [0x55, 0xAA]).g_cmdData.stored_command = 0x55 := by
  decide

/-- C16: the post-emission hook calls `stopMusic` for the logical command `c`
under generation `g` if and only if `g` is WPCDCS, WPCSECURITY, WPC95 or
WPC95DCS and `c = 0x03E3`, or `g` is DEDMD32 and `c` is `0x0018` or `0x0023`,
or `g` is WS, WS_1 or WS_2 and `c = 0x0000` or `(c AND 0xF0FF) = 0xF000`; in
every other case the hook makes no call. -/
theorem C16_stop_music_iff (e : Engine) (c : Nat) :
    ((altsound_postprocess_commands e c).calls
        = e.calls ++ [Call.postprocess c, Call.stopMusic]
      ↔ ((e.g_hardwareGen = .WPCDCS ∨ e.g_hardwareGen = .WPCSECURITY ∨
            e.g_hardwareGen = .WPC95 ∨ e.g_hardwareGen = .WPC95DCS) ∧ c = 0x03E3)
        ∨ (e.g_hardwareGen = .DEDMD32 ∧ (c = 0x0018 ∨ c = 0x0023))
        ∨ ((e.g_hardwareGen = .WS ∨ e.g_hardwareGen = .WS_1 ∨ e.g_hardwareGen = .WS_2) ∧
            (c = 0x0000 ∨ c &&& 0xF0FF = 0xF000)))
    ∧ ((altsound_postprocess_commands e c).calls = e.calls ++ [Call.postprocess c]
      ↔ ¬ (((e.g_hardwareGen = .WPCDCS ∨ e.g_hardwareGen = .WPCSECURITY ∨
            e.g_hardwareGen = .WPC95 ∨ e.g_hardwareGen = .WPC95DCS) ∧ c = 0x03E3)
        ∨ (e.g_hardwareGen = .DEDMD32 ∧ (c = 0x0018 ∨ c = 0x0023))
        ∨ ((e.g_hardwareGen = .WS ∨ e.g_hardwareGen = .WS_1 ∨ e.g_hardwareGen = .WS_2) ∧
            (c = 0x0000 ∨ c &&& 0xF0FF = 0xF000)))) := by
  obtain ⟨gen, d, mv, gv, rom, calls⟩ := e
  cases gen <;> simp only [altsound_postprocess_commands] <;>
    (try split) <;> simp_all

/-- C16 at the pairs the claim names: DEDMD32 with `0x0019` and DEDMD16 with
`0x0018` issue no stop. -/
theorem C16_stop_music_iff_witness :
    (altsound_postprocess_commands (initEngine .DEDMD32 true) 0x0019).calls
        = (initEngine .DEDMD32 true).calls ++ [Call.postprocess 0x0019]
    ∧ (altsound_postprocess_commands (initEngine .DEDMD16 true) 0x0018).calls
        = (initEngine .DEDMD16 true).calls ++ [Call.postprocess 0x0018] :=
  ⟨(C16_stop_music_iff (initEngine .DEDMD32 true) 0x0019).2.mpr (by decide),
   (C16_stop_music_iff (initEngine .DEDMD16 true) 0x0018).2.mpr (by decide)⟩

/-- C17 (as the code has it): with generation WS (also WS_1 and WS_2) the
post-emission hook does not call `stopMusic` for the logical command `0xF0AF`,
because `0xF0AF AND 0xF0FF` is `0xF0AF`, not `0xF000`; it calls it for
`0x0000` and for the commands with `(c AND 0xF0FF) = 0xF000`, such as `0xF000`
and `0xFA00`. -/
theorem C17_ws_hook_on_F0AF (e : Engine)
    (hgen : e.g_hardwareGen = .WS ∨ e.g_hardwareGen = .WS_1 ∨ e.g_hardwareGen = .WS_2) :
    (altsound_postprocess_commands e 0xF0AF).calls = e.calls ++ [Call.postprocess 0xF0AF]
    ∧ (0xF0AF : Nat) &&& 0xF0FF = 0xF0AF
    ∧ (altsound_postprocess_commands e 0x0000).calls
        = e.calls ++ [Call.postprocess 0x0000, Call.stopMusic]
    ∧ (altsound_postprocess_commands e 0xF000).calls
        = e.calls ++ [Call.postprocess 0xF000, Call.stopMusic]
    ∧ (altsound_postprocess_commands e 0xFA00).calls
        = e.calls ++ [Call.postprocess 0xFA00, Call.stopMusic] := by
  obtain ⟨gen, d, mv, gv, rom, calls⟩ := e
  simp only at hgen
  have h1 : (0xF0AF : Nat) &&& 0xF0FF = 0xF0AF := by decide
  have h2 : (0xF000 : Nat) &&& 0xF0FF = 0xF000 := by decide
  have h3 : (0xFA00 : Nat) &&& 0xF0FF = 0xF000 := by decide
  rcases hgen with h | h | h <;> subst h <;>
    simp [altsound_postprocess_commands, h1, h2, h3]

/-- C17 (as the code has it) at generation WS after init. -/
theorem C17_ws_hook_on_F0AF_witness :
    (altsound_postprocess_commands (initEngine .WS true) 0xF0AF).calls
      = [Call.postprocess 0xF0AF]
    ∧ (altsound_postprocess_commands (initEngine .WS true) 0xFA00).calls
      = [Call.postprocess 0xFA00, Call.stopMusic] :=
  ⟨(C17_ws_hook_on_F0AF (initEngine .WS true) (Or.inl rfl)).1,
   (C17_ws_hook_on_F0AF (initEngine .WS true) (Or.inl rfl)).2.2.2.2⟩

/-- C17, the claim as stated fails: with generation WS the post-emission hook on
`0xF0AF` does not call `stopMusic`. -/
theorem C17_counterexample :
    Call.stopMusic ∉ (altsound_postprocess_commands (initEngine .WS true) 0xF0AF).calls := by
  decide

theorem attenuate_nonneg (v : ℚ) (a : Int) (h : 0 ≤ a) : attenuate v a = v := by
  rw [attenuate, if_neg (not_lt.mpr h)]

/-- A value within a half of an integer rounds to that integer. -/
theorem roundHalfEven_of_near (y : ℚ) (m : Int) (h : |y - m| < 1 / 2) : roundHalfEven y = m := by
  have h1 := Int.floor_le y
  have h2 := Int.lt_floor_add_one y
  rw [abs_lt] at h
  obtain ⟨h3, h4⟩ := h
  unfold roundHalfEven
  split_ifs with c1 c2 c3
  · have b1 : (⌊y⌋ : ℚ) < m + 1 := by linarith
    have b2 : (m : ℚ) < ⌊y⌋ + 1 := by linarith
    have a1 : ⌊y⌋ < m + 1 := by exact_mod_cast b1
    have a2 : m < ⌊y⌋ + 1 := by exact_mod_cast b2
    omega
  · have b1 : (⌊y⌋ : ℚ) < m := by linarith
    have b2 : (m : ℚ) < ⌊y⌋ + 2 := by linarith
    have a1 : ⌊y⌋ < m := by exact_mod_cast b1
    have a2 : m < ⌊y⌋ + 2 := by exact_mod_cast b2
    omega
  · exfalso
    have hy : y - ⌊y⌋ = 1 / 2 := le_antisymm (not_lt.mp c2) (not_lt.mp c1)
    have b1 : (⌊y⌋ : ℚ) < m := by linarith
    have b2 : (m : ℚ) < ⌊y⌋ + 1 := by linarith
    have a1 : ⌊y⌋ < m := by exact_mod_cast b1
    have a2 : m < ⌊y⌋ + 1 := by exact_mod_cast b2
    omega
  · exfalso
    have hy : y - ⌊y⌋ = 1 / 2 := le_antisymm (not_lt.mp c2) (not_lt.mp c1)
    have b1 : (⌊y⌋ : ℚ) < m := by linarith
    have b2 : (m : ℚ) < ⌊y⌋ + 1 := by linarith
    have a1 : ⌊y⌋ < m := by exact_mod_cast b1
    have a2 : m < ⌊y⌋ + 1 := by exact_mod_cast b2
    omega

/-- Rounding to the nearest integer moves a value by at most a half. -/
theorem roundHalfEven_error (y : ℚ) : |(roundHalfEven y : ℚ) - y| ≤ 1 / 2 := by
  have h1 := Int.floor_le y
  have h2 := Int.lt_floor_add_one y
  unfold roundHalfEven
  rw [abs_le]
  split_ifs with c1 c2 c3
  · constructor
    · linarith
    · linarith
  · push_cast
    constructor
    · linarith
    · linarith
  · have hy : y - ⌊y⌋ = 1 / 2 := le_antisymm (not_lt.mp c2) (not_lt.mp c1)
    constructor
    · linarith
    · linarith
  · have hy : y - ⌊y⌋ = 1 / 2 := le_antisymm (not_lt.mp c2) (not_lt.mp c1)
    push_cast
    constructor
    · linarith
    · linarith

/-- The binary exponent of a value between two consecutive powers of two. -/
theorem log2_of_bounds (x : ℚ) (e : Int) (h1 : (2 : ℚ) ^ e ≤ x) (h2 : x < (2 : ℚ) ^ (e + 1)) :
    Int.log 2 x = e := by
  have hx : 0 < x := lt_of_lt_of_le (by positivity) h1
  have hb : 1 < 2 := by decide
  have a1 : e ≤ Int.log 2 x := (Int.zpow_le_iff_le_log hb hx).mp (by exact_mod_cast h1)
  have a2 : Int.log 2 x < e + 1 := (Int.lt_zpow_iff_log_lt hb hx).mp (by exact_mod_cast h2)
  omega

/-- How the `float` nearest to a positive value is checked: its binary exponent
`e0`, the exponent `e` clamped at `-126`, and an integer `m` within a half of
the value counted in units of `2^(e - 23)`. -/
theorem f32Round_of_near (x : ℚ) (e0 e m : Int) (h1 : (2 : ℚ) ^ e0 ≤ x)
    (h2 : x < (2 : ℚ) ^ (e0 + 1)) (he : e = max e0 (-126))
    (hm : |x / (2 : ℚ) ^ (e - 23) - m| < 1 / 2) :
    f32Round x = (m : ℚ) * (2 : ℚ) ^ (e - 23) := by
  have hx : 0 < x := lt_of_lt_of_le (by positivity) h1
  have hlog := log2_of_bounds x e0 h1 h2
  unfold f32Round
  rw [if_neg (ne_of_gt hx)]
  simp only [abs_of_pos hx, hlog, ← he]
  rw [if_neg (not_lt.mpr (le_of_lt hx)), roundHalfEven_of_near _ m hm]

/-- The literal `1.122018454f` is the `float` `9412173 / 2^23`. -/
theorem f32Round_literal : f32Round ((1122018454 : ℚ) / 1000000000) = 9412173 / 8388608 := by
  have hm : |(1122018454 : ℚ) / 1000000000 / (2 : ℚ) ^ ((0 : Int) - 23) - (9412173 : Int)|
      < 1 / 2 := by
    rw [abs_lt]
    constructor
    · norm_num
    · norm_num
  rw [f32Round_of_near _ 0 0 9412173 (by norm_num) (by norm_num) (by decide) hm]
  norm_num

/-- The `float` that `1.0f / 1.122018454f` gives. -/
theorem f32Round_first_step :
    f32Round (1 / ((9412173 : ℚ) / 8388608)) = 14952709 / 16777216 := by
  have hm : |(1 : ℚ) / ((9412173 : ℚ) / 8388608) / (2 : ℚ) ^ ((-1 : Int) - 23)
      - (14952709 : Int)| < 1 / 2 := by
    rw [abs_lt]
    constructor
    · norm_num
    · norm_num
  rw [f32Round_of_near _ (-1) (-1) 14952709 (by norm_num) (by norm_num) (by decide) hm]
  norm_num

/-- The `float` `2^-147` divided by `1.122018454f` gives `2^-147` again: the
quotient, `3.565` units of `2^-149`, rounds to `4` units. -/
theorem f32Round_stuck :
    f32Round ((2 : ℚ) ^ (-147 : Int) / ((9412173 : ℚ) / 8388608)) = (2 : ℚ) ^ (-147 : Int) := by
  have hm : |(2 : ℚ) ^ (-147 : Int) / ((9412173 : ℚ) / 8388608)
      / (2 : ℚ) ^ ((-126 : Int) - 23) - (4 : Int)| < 1 / 2 := by
    rw [abs_lt]
    constructor
    · norm_num
    · norm_num
  rw [f32Round_of_near _ (-148) (-126) 4 (by norm_num) (by norm_num) (by decide) hm]
  norm_num

/-- Storing a value in a `float` moves it by at most half the spacing of the
floats around it. -/
theorem f32Round_error (x : ℚ) :
    |f32Round x - x| ≤ (2 : ℚ) ^ (max (Int.log 2 |x|) (-126) - 23) / 2 := by
  unfold f32Round
  by_cases h0 : x = 0
  · rw [if_pos h0, h0]
    simp only [sub_zero, abs_zero]
    positivity
  · rw [if_neg h0]
    simp only
    have hu : (0 : ℚ) < (2 : ℚ) ^ (max (Int.log 2 |x|) (-126) - 23) := by positivity
    have hr := roundHalfEven_error (|x| / (2 : ℚ) ^ (max (Int.log 2 |x|) (-126) - 23))
    generalize (2 : ℚ) ^ (max (Int.log 2 |x|) (-126) - 23) = u at hu hr ⊢
    generalize (roundHalfEven (|x| / u) : ℚ) = m at hr ⊢
    have hkey : abs (m * u - abs x) ≤ u / 2 := by
      have heq : m * u - abs x = (m - abs x / u) * u := by
        field_simp
      rw [heq, abs_mul, abs_of_pos hu]
      calc abs (m - abs x / u) * u ≤ 1 / 2 * u := mul_le_mul_of_nonneg_right hr (le_of_lt hu)
        _ = u / 2 := by ring
    by_cases hneg : x < 0
    · rw [if_pos hneg]
      rw [abs_of_neg hneg] at hkey
      have hflip : -(m * u) - x = -(m * u - -x) := by ring
      rw [hflip, abs_neg]
      exact hkey
    · rw [if_neg hneg]
      have hpos : 0 < x := lt_of_le_of_ne (not_lt.mp hneg) (Ne.symm h0)
      rw [abs_of_pos hpos] at hkey
      exact hkey

/-- For a value of magnitude `2^-126` or more the move is at most `2^-24` of the
value. -/
theorem f32Round_relative (x : ℚ) (hx : (2 : ℚ) ^ (-126 : Int) ≤ |x|) :
    |f32Round x - x| ≤ |x| * (2 : ℚ) ^ (-24 : Int) := by
  have hpos : 0 < |x| := lt_of_lt_of_le (by positivity) hx
  have hb : 1 < 2 := by decide
  have hlog : (-126 : Int) ≤ Int.log 2 |x| :=
    (Int.zpow_le_iff_le_log hb hpos).mp (by exact_mod_cast hx)
  have hle := Int.zpow_log_le_self hb hpos
  have h := f32Round_error x
  rw [max_eq_left hlog] at h
  calc |f32Round x - x| ≤ (2 : ℚ) ^ (Int.log 2 |x| - 23) / 2 := h
    _ = (2 : ℚ) ^ (Int.log 2 |x|) * (2 : ℚ) ^ (-24 : Int) := by
        rw [show Int.log 2 |x| - 23 = Int.log 2 |x| + (-23) by ring,
          zpow_add₀ (by norm_num : (2 : ℚ) ≠ 0)]
        norm_num
        ring
    _ ≤ |x| * (2 : ℚ) ^ (-24 : Int) :=
        mul_le_mul_of_nonneg_right (by exact_mod_cast hle) (by positivity)

theorem attenuate_neg_succ (v : ℚ) (k : Nat) :
    attenuate v (-((k + 1 : Nat) : Int))
      = attenuate (f32Round (v / ((9412173 : ℚ) / 8388608))) (-((k : Nat) : Int)) := by
  rw [attenuate, if_pos (by omega), f32Round_literal]
  congr 1
  omega

/-- The attenuation loop divides the master volume once per step below zero,
each quotient rounded to a `float`. -/
theorem attenuate_neg (k : Nat) (v : ℚ) :
    attenuate v (-((k : Nat) : Int))
      = (fun w : ℚ => f32Round (w / ((9412173 : ℚ) / 8388608)))^[k] v := by
  induction k generalizing v with
  | zero => simp [attenuate_nonneg]
  | succ n ih =>
    rw [attenuate_neg_succ, ih, Function.iterate_succ_apply]

theorem preprocess_master_vol (e : Engine) (cmd : Nat) :
    (altsound_preprocess_commands e cmd).master_vol = e.master_vol := by
  obtain ⟨gen, d, mv, gv, rom, calls⟩ := e
  cases gen <;> simp only [altsound_preprocess_commands] <;> (repeat (split <;> try rfl))

/-- The master volume after one call is the attenuated master volume. -/
theorem process_master_vol (handleCmd : Engine → Nat → Bool) (e : Engine) (cmd : Nat)
    (attenuation : Int) :
    (AltSoundProcessCommand handleCmd e cmd attenuation).1.master_vol
      = attenuate e.master_vol attenuation := by
  have hfr : (frame e cmd attenuation).master_vol = attenuate e.master_vol attenuation := by
    simp [frame, preprocess_master_vol]
  by_cases h : (frame e cmd attenuation).g_cmdData.cmd_filter ≠ 0 ∨
         (frame e cmd attenuation).g_cmdData.cmd_counter % 2 ≠ 0
  · rw [process_absorb handleCmd e cmd attenuation h]
    exact hfr
  · unfold AltSoundProcessCommand
    simp only [if_neg h]
    split <;> simp [(postprocess_vols _ _).2.1, hfr]

/-- The master volume after a trace of calls with attenuation `-1`: one rounded
division per call. -/
theorem processCommandsAtt_master_vol (handleCmd : Engine → Nat → Bool) :
    ∀ (cmds : List Nat) (e : Engine),
      (processCommandsAtt handleCmd (-1) e cmds).master_vol
        = (fun w : ℚ => f32Round (w / ((9412173 : ℚ) / 8388608)))^[cmds.length] e.master_vol := by
  intro cmds
  induction cmds with
  | nil =>
    intro e
    rfl
  | cons c cs ih =>
    intro e
    have hstep : processCommandsAtt handleCmd (-1) e (c :: cs)
        = processCommandsAtt handleCmd (-1) (AltSoundProcessCommand handleCmd e c (-1)).1 cs :=
      rfl
    have h1 := attenuate_neg 1 e.master_vol
    simp only [Nat.cast_one, Function.iterate_succ, Function.iterate_zero, Function.comp,
      id] at h1
    rw [hstep, ih, process_master_vol, h1, List.length_cons, Function.iterate_succ_apply]

/-- C18, the claim as stated fails: from the init state, where the master volume
is `1`, one call with attenuation `-1` leaves the master volume at the `float`
`14952709 / 2^24`, which is neither `1 × 1.122018454^(-1)` nor `1` divided by
the `float` constant `9412173 / 2^23`. -/
theorem C18_counterexample :
    (AltSoundProcessCommand (fun _ _ => true) (initEngine .S11 true) 0x15 (-1)).1.master_vol
      = 14952709 / 16777216
    ∧ (14952709 : ℚ) / 16777216 ≠ 1 * ((1122018454 : ℚ) / 1000000000) ^ (-(1 : Int))
    ∧ (14952709 : ℚ) / 16777216 ≠ 1 * ((9412173 : ℚ) / 8388608) ^ (-(1 : Int)) := by
  refine ⟨?_, by norm_num, by norm_num⟩
  have h1 := attenuate_neg 1 1
  simp only [Nat.cast_one, Function.iterate_succ, Function.iterate_zero, Function.comp,
    id] at h1
  rw [process_master_vol]
  show attenuate 1 (-1) = _
  rw [h1, f32Round_first_step]

/-- C18 (as the code has it): the literal `1.122018454f` is the `float`
`9412173 / 2^23`; one call with attenuation `-k` divides the master volume by
it exactly `k` times, each quotient being rounded to the nearest `float`; a
call with attenuation `≥ 0` leaves the master volume unchanged; after `k`
calls with attenuation `-1` the master volume is the initial one after `k`
such rounded divisions.  Each rounded quotient is within `2^-24` of the exact
quotient, relatively, when that is `2^-126` or more in magnitude; and at the
master volume `2^-147` the division gives `2^-147` again, so further calls
with attenuation `-1` do not change it. -/
theorem C18_master_volume_attenuation (handleCmd : Engine → Nat → Bool) (e : Engine) :
    f32Round ((1122018454 : ℚ) / 1000000000) = 9412173 / 8388608
    ∧ (∀ (cmd k : Nat),
        (AltSoundProcessCommand handleCmd e cmd (-(k : Int))).1.master_vol
          = (fun v : ℚ => f32Round (v / ((9412173 : ℚ) / 8388608)))^[k] e.master_vol)
    ∧ (∀ (cmd : Nat) (a : Int), 0 ≤ a →
        (AltSoundProcessCommand handleCmd e cmd a).1.master_vol = e.master_vol)
    ∧ (∀ cmds : List Nat,
        (processCommandsAtt handleCmd (-1) e cmds).master_vol
          = (fun v : ℚ => f32Round (v / ((9412173 : ℚ) / 8388608)))^[cmds.length]
              e.master_vol)
    ∧ (∀ v : ℚ, (2 : ℚ) ^ (-126 : Int) ≤ |v / ((9412173 : ℚ) / 8388608)| →
        |f32Round (v / ((9412173 : ℚ) / 8388608)) - v / ((9412173 : ℚ) / 8388608)|
          ≤ |v / ((9412173 : ℚ) / 8388608)| * (2 : ℚ) ^ (-24 : Int))
    ∧ (e.master_vol = (2 : ℚ) ^ (-147 : Int) →
        ∀ cmds : List Nat,
          (processCommandsAtt handleCmd (-1) e cmds).master_vol = (2 : ℚ) ^ (-147 : Int)) := by
  refine ⟨f32Round_literal, ?_, ?_, ?_, ?_, ?_⟩
  · intro cmd k
    rw [process_master_vol, attenuate_neg]
  · intro cmd a ha
    rw [process_master_vol, attenuate_nonneg _ _ ha]
  · intro cmds
    exact processCommandsAtt_master_vol handleCmd cmds e
  · intro v hv
    exact f32Round_relative _ hv
  · intro hmv cmds
    rw [processCommandsAtt_master_vol handleCmd cmds e, hmv]
    exact @Function.iterate_fixed ℚ (fun w : ℚ => f32Round (w / ((9412173 : ℚ) / 8388608)))
      ((2 : ℚ) ^ (-147 : Int)) f32Round_stuck cmds.length

/-- C18 (as the code has it) from the init state: two calls with attenuation
`-1` leave the master volume that one call with attenuation `-2` leaves. -/
theorem C18_master_volume_attenuation_witness :
    (processCommandsAtt (fun _ _ => true) (-1) (initEngine .S11 true) [0x15, 0x22]).master_vol
      = (AltSoundProcessCommand (fun _ _ => true) (initEngine .S11 true) 0x15
          (-((2 : Nat) : Int))).1.master_vol := by
  rw [(C18_master_volume_attenuation (fun _ _ => true) (initEngine .S11 true)).2.2.2.1
      [0x15, 0x22],
    (C18_master_volume_attenuation (fun _ _ => true) (initEngine .S11 true)).2.1 0x15 2]
  rfl

/-- The calls the post-emission hook adds: its own run on `c`, then possibly
`stopMusic`. -/
theorem postprocess_calls (e : Engine) (c : Nat) :
    ∃ tail, (altsound_postprocess_commands e c).calls = e.calls ++ Call.postprocess c :: tail
      ∧ (tail = [] ∨ tail = [Call.stopMusic]) := by
  obtain ⟨gen, d, mv, gv, rom, calls⟩ := e
  cases gen <;> simp only [altsound_postprocess_commands] <;>
    (try split) <;> simp

/-- C19: whenever the framer emits a logical command `c`, `AltSoundProcessCommand`
returns the result of `handleCmd` on `c` (`false` if and only if the dispatch
fails), and in both cases the post-emission hook has run on `c`, after the
dispatch, before the call returns. -/
theorem C19_returns_dispatch_result (handleCmd : Engine → Nat → Bool) (e : Engine) (cmd : Nat)
    (attenuation : Int)
    (hf : (frame e cmd attenuation).g_cmdData.cmd_filter = 0)
    (hc : (frame e cmd attenuation).g_cmdData.cmd_counter % 2 = 0) :
    (AltSoundProcessCommand handleCmd e cmd attenuation).2
        = handleCmd (frame e cmd attenuation)
            (combine (frame e cmd attenuation).g_cmdData.stored_command cmd)
    ∧ ((AltSoundProcessCommand handleCmd e cmd attenuation).2 = false
        ↔ handleCmd (frame e cmd attenuation)
            (combine (frame e cmd attenuation).g_cmdData.stored_command cmd) = false)
    ∧ (AltSoundProcessCommand handleCmd e cmd attenuation).1
        = altsound_postprocess_commands
            { frame e cmd attenuation with
              calls := e.calls ++
                Call.handleCmd (combine (frame e cmd attenuation).g_cmdData.stored_command cmd) ::
                  (if handleCmd (frame e cmd attenuation)
                        (combine (frame e cmd attenuation).g_cmdData.stored_command cmd) = true
                   then [Call.notify_one] else []) }
            (combine (frame e cmd attenuation).g_cmdData.stored_command cmd)
    ∧ ∃ tail,
        (AltSoundProcessCommand handleCmd e cmd attenuation).1.calls
          = e.calls ++
              Call.handleCmd (combine (frame e cmd attenuation).g_cmdData.stored_command cmd) ::
                ((if handleCmd (frame e cmd attenuation)
                        (combine (frame e cmd attenuation).g_cmdData.stored_command cmd) = true
                   then [Call.notify_one] else []) ++
                 Call.postprocess (combine (frame e cmd attenuation).g_cmdData.stored_command cmd)
                   :: tail)
        ∧ (tail = [] ∨ tail = [Call.stopMusic]) := by
  have hret := (process_emit handleCmd e cmd attenuation hf hc).2.2
  have hn : ¬ ((frame e cmd attenuation).g_cmdData.cmd_filter ≠ 0 ∨
         (frame e cmd attenuation).g_cmdData.cmd_counter % 2 ≠ 0) := by
    simp [hf, hc]
  have hstate : (AltSoundProcessCommand handleCmd e cmd attenuation).1
        = altsound_postprocess_commands
            { frame e cmd attenuation with
              calls := e.calls ++
                Call.handleCmd (combine (frame e cmd attenuation).g_cmdData.stored_command cmd) ::
                  (if handleCmd (frame e cmd attenuation)
                        (combine (frame e cmd attenuation).g_cmdData.stored_command cmd) = true
                   then [Call.notify_one] else []) }
            (combine (frame e cmd attenuation).g_cmdData.stored_command cmd) := by
    unfold AltSoundProcessCommand
    simp only [if_neg hn]
    cases hh : handleCmd (frame e cmd attenuation)
        (combine (frame e cmd attenuation).g_cmdData.stored_command cmd) <;>
      simp [frame_calls]
  refine ⟨hret, by rw [hret], hstate, ?_⟩
  obtain ⟨tail, htail, hcases⟩ := postprocess_calls
    { frame e cmd attenuation with
      calls := e.calls ++
        Call.handleCmd (combine (frame e cmd attenuation).g_cmdData.stored_command cmd) ::
          (if handleCmd (frame e cmd attenuation)
                (combine (frame e cmd attenuation).g_cmdData.stored_command cmd) = true
           then [Call.notify_one] else []) }
    (combine (frame e cmd attenuation).g_cmdData.stored_command cmd)
  refine ⟨tail, ?_, hcases⟩
  rw [hstate, htail]
  simp

/-- C19 at generation DEDMD32 from the state left by init, with a dispatch that
fails: the byte `0x18` is emitted, the call returns `false`, and the hook has
run on `0x0018` (and stopped the music). -/
theorem C19_returns_dispatch_result_witness :
    (AltSoundProcessCommand (fun _ _ => false) (initEngine .DEDMD32 true) 0x18 0).2 = false
    ∧ (AltSoundProcessCommand (fun _ _ => false) (initEngine .DEDMD32 true) 0x18 0).1.calls
        = [Call.handleCmd 0x0018, Call.postprocess 0x0018, Call.stopMusic] :=
  ⟨(C19_returns_dispatch_result (fun _ _ => false) (initEngine .DEDMD32 true) 0x18 0
      (by decide) (by decide)).1,
   by decide⟩

/-! ## The mixing engine -/

theorem addAt_apply (buf : Nat → ℚ) (idx : Nat) (x : ℚ) (i : Nat) :
    addAt buf idx x i = if i = idx then buf i + x else buf i := rfl

/-- A fold keeps a relation between two buffers that each step keeps. -/
theorem foldl_rel {α : Type} (P : (Nat → ℚ) → (Nat → ℚ) → Prop)
    (f fu : (Nat → ℚ) → α → (Nat → ℚ))
    (hstep : ∀ m mu a, P m mu → P (f m a) (fu mu a)) (l : List α) :
    ∀ m mu, P m mu → P (l.foldl f m) (l.foldl fu mu) := by
  induction l with
  | nil => intro m mu h; exact h
  | cons a as ih =>
    intro m mu h
    exact ih _ _ (hstep m mu a h)

/-- Mixing at volume `v` adds `v` times what mixing at volume `1` adds. -/
theorem mixFrames_scale (srcIdx : Nat → Nat → Nat) (m0 m mu temp : Nat → ℚ)
    (dst n outCh : Nat) (v : ℚ) (h : ∀ i, m i = m0 i + v * mu i) :
    ∀ i, mixFrames srcIdx m temp dst n outCh v i
      = m0 i + v * mixFrames srcIdx mu temp dst n outCh 1 i := by
  unfold mixFrames
  refine foldl_rel (fun a b => ∀ i, a i = m0 i + v * b i) _ _ ?_ _ m mu h
  intro a b frame hab
  refine foldl_rel (fun a b => ∀ i, a i = m0 i + v * b i) _ _ ?_ _ a b hab
  intro a b ch hab i
  rw [addAt_apply, addAt_apply]
  split_ifs
  · rw [hab i]; ring
  · exact hab i

/-- One row of the mixing loops: the indices `r .. r + n - 1` each receive their
sample, the others are untouched. -/
theorem foldl_addAt_range (g : Nat → ℚ) (r n : Nat) (m0 : Nat → ℚ) (i : Nat) :
    (List.range n).foldl (fun m c => addAt m (r + c) (g c)) m0 i
      = if r ≤ i ∧ i < r + n then m0 i + g (i - r) else m0 i := by
  induction n with
  | zero =>
    have h0 : ¬ (r ≤ i ∧ i < r + 0) := by omega
    rw [if_neg h0]
    rfl
  | succ n ih =>
    rw [List.range_succ, List.foldl_append, List.foldl_cons, List.foldl_nil, addAt_apply, ih]
    by_cases h1 : i = r + n
    · have h2 : ¬ (r ≤ i ∧ i < r + n) := by omega
      have h3 : r ≤ i ∧ i < r + (n + 1) := by omega
      have h4 : i - r = n := by omega
      rw [if_pos h1, if_neg h2, if_pos h3, h4]
    · by_cases h2 : r ≤ i ∧ i < r + n
      · have h3 : r ≤ i ∧ i < r + (n + 1) := by omega
        rw [if_neg h1, if_pos h2, if_pos h3]
      · have h3 : ¬ (r ≤ i ∧ i < r + (n + 1)) := by omega
        rw [if_neg h1, if_neg h2, if_neg h3]

/-- The mixing loops, read at output frame `dst + k`, channel `ch`: the frame
receives its sample times the volume when `k < n`, and is untouched
otherwise. -/
theorem mixFrames_at (srcIdx : Nat → Nat → Nat) (m0 temp : Nat → ℚ) (dst n outCh : Nat) (v : ℚ)
    (k ch : Nat) (hch : ch < outCh) :
    mixFrames srcIdx m0 temp dst n outCh v ((dst + k) * outCh + ch)
      = if k < n then m0 ((dst + k) * outCh + ch) + temp (srcIdx k ch) * v
        else m0 ((dst + k) * outCh + ch) := by
  unfold mixFrames
  induction n with
  | zero => simp
  | succ n ih =>
    rw [List.range_succ, List.foldl_append, List.foldl_cons, List.foldl_nil,
      foldl_addAt_range (fun c => temp (srcIdx n c) * v), ih]
    rcases Nat.lt_trichotomy k n with hk | hk | hk
    · have hmul : (dst + k + 1) * outCh ≤ (dst + n) * outCh :=
        Nat.mul_le_mul_right _ (by omega)
      have hlt : ¬ ((dst + n) * outCh ≤ (dst + k) * outCh + ch ∧
          (dst + k) * outCh + ch < (dst + n) * outCh + outCh) := by
        rw [Nat.add_mul, Nat.one_mul] at hmul
        omega
      rw [if_neg hlt, if_pos hk, if_pos (by omega)]
    · subst hk
      have hin : (dst + k) * outCh ≤ (dst + k) * outCh + ch ∧
          (dst + k) * outCh + ch < (dst + k) * outCh + outCh := by omega
      have hsub : (dst + k) * outCh + ch - (dst + k) * outCh = ch := by omega
      rw [if_pos hin, if_neg (by omega), if_pos (by omega), hsub]
    · have hmul : (dst + n + 1) * outCh ≤ (dst + k) * outCh :=
        Nat.mul_le_mul_right _ (by omega)
      have hlt : ¬ ((dst + n) * outCh ≤ (dst + k) * outCh + ch ∧
          (dst + k) * outCh + ch < (dst + n) * outCh + outCh) := by
        rw [Nat.add_mul, Nat.one_mul] at hmul
        omega
      rw [if_neg hlt, if_neg (by omega), if_neg (by omega)]

/-- The per-stream loop at volume `v` and at volume `1` take the same course
(same reads, same seeks, same end, same callbacks), and the mix buffer of the
first is the start buffer plus `v` times what the second accumulates. -/
theorem mixLoop_scale (B outCh inCh : Nat) (v : ℚ) (stream : AltsoundStreamInfo)
    (m0 : Nat → ℚ) :
    ∀ (fuel : Nat) (s : MixState) (mu : Nat → ℚ), (∀ i, s.mixBuffer i = m0 i + v * mu i) →
      (mixLoop B outCh inCh v stream fuel s = none
        ∧ mixLoop B outCh inCh 1 stream fuel { s with mixBuffer := mu } = none)
      ∨ ∃ r ru, mixLoop B outCh inCh v stream fuel s = some r
          ∧ mixLoop B outCh inCh 1 stream fuel { s with mixBuffer := mu } = some ru
          ∧ r.tempBuffer = ru.tempBuffer ∧ r.internal = ru.internal ∧ r.decoder = ru.decoder
          ∧ r.dstBaseFrame = ru.dstBaseFrame ∧ r.fired = ru.fired
          ∧ ∀ i, r.mixBuffer i = m0 i + v * ru.mixBuffer i := by
  intro fuel
  induction fuel with
  | zero =>
    intro s mu h
    simp only [mixLoop]
    by_cases hlt : s.dstBaseFrame < B
    · left
      simp [hlt]
    · right
      exact ⟨s, { s with mixBuffer := mu }, by simp [hlt], by simp [hlt], rfl, rfl, rfl, rfl, rfl, h⟩
  | succ fuel ih =>
    intro s mu h
    simp only [mixLoop]
    by_cases hlt : s.dstBaseFrame < B
    · simp only [if_pos hlt]
      by_cases hz : (altsound_ma_decoder_read_pcm_frames s.decoder s.tempBuffer
          (B - s.dstBaseFrame)).1 = 0
      · simp only [if_pos hz]
        cases hloop : stream.loop
        · right
          simp only [Bool.false_eq_true, if_false]
          exact ⟨_, _, rfl, rfl, rfl, rfl, rfl, rfl, rfl, h⟩
        · simp only [if_true]
          exact ih _ mu h
      · simp only [if_neg hz]
        by_cases hch : inCh = outCh
        · simp only [if_pos hch]
          have hm := mixFrames_scale (fun frame ch => frame * inCh + ch) m0 s.mixBuffer mu
            (altsound_ma_decoder_read_pcm_frames s.decoder s.tempBuffer (B - s.dstBaseFrame)).2.1
            s.dstBaseFrame
            (altsound_ma_decoder_read_pcm_frames s.decoder s.tempBuffer (B - s.dstBaseFrame)).1
            outCh v h
          by_cases hshort : (altsound_ma_decoder_read_pcm_frames s.decoder s.tempBuffer
              (B - s.dstBaseFrame)).1 < B - s.dstBaseFrame
          · simp only [if_pos hshort]
            cases hloop : stream.loop
            · right
              simp only [Bool.false_eq_true, if_false]
              exact ⟨_, _, rfl, rfl, rfl, rfl, rfl, rfl, rfl, hm⟩
            · simp only [if_true]
              exact ih _ _ hm
          · simp only [if_neg hshort]
            exact ih _ _ hm
        · simp only [if_neg hch]
          have hm := mixFrames_scale (fun frame ch => frame * inCh + ch % inCh) m0 s.mixBuffer mu
            (altsound_ma_decoder_read_pcm_frames s.decoder s.tempBuffer (B - s.dstBaseFrame)).2.1
            s.dstBaseFrame
            (altsound_ma_decoder_read_pcm_frames s.decoder s.tempBuffer (B - s.dstBaseFrame)).1
            outCh v h
          by_cases hshort : (altsound_ma_decoder_read_pcm_frames s.decoder s.tempBuffer
              (B - s.dstBaseFrame)).1 < B - s.dstBaseFrame
          · simp only [if_pos hshort]
            cases hloop : stream.loop
            · right
              simp only [Bool.false_eq_true, if_false]
              exact ⟨_, _, rfl, rfl, rfl, rfl, rfl, rfl, rfl, hm⟩
            · simp only [if_true]
              exact ih _ _ hm
          · simp only [if_neg hshort]
            exact ih _ _ hm
    · right
      simp only [if_neg hlt]
      exact ⟨s, { s with mixBuffer := mu }, rfl, rfl, rfl, rfl, rfl, rfl, rfl, h⟩

theorem mixLoop_done (B outCh inCh : Nat) (v : ℚ) (stream : AltsoundStreamInfo) (fuel : Nat)
    (s : MixState) (h : ¬ s.dstBaseFrame < B) :
    mixLoop B outCh inCh v stream fuel s = some s := by
  cases fuel <;> simp [mixLoop, h]

/-- What a read leaves in the output buffer: frame `k` of the read, channel `c`,
is the source sample of frame `pos + k`. -/
theorem read_sample (d : Decoder) (temp : Nat → ℚ) (n k c : Nat)
    (hk : k < (altsound_ma_decoder_read_pcm_frames d temp n).1) (hc : c < d.channels) :
    (altsound_ma_decoder_read_pcm_frames d temp n).2.1 (k * d.channels + c)
      = d.pcm ((d.pos + k) * d.channels + c) := by
  simp only [altsound_ma_decoder_read_pcm_frames] at hk ⊢
  have hlt : k * d.channels + c < min n (d.length - d.pos) * d.channels := by
    have h1 : (k + 1) * d.channels ≤ min n (d.length - d.pos) * d.channels :=
      Nat.mul_le_mul_right _ hk
    rw [Nat.add_mul, Nat.one_mul] at h1
    omega
  rw [if_pos hlt]
  congr 1
  ring

/-- The first read of a stream in a tick, when the stream does not loop or the
decoder can fill the whole buffer: the loop ends, and output frame `k` below
the number of frames read receives the source frame `pos + k` times the
volume. -/
theorem mixLoop_first_read (B outCh : Nat) (v : ℚ) (stream : AltsoundStreamInfo) (fuel : Nat)
    (s : MixState) (hdst : s.dstBaseFrame = 0) (hchan : 0 < s.decoder.channels)
    (hcase : stream.loop = false ∨ B ≤ s.decoder.length - s.decoder.pos) :
    ∃ r, mixLoop B outCh s.decoder.channels v stream (fuel + 1) s = some r
      ∧ ∀ k ch, k < min B (s.decoder.length - s.decoder.pos) → ch < outCh →
          r.mixBuffer (k * outCh + ch)
            = s.mixBuffer (k * outCh + ch)
              + s.decoder.pcm ((s.decoder.pos + k) * s.decoder.channels + ch % s.decoder.channels)
                * v := by
  have hread : (altsound_ma_decoder_read_pcm_frames s.decoder s.tempBuffer (B - 0)).1
      = min B (s.decoder.length - s.decoder.pos) := rfl
  have hmix : ∀ k ch, k < min B (s.decoder.length - s.decoder.pos) → ch < outCh →
      (if s.decoder.channels = outCh then
          mixFrames (fun frame ch => frame * s.decoder.channels + ch) s.mixBuffer
            (altsound_ma_decoder_read_pcm_frames s.decoder s.tempBuffer (B - 0)).2.1 0
            (altsound_ma_decoder_read_pcm_frames s.decoder s.tempBuffer (B - 0)).1 outCh v
        else
          mixFrames (fun frame ch => frame * s.decoder.channels + ch % s.decoder.channels)
            s.mixBuffer
            (altsound_ma_decoder_read_pcm_frames s.decoder s.tempBuffer (B - 0)).2.1 0
            (altsound_ma_decoder_read_pcm_frames s.decoder s.tempBuffer (B - 0)).1 outCh v)
        (k * outCh + ch)
        = s.mixBuffer (k * outCh + ch)
          + s.decoder.pcm ((s.decoder.pos + k) * s.decoder.channels + ch % s.decoder.channels)
            * v := by
    intro k ch hk hch
    have hk1 : k < (altsound_ma_decoder_read_pcm_frames s.decoder s.tempBuffer (B - 0)).1 := by
      rw [hread]; exact hk
    have hmod : ch % s.decoder.channels < s.decoder.channels := Nat.mod_lt _ hchan
    have hidx : k * outCh + ch = (0 + k) * outCh + ch := by rw [Nat.zero_add]
    split_ifs with heq
    · have hch1 : ch % s.decoder.channels = ch := Nat.mod_eq_of_lt (by omega)
      rw [hidx, mixFrames_at _ _ _ _ _ _ _ k ch hch, if_pos hk1]
      have := read_sample s.decoder s.tempBuffer (B - 0) k ch hk1 (by omega)
      simp only [this, hch1]
    · rw [hidx, mixFrames_at _ _ _ _ _ _ _ k ch hch, if_pos hk1]
      have := read_sample s.decoder s.tempBuffer (B - 0) k (ch % s.decoder.channels) hk1 hmod
      simp only [this]
  simp only [mixLoop, hdst]
  by_cases hB : 0 < B
  · simp only [if_pos hB]
    by_cases hz : (altsound_ma_decoder_read_pcm_frames s.decoder s.tempBuffer (B - 0)).1 = 0
    · simp only [if_pos hz]
      have hloop : stream.loop = false := by
        rcases hcase with h | h
        · exact h
        · rw [hread] at hz
          omega
      simp only [hloop, Bool.false_eq_true, if_false]
      refine ⟨_, rfl, ?_⟩
      intro k ch hk
      rw [hread] at hz
      omega
    · simp only [if_neg hz]
      by_cases hshort : (altsound_ma_decoder_read_pcm_frames s.decoder s.tempBuffer (B - 0)).1
          < B - 0
      · simp only [if_pos hshort]
        have hloop : stream.loop = false := by
          rcases hcase with h | h
          · exact h
          · rw [hread] at hshort
            omega
        simp only [hloop, Bool.false_eq_true, if_false]
        exact ⟨_, rfl, hmix⟩
      · simp only [if_neg hshort]
        rw [mixLoop_done]
        · exact ⟨_, rfl, hmix⟩
        · simp only [Nat.zero_add]
          omega
  · simp only [if_neg hB]
    refine ⟨s, rfl, ?_⟩
    intro k ch hk
    omega

/-- C20: in a mixer tick, what a stream in slot `s` adds to the mix buffer is its
decoded samples multiplied by `s.gain * s.ducking * global_vol * master_vol`.
For every stream and decoder the mix buffer after the per-stream loop is the
buffer before it plus that factor times what the same loop accumulates at
volume `1` from a zeroed buffer, the course of the loop not depending on the
volume; and when the stream does not loop or the decoder can fill the buffer,
output frame `k`, channel `ch`, receives source frame `pos + k`, channel
`ch mod in_channels`, times that factor. -/
theorem C20_stream_mixed_at_effective_volume (fuel B outCh : Nat) (globalVol masterVol : ℚ)
    (stream : AltsoundStreamInfo) (internal : _internal_stream_data) (dec : Decoder)
    (mix temp : Nat → ℚ) (fired : List SyncCall) :
    ((mixStream fuel B outCh globalVol masterVol stream internal dec mix temp fired = none
        ∧ mixLoop B outCh internal.channels 1 stream fuel
            { mixBuffer := fun _ => 0, tempBuffer := temp, internal := internal, decoder := dec,
              dstBaseFrame := 0, fired := fired } = none)
      ∨ ∃ r ru,
          mixStream fuel B outCh globalVol masterVol stream internal dec mix temp fired = some r
          ∧ mixLoop B outCh internal.channels 1 stream fuel
              { mixBuffer := fun _ => 0, tempBuffer := temp, internal := internal, decoder := dec,
                dstBaseFrame := 0, fired := fired } = some ru
          ∧ r.tempBuffer = ru.tempBuffer ∧ r.internal = ru.internal ∧ r.decoder = ru.decoder
          ∧ r.dstBaseFrame = ru.dstBaseFrame ∧ r.fired = ru.fired
          ∧ ∀ i, r.mixBuffer i
              = mix i + (stream.gain * stream.ducking * globalVol * masterVol) * ru.mixBuffer i)
    ∧ (0 < fuel → 0 < dec.channels → internal.channels = dec.channels →
        (stream.loop = false ∨ B ≤ dec.length - dec.pos) →
        ∃ r, mixStream fuel B outCh globalVol masterVol stream internal dec mix temp fired
              = some r
          ∧ ∀ k ch, k < min B (dec.length - dec.pos) → ch < outCh →
              r.mixBuffer (k * outCh + ch)
                = mix (k * outCh + ch)
                  + dec.pcm ((dec.pos + k) * dec.channels + ch % dec.channels)
                    * (stream.gain * stream.ducking * globalVol * masterVol)) := by
  refine ⟨?_, ?_⟩
  · exact mixLoop_scale B outCh internal.channels
      (stream.gain * stream.ducking * globalVol * masterVol) stream mix fuel
      { mixBuffer := mix, tempBuffer := temp, internal := internal, decoder := dec,
        dstBaseFrame := 0, fired := fired }
      (fun _ => 0) (fun i => by simp)
  · intro hfuel hchan hin hcase
    obtain ⟨n, rfl⟩ : ∃ n, fuel = n + 1 := ⟨fuel - 1, by omega⟩
    unfold mixStream
    rw [hin]
    exact mixLoop_first_read B outCh (stream.gain * stream.ducking * globalVol * masterVol)
      stream n
      { mixBuffer := mix, tempBuffer := temp, internal := internal, decoder := dec,
        dstBaseFrame := 0, fired := fired }
      rfl hchan hcase

/-- C20 at a music slot with gain `1` and ducking `3/10`, global volume `1/2` and
master volume `1/4`, on a stereo decoder that fills the two-frame buffer: each
output sample is the source sample times `1 * (3/10) * (1/2) * (1/4)`. -/
theorem C20_stream_mixed_at_effective_volume_witness :
    ∃ r, mixStream 1 2 2 (1 / 2) (1 / 4)
            { hstream := 1, hsync := 1, gain := 1, ducking := 3 / 10, loop := false }
            { decoder := some { pcm := fun i => (i : ℚ) + 1, length := 4, channels := 2, pos := 0 },
              playing := true, paused := false, sample_rate := 44100,
              channels := 2, sync_callback := none, sync_userdata := 0 }
            { pcm := fun i => (i : ℚ) + 1, length := 4, channels := 2, pos := 0 }
            (fun _ => 0) (fun _ => 0) [] = some r
      ∧ ∀ k ch, k < min 2 (4 - 0) → ch < 2 →
          r.mixBuffer (k * 2 + ch)
            = (fun _ => (0 : ℚ)) (k * 2 + ch)
              + (fun i : Nat => (i : ℚ) + 1) ((0 + k) * 2 + ch % 2)
                * (1 * (3 / 10) * (1 / 2) * (1 / 4)) :=
  (C20_stream_mixed_at_effective_volume 1 2 2 (1 / 2) (1 / 4)
    { hstream := 1, hsync := 1, gain := 1, ducking := 3 / 10, loop := false }
    { decoder := some { pcm := fun i => (i : ℚ) + 1, length := 4, channels := 2, pos := 0 },
      playing := true, paused := false, sample_rate := 44100,
      channels := 2, sync_callback := none, sync_userdata := 0 }
    { pcm := fun i => (i : ℚ) + 1, length := 4, channels := 2, pos := 0 }
    (fun _ => 0) (fun _ => 0) []).2 (by decide) (by decide) rfl (Or.inl rfl)

/-! ## The per-stream loop: frame, end and course -/

/-- The mixing loops, read at output frame `k`, channel `ch`: the frames
`dst .. dst + n - 1` receive their sample times the volume, every other frame
is untouched. -/
theorem mixFrames_coord (srcIdx : Nat → Nat → Nat) (m0 temp : Nat → ℚ) (dst n outCh : Nat)
    (v : ℚ) (k ch : Nat) (hch : ch < outCh) :
    mixFrames srcIdx m0 temp dst n outCh v (k * outCh + ch)
      = if dst ≤ k ∧ k < dst + n then m0 (k * outCh + ch) + temp (srcIdx (k - dst) ch) * v
        else m0 (k * outCh + ch) := by
  by_cases hk : dst ≤ k
  · obtain ⟨j, rfl⟩ : ∃ j, k = dst + j := ⟨k - dst, by omega⟩
    rw [mixFrames_at srcIdx m0 temp dst n outCh v j ch hch]
    have hsub : dst + j - dst = j := by omega
    by_cases hj : j < n
    · rw [if_pos hj, if_pos ⟨hk, by omega⟩, hsub]
    · rw [if_neg hj, if_neg (by omega)]
  · rw [if_neg (by omega)]
    unfold mixFrames
    induction n with
    | zero => rfl
    | succ n ih =>
      rw [List.range_succ, List.foldl_append, List.foldl_cons, List.foldl_nil,
        foldl_addAt_range (fun c => temp (srcIdx n c) * v), ih]
      have hmul : (k + 1) * outCh ≤ (dst + n) * outCh := Nat.mul_le_mul_right _ (by omega)
      have hlt : ¬ ((dst + n) * outCh ≤ k * outCh + ch ∧
          k * outCh + ch < (dst + n) * outCh + outCh) := by
        rw [Nat.add_mul, Nat.one_mul] at hmul
        omega
      rw [if_neg hlt]

theorem read_frames (d : Decoder) (temp : Nat → ℚ) (n : Nat) :
    (altsound_ma_decoder_read_pcm_frames d temp n).1 = min n (d.length - d.pos)
    ∧ (altsound_ma_decoder_read_pcm_frames d temp n).2.2
        = { d with pos := d.pos + min n (d.length - d.pos) } :=
  ⟨rfl, rfl⟩

/-- What the per-stream loop can do, whatever the stream and the decoder: the
write position only grows and stays within the buffer; the frames before the
start position and from the end position on are untouched; the decoder keeps
its data and only moves its cursor; and either the registry entry and the
callbacks are as before, or the stream does not loop, its last read returned
no frame, its playing flag was cleared and its callback, if it has one, was
fired once. -/
theorem mixLoop_inv (B outCh inCh : Nat) (v : ℚ) (stream : AltsoundStreamInfo) :
    ∀ (fuel : Nat) (s r : MixState), s.dstBaseFrame ≤ B →
      mixLoop B outCh inCh v stream fuel s = some r →
      s.dstBaseFrame ≤ r.dstBaseFrame ∧ r.dstBaseFrame ≤ B
      ∧ (∀ k ch, ch < outCh → (k < s.dstBaseFrame ∨ r.dstBaseFrame ≤ k) →
          r.mixBuffer (k * outCh + ch) = s.mixBuffer (k * outCh + ch))
      ∧ r.decoder = { s.decoder with pos := r.decoder.pos }
      ∧ ((r.internal = s.internal ∧ r.fired = s.fired)
          ∨ (stream.loop = false ∧ r.decoder.length ≤ r.decoder.pos
              ∧ r.internal = { s.internal with playing := false }
              ∧ r.fired = s.fired ++
                  (match s.internal.sync_callback with
                   | some proc =>
                     [{ proc := proc, hsync := stream.hsync, hstream := stream.hstream,
                        data := 0, user := s.internal.sync_userdata }]
                   | none => []))) := by
  intro fuel
  induction fuel with
  | zero =>
    intro s r hB h
    simp only [mixLoop] at h
    split_ifs at h
    cases h
    exact ⟨le_refl _, hB, fun _ _ _ _ => rfl, rfl, Or.inl ⟨rfl, rfl⟩⟩
  | succ fuel ih =>
    intro s r hB h
    simp only [mixLoop] at h
    by_cases hlt : s.dstBaseFrame < B
    · simp only [if_pos hlt] at h
      have hn := (read_frames s.decoder s.tempBuffer (B - s.dstBaseFrame)).1
      have hd := (read_frames s.decoder s.tempBuffer (B - s.dstBaseFrame)).2
      by_cases hz : (altsound_ma_decoder_read_pcm_frames s.decoder s.tempBuffer
          (B - s.dstBaseFrame)).1 = 0
      · simp only [if_pos hz] at h
        rcases Bool.eq_false_or_eq_true stream.loop with hloop | hloop
        swap
        · simp only [hloop, Bool.false_eq_true, if_false] at h
          cases h
          refine ⟨le_refl _, hB, fun _ _ _ _ => rfl, ?_, Or.inr ⟨hloop, ?_, rfl, ?_⟩⟩
          · simp only [hd]
          · simp only [hd]
            rw [hn] at hz
            omega
          · cases s.internal.sync_callback <;> simp
        · simp only [hloop, if_true] at h
          have hih := fun hb => ih _ r hb h
          obtain ⟨h1, h2, h3, h4, h5⟩ := hih hB
          refine ⟨h1, h2, h3, ?_, h5⟩
          rw [h4]
          simp [altsound_ma_decoder_seek_to_pcm_frame, hd]
      · simp only [if_neg hz] at h
        have hmixed : ∀ k ch, ch < outCh →
            (k < s.dstBaseFrame ∨ s.dstBaseFrame + (altsound_ma_decoder_read_pcm_frames
              s.decoder s.tempBuffer (B - s.dstBaseFrame)).1 ≤ k) →
            (if inCh = outCh then
                mixFrames (fun frame ch => frame * inCh + ch) s.mixBuffer
                  (altsound_ma_decoder_read_pcm_frames s.decoder s.tempBuffer
                    (B - s.dstBaseFrame)).2.1 s.dstBaseFrame
                  (altsound_ma_decoder_read_pcm_frames s.decoder s.tempBuffer
                    (B - s.dstBaseFrame)).1 outCh v
              else
                mixFrames (fun frame ch => frame * inCh + ch % inCh) s.mixBuffer
                  (altsound_ma_decoder_read_pcm_frames s.decoder s.tempBuffer
                    (B - s.dstBaseFrame)).2.1 s.dstBaseFrame
                  (altsound_ma_decoder_read_pcm_frames s.decoder s.tempBuffer
                    (B - s.dstBaseFrame)).1 outCh v) (k * outCh + ch)
              = s.mixBuffer (k * outCh + ch) := by
          intro k ch hch hk
          split_ifs <;> rw [mixFrames_coord _ _ _ _ _ _ _ k ch hch, if_neg (by omega)]
        have hle : s.dstBaseFrame + (altsound_ma_decoder_read_pcm_frames s.decoder s.tempBuffer
            (B - s.dstBaseFrame)).1 ≤ B := by
          rw [hn]
          omega
        by_cases hshort : (altsound_ma_decoder_read_pcm_frames s.decoder s.tempBuffer
            (B - s.dstBaseFrame)).1 < B - s.dstBaseFrame
        · simp only [if_pos hshort] at h
          rcases Bool.eq_false_or_eq_true stream.loop with hloop | hloop
          swap
          · simp only [hloop, Bool.false_eq_true, if_false] at h
            cases h
            refine ⟨Nat.le_add_right _ _, hle, hmixed, ?_, Or.inl ⟨rfl, rfl⟩⟩
            simp only [hd]
          · simp only [hloop, if_true] at h
            have hih := fun hb => ih _ r hb h
            obtain ⟨h1, h2, h3, h4, h5⟩ := hih hle
            simp only at h1 h3 h4 h5
            refine ⟨by omega, h2, ?_, ?_, h5⟩
            · intro k ch hch hk
              rw [h3 k ch hch (by omega)]
              exact hmixed k ch hch (by omega)
            · rw [h4]
              simp [altsound_ma_decoder_seek_to_pcm_frame, hd]
        · simp only [if_neg hshort] at h
          have hih := fun hb => ih _ r hb h
          obtain ⟨h1, h2, h3, h4, h5⟩ := hih hle
          simp only at h1 h3 h4 h5
          refine ⟨by omega, h2, ?_, ?_, h5⟩
          · intro k ch hch hk
            rw [h3 k ch hch (by omega)]
            exact hmixed k ch hch (by omega)
          · rw [h4]
            simp [hd]
    · simp only [if_neg hlt] at h
      cases h
      exact ⟨le_refl _, hB, fun _ _ _ _ => rfl, rfl, Or.inl ⟨rfl, rfl⟩⟩

theorem foldl_congr_mem {α β : Type} (l : List α) (f g : β → α → β)
    (h : ∀ b a, a ∈ l → f b a = g b a) (b : β) : l.foldl f b = l.foldl g b := by
  induction l generalizing b with
  | nil => rfl
  | cons a as ih =>
    rw [List.foldl_cons, List.foldl_cons, h b a (List.mem_cons_self _ _)]
    exact ih (fun b x hx => h b x (List.mem_cons_of_mem _ hx)) _

/-- With as many source channels as output channels the per-channel copy and
the modulo rule are the same loops. -/
theorem mixFrames_equal_eq_modulo (m0 temp : Nat → ℚ) (dst n ch0 : Nat) (v : ℚ) :
    mixFrames (fun frame ch => frame * ch0 + ch) m0 temp dst n ch0 v
      = mixFrames (fun frame ch => frame * ch0 + ch % ch0) m0 temp dst n ch0 v := by
  unfold mixFrames
  apply foldl_congr_mem
  intro b frame _
  apply foldl_congr_mem
  intro b2 ch hch
  simp only [Nat.mod_eq_of_lt (List.mem_range.mp hch)]

/-- C23: for every decoded frame mixed from `in_channels ≥ 1` source channels
into `out_channels` output channels, output channel `ch` receives source
channel `ch mod in_channels` of the same frame.  The step the code takes (the
per-channel copy when the channel counts are equal, the modulo loops
otherwise) is the modulo rule in every case; with equal counts it is a
per-channel copy; a mono source goes to every output channel. -/
theorem C23_channel_mapping (m0 temp : Nat → ℚ) (dst n inCh outCh : Nat) (v : ℚ)
    (hin : 1 ≤ inCh) :
    (if inCh = outCh then mixFrames (fun frame ch => frame * inCh + ch) m0 temp dst n outCh v
      else mixFrames (fun frame ch => frame * inCh + ch % inCh) m0 temp dst n outCh v)
        = mixFrames (fun frame ch => frame * inCh + ch % inCh) m0 temp dst n outCh v
    ∧ (∀ k ch, k < n → ch < outCh →
        (if inCh = outCh then mixFrames (fun frame ch => frame * inCh + ch) m0 temp dst n outCh v
          else mixFrames (fun frame ch => frame * inCh + ch % inCh) m0 temp dst n outCh v)
            ((dst + k) * outCh + ch)
          = m0 ((dst + k) * outCh + ch) + temp (k * inCh + ch % inCh) * v
        ∧ ch % inCh < inCh)
    ∧ (inCh = outCh → ∀ k ch, k < n → ch < outCh →
        (if inCh = outCh then mixFrames (fun frame ch => frame * inCh + ch) m0 temp dst n outCh v
          else mixFrames (fun frame ch => frame * inCh + ch % inCh) m0 temp dst n outCh v)
            ((dst + k) * outCh + ch)
          = m0 ((dst + k) * outCh + ch) + temp (k * inCh + ch) * v)
    ∧ (inCh = 1 → ∀ k ch, k < n → ch < outCh →
        (if inCh = outCh then mixFrames (fun frame ch => frame * inCh + ch) m0 temp dst n outCh v
          else mixFrames (fun frame ch => frame * inCh + ch % inCh) m0 temp dst n outCh v)
            ((dst + k) * outCh + ch)
          = m0 ((dst + k) * outCh + ch) + temp k * v) := by
  have hstep : (if inCh = outCh then
        mixFrames (fun frame ch => frame * inCh + ch) m0 temp dst n outCh v
      else mixFrames (fun frame ch => frame * inCh + ch % inCh) m0 temp dst n outCh v)
        = mixFrames (fun frame ch => frame * inCh + ch % inCh) m0 temp dst n outCh v := by
    split_ifs with h
    · subst h
      exact mixFrames_equal_eq_modulo m0 temp dst n inCh v
    · rfl
  have hpoint : ∀ k ch, k < n → ch < outCh →
      mixFrames (fun frame ch => frame * inCh + ch % inCh) m0 temp dst n outCh v
          ((dst + k) * outCh + ch)
        = m0 ((dst + k) * outCh + ch) + temp (k * inCh + ch % inCh) * v := by
    intro k ch hk hch
    rw [mixFrames_at _ _ _ _ _ _ _ k ch hch, if_pos hk]
  refine ⟨hstep, ?_, ?_, ?_⟩
  · intro k ch hk hch
    rw [hstep]
    exact ⟨hpoint k ch hk hch, Nat.mod_lt _ hin⟩
  · intro heq k ch hk hch
    rw [hstep, hpoint k ch hk hch, Nat.mod_eq_of_lt (by omega)]
  · intro h1 k ch hk hch
    rw [hstep, hpoint k ch hk hch, h1, Nat.mod_one, Nat.mul_one, Nat.add_zero]

/-- C23 at a mono source mixed into two output channels: channel `1` of output
frame `1` receives source sample `1`, as channel `0` does. -/
theorem C23_channel_mapping_witness :
    (if 1 = 2 then
        mixFrames (fun frame ch => frame * 1 + ch) (fun _ => 0) (fun i => (i : ℚ) + 5) 0 2 2 1
      else
        mixFrames (fun frame ch => frame * 1 + ch % 1) (fun _ => 0) (fun i => (i : ℚ) + 5) 0 2 2
          1) ((0 + 1) * 2 + 1)
      = (fun _ => (0 : ℚ)) ((0 + 1) * 2 + 1) + (fun i : Nat => (i : ℚ) + 5) 1 * 1 :=
  (C23_channel_mapping (fun _ => 0) (fun i => (i : ℚ) + 5) 0 2 1 2 1 (by decide)).2.2.2 rfl
    1 1 (by decide) (by decide)

/-- A looping stream whose decoder holds no frame never leaves the per-stream
loop: every read returns no frame, the decoder is sought back to frame `0`
and the loop goes round again with the write position where it was. -/
theorem mixLoop_loop_empty (B outCh inCh : Nat) (v : ℚ) (stream : AltsoundStreamInfo)
    (hloop : stream.loop = true) :
    ∀ (fuel : Nat) (s : MixState), s.decoder.length = 0 → s.dstBaseFrame < B →
      mixLoop B outCh inCh v stream fuel s = none := by
  intro fuel
  induction fuel with
  | zero =>
    intro s _ hlt
    simp [mixLoop, hlt]
  | succ fuel ih =>
    intro s hlen hlt
    have hz : (altsound_ma_decoder_read_pcm_frames s.decoder s.tempBuffer
        (B - s.dstBaseFrame)).1 = 0 := by
      rw [(read_frames _ _ _).1, hlen]
      simp
    simp only [mixLoop, if_pos hlt, if_pos hz, hloop, if_true]
    exact ih _ hlen hlt

/-- C22, the failing input: a mixer with a buffer of 256 frames whose first slot
holds a looping stream, registered and playing, with a decoder of length `0`.
Whatever the fuel, the tick does not end: the per-stream loop reads no frame,
seeks to frame `0` and starts over, so no buffer is delivered. -/
theorem C22_looping_empty_stream_never_ends (fuel : Nat) :
    AudioMixingTick fuel
      { initMixer 44100 2 256 with
        channel_stream :=
          [some { hstream := 1, hsync := 1, gain := 1, ducking := 1, loop := true }],
        g_streamMap := fun h =>
          if h = 1 then
            some { decoder := some { pcm := fun _ => 0, length := 0, channels := 2, pos := 0 },
                   playing := true, paused := false, sample_rate := 44100, channels := 2,
                   sync_callback := none, sync_userdata := 0 }
          else none,
        g_audioCallback := some 1 } = none := by
  have hact : activeStreams
      [some ({ hstream := 1, hsync := 1, gain := 1, ducking := 1, loop := true } :
        AltsoundStreamInfo)]
      (fun h =>
        if h = 1 then
          some { decoder := some { pcm := fun _ => 0, length := 0, channels := 2, pos := 0 },
                 playing := true, paused := false, sample_rate := 44100, channels := 2,
                 sync_callback := none, sync_userdata := 0 }
        else none)
      = [({ hstream := 1, hsync := 1, gain := 1, ducking := 1, loop := true }, 1)] := by
    rfl
  have hnone := mixLoop_loop_empty 256 2 2 (1 * 1 * 1 * 1)
    { hstream := 1, hsync := 1, gain := 1, ducking := 1, loop := true } rfl fuel
    { mixBuffer := fun _ => 0, tempBuffer := fun _ => 0,
      internal := { decoder := some { pcm := fun _ => 0, length := 0, channels := 2, pos := 0 },
                    playing := true, paused := false, sample_rate := 44100, channels := 2,
                    sync_callback := none, sync_userdata := 0 },
      decoder := { pcm := fun _ => 0, length := 0, channels := 2, pos := 0 },
      dstBaseFrame := 0, fired := [] } rfl (by decide)
  simp only [AudioMixingTick, initMixer, hact, mixActive, if_true, mixStream, hnone]

/-- The per-stream loop of a stream that does not loop ends after one read: on a
read of no frame the playing flag is cleared and the callback, if there is
one, fired; on a read of some frames they are mixed and the write position
advanced, and nothing else changes. -/
theorem mixLoop_nonloop (B outCh inCh : Nat) (v : ℚ) (stream : AltsoundStreamInfo)
    (hloop : stream.loop = false) (fuel : Nat) (s : MixState) (hlt : s.dstBaseFrame < B) :
    ∃ r, mixLoop B outCh inCh v stream (fuel + 1) s = some r
      ∧ r.dstBaseFrame
          = s.dstBaseFrame + min (B - s.dstBaseFrame) (s.decoder.length - s.decoder.pos)
      ∧ r.decoder
          = { s.decoder with
              pos := s.decoder.pos + min (B - s.dstBaseFrame) (s.decoder.length - s.decoder.pos) }
      ∧ (s.decoder.length - s.decoder.pos = 0 →
          r.internal = { s.internal with playing := false }
          ∧ r.mixBuffer = s.mixBuffer
          ∧ r.fired = s.fired ++
              (match s.internal.sync_callback with
               | some proc =>
                 [{ proc := proc, hsync := stream.hsync, hstream := stream.hstream,
                    data := 0, user := s.internal.sync_userdata }]
               | none => []))
      ∧ (s.decoder.length - s.decoder.pos ≠ 0 → r.internal = s.internal ∧ r.fired = s.fired) := by
  have hn := (read_frames s.decoder s.tempBuffer (B - s.dstBaseFrame)).1
  have hd := (read_frames s.decoder s.tempBuffer (B - s.dstBaseFrame)).2
  simp only [mixLoop, if_pos hlt]
  by_cases hz : (altsound_ma_decoder_read_pcm_frames s.decoder s.tempBuffer
      (B - s.dstBaseFrame)).1 = 0
  · simp only [if_pos hz, hloop, Bool.false_eq_true, if_false]
    have hR : s.decoder.length - s.decoder.pos = 0 := by
      rw [hn] at hz
      omega
    refine ⟨_, rfl, ?_, ?_, ?_, ?_⟩
    · simp [hR]
    · simp [hd, hR]
    · intro _
      refine ⟨rfl, rfl, ?_⟩
      cases s.internal.sync_callback <;> simp
    · intro hne
      exact absurd hR hne
  · simp only [if_neg hz]
    have hR : s.decoder.length - s.decoder.pos ≠ 0 := by
      rw [hn] at hz
      omega
    by_cases hshort : (altsound_ma_decoder_read_pcm_frames s.decoder s.tempBuffer
        (B - s.dstBaseFrame)).1 < B - s.dstBaseFrame
    · simp only [if_pos hshort, hloop, Bool.false_eq_true, if_false]
      refine ⟨_, rfl, ?_, ?_, ?_, ?_⟩
      · simp only [hn]
      · simp only [hd]
      · intro h0
        exact absurd h0 hR
      · intro _
        exact ⟨rfl, rfl⟩
    · simp only [if_neg hshort]
      rw [mixLoop_done]
      · refine ⟨_, rfl, ?_, ?_, ?_, ?_⟩
        · simp only [hn]
        · simp only [hd]
        · intro h0
          exact absurd h0 hR
        · intro _
          exact ⟨rfl, rfl⟩
      · simp only
        omega

/-- C24 (as the code has it): in a mixer tick, for a stream that does not loop,
a read that returns no frame makes the mixer, in that same tick, clear the
playing flag and fire the end-of-stream callback (when one is registered),
and move on.  A read that returns some frames but fewer than requested only
mixes them, advances past them and moves on: the stream stays playing and no
callback is fired in that tick; the decoder is then at its end, and it is the
next tick, whose read returns no frame, that clears the playing flag and fires
the callback. -/
theorem C24_short_read_of_nonlooping_stream (fuel B outCh : Nat) (globalVol masterVol : ℚ)
    (stream : AltsoundStreamInfo) (internal : _internal_stream_data) (dec : Decoder)
    (mix temp : Nat → ℚ) (fired : List SyncCall)
    (hloop : stream.loop = false) (hB : 0 < B) :
    (dec.length - dec.pos = 0 →
        ∃ r, mixStream (fuel + 1) B outCh globalVol masterVol stream internal dec mix temp fired
              = some r
          ∧ r.internal = { internal with playing := false }
          ∧ r.fired = fired ++
              (match internal.sync_callback with
               | some proc =>
                 [{ proc := proc, hsync := stream.hsync, hstream := stream.hstream,
                    data := 0, user := internal.sync_userdata }]
               | none => [])
          ∧ r.dstBaseFrame = 0 ∧ r.mixBuffer = mix)
    ∧ (0 < dec.length - dec.pos → dec.length - dec.pos < B →
        ∃ r, mixStream (fuel + 1) B outCh globalVol masterVol stream internal dec mix temp fired
              = some r
          ∧ r.internal = internal ∧ r.fired = fired
          ∧ r.dstBaseFrame = dec.length - dec.pos
          ∧ r.decoder = { dec with pos := dec.length }
          ∧ ∃ r2, mixStream (fuel + 1) B outCh globalVol masterVol stream r.internal r.decoder
                    (fun _ => 0) r.tempBuffer r.fired = some r2
              ∧ r2.internal = { internal with playing := false }
              ∧ r2.fired = fired ++
                  (match internal.sync_callback with
                   | some proc =>
                     [{ proc := proc, hsync := stream.hsync, hstream := stream.hstream,
                        data := 0, user := internal.sync_userdata }]
                   | none => [])) := by
  refine ⟨?_, ?_⟩
  · intro hR
    obtain ⟨r, hr, hdst, _, hzero, _⟩ := mixLoop_nonloop B outCh internal.channels
      (stream.gain * stream.ducking * globalVol * masterVol) stream hloop fuel
      { mixBuffer := mix, tempBuffer := temp, internal := internal, decoder := dec,
        dstBaseFrame := 0, fired := fired } hB
    obtain ⟨h1, h2, h3⟩ := hzero hR
    refine ⟨r, hr, h1, h3, ?_, h2⟩
    rw [hdst]
    simp only [hR]
    omega
  · intro hpos hshort
    obtain ⟨r, hr, hdst, hdec, _, hsome⟩ := mixLoop_nonloop B outCh internal.channels
      (stream.gain * stream.ducking * globalVol * masterVol) stream hloop fuel
      { mixBuffer := mix, tempBuffer := temp, internal := internal, decoder := dec,
        dstBaseFrame := 0, fired := fired } hB
    obtain ⟨h1, h2⟩ := hsome (Nat.pos_iff_ne_zero.mp hpos)
    simp only at hdst hdec h1 h2
    have hmin : min (B - 0) (dec.length - dec.pos) = dec.length - dec.pos := by
      rw [Nat.sub_zero]
      exact Nat.min_eq_right (by omega)
    have hdec2 : r.decoder = { dec with pos := dec.length } := by
      rw [hdec, hmin]
      congr 1
      omega
    refine ⟨r, hr, h1, h2, by rw [hdst, hmin]; omega, hdec2, ?_⟩
    obtain ⟨r2, hr2, _, _, hzero2, _⟩ := mixLoop_nonloop B outCh r.internal.channels
      (stream.gain * stream.ducking * globalVol * masterVol) stream hloop fuel
      { mixBuffer := fun _ => 0, tempBuffer := r.tempBuffer, internal := r.internal,
        decoder := r.decoder, dstBaseFrame := 0, fired := r.fired } hB
    have hend : r.decoder.length - r.decoder.pos = 0 := by
      rw [hdec2]
      simp
    obtain ⟨h3, _, h5⟩ := hzero2 hend
    simp only at h3 h5
    refine ⟨r2, hr2, ?_, ?_⟩
    · rw [h3, h1]
    · rw [h5, h1, h2]

/-- C24 (as the code has it) at a stream with two frames left and a buffer of
four: the stream stays playing and no callback is fired in the tick. -/
theorem C24_short_read_of_nonlooping_stream_witness :
    ∃ r, mixStream (0 + 1) 4 2 1 1
            { hstream := 1, hsync := 5, gain := 1, ducking := 1, loop := false }
            { decoder := some { pcm := fun i => (i : ℚ) + 1, length := 6, channels := 2,
                                pos := 4 },
              playing := true, paused := false, sample_rate := 44100, channels := 2,
              sync_callback := some 7, sync_userdata := 9 }
            { pcm := fun i => (i : ℚ) + 1, length := 6, channels := 2, pos := 4 }
            (fun _ => 0) (fun _ => 0) [] = some r
      ∧ r.internal.playing = true ∧ r.fired = [] ∧ r.dstBaseFrame = 2 := by
  obtain ⟨r, hr, h1, h2, h3, _⟩ := (C24_short_read_of_nonlooping_stream 0 4 2 1 1
    { hstream := 1, hsync := 5, gain := 1, ducking := 1, loop := false }
    { decoder := some { pcm := fun i => (i : ℚ) + 1, length := 6, channels := 2, pos := 4 },
      playing := true, paused := false, sample_rate := 44100, channels := 2,
      sync_callback := some 7, sync_userdata := 9 }
    { pcm := fun i => (i : ℚ) + 1, length := 6, channels := 2, pos := 4 }
    (fun _ => 0) (fun _ => 0) [] rfl (by decide)).2 (by decide) (by decide)
  exact ⟨r, hr, by rw [h1], h2, h3⟩

/-- C24, the claim as stated fails: a non-looping stream with two frames left,
in a tick with a buffer of four frames, gets a partial read of two frames; after
the tick its playing flag is still set and no callback has been fired. -/
theorem C24_counterexample :
    (AudioMixingTick 1
      { initMixer 44100 2 4 with
        channel_stream :=
          [some { hstream := 1, hsync := 5, gain := 1, ducking := 1, loop := false }],
        g_streamMap := fun h =>
          if h = 1 then
            some { decoder := some { pcm := fun i => (i : ℚ) + 1, length := 6, channels := 2,
                                     pos := 4 },
                   playing := true, paused := false, sample_rate := 44100, channels := 2,
                   sync_callback := some 7, sync_userdata := 9 }
          else none }).map
        (fun r => (r.fired, (r.g_streamMap 1).map (fun e => (e.playing, e.decoder.map
          (fun d => d.pos)))))
      = some ([], some (true, some 6)) := by
  decide

/-- One read of the per-stream loop and the mixing of its frames, read at output
frame `k`, channel `ch`: the frames `dst .. dst + framesRead - 1` receive the
source frames from the cursor on, channel `ch mod channels`, times the volume;
every other frame is untouched. -/
theorem mixStep_coord (d : Decoder) (m0 temp : Nat → ℚ) (dst req outCh : Nat) (v : ℚ)
    (hC : 1 ≤ d.channels) (k ch : Nat) (hch : ch < outCh) :
    (if d.channels = outCh then
        mixFrames (fun frame ch => frame * d.channels + ch) m0
          (altsound_ma_decoder_read_pcm_frames d temp req).2.1 dst
          (altsound_ma_decoder_read_pcm_frames d temp req).1 outCh v
      else
        mixFrames (fun frame ch => frame * d.channels + ch % d.channels) m0
          (altsound_ma_decoder_read_pcm_frames d temp req).2.1 dst
          (altsound_ma_decoder_read_pcm_frames d temp req).1 outCh v) (k * outCh + ch)
      = if dst ≤ k ∧ k < dst + min req (d.length - d.pos) then
          m0 (k * outCh + ch)
            + d.pcm ((d.pos + (k - dst)) * d.channels + ch % d.channels) * v
        else m0 (k * outCh + ch) := by
  have hstep : (if d.channels = outCh then
        mixFrames (fun frame ch => frame * d.channels + ch) m0
          (altsound_ma_decoder_read_pcm_frames d temp req).2.1 dst
          (altsound_ma_decoder_read_pcm_frames d temp req).1 outCh v
      else
        mixFrames (fun frame ch => frame * d.channels + ch % d.channels) m0
          (altsound_ma_decoder_read_pcm_frames d temp req).2.1 dst
          (altsound_ma_decoder_read_pcm_frames d temp req).1 outCh v)
      = mixFrames (fun frame ch => frame * d.channels + ch % d.channels) m0
          (altsound_ma_decoder_read_pcm_frames d temp req).2.1 dst
          (altsound_ma_decoder_read_pcm_frames d temp req).1 outCh v := by
    split_ifs with h
    · rw [← h]
      exact mixFrames_equal_eq_modulo _ _ _ _ _ _
    · rfl
  rw [hstep, mixFrames_coord _ _ _ _ _ _ _ k ch hch, (read_frames d temp req).1]
  by_cases hk : dst ≤ k ∧ k < dst + min req (d.length - d.pos)
  · rw [if_pos hk, if_pos hk]
    have hlt : k - dst < (altsound_ma_decoder_read_pcm_frames d temp req).1 := by
      rw [(read_frames d temp req).1]
      omega
    rw [read_sample d temp req (k - dst) (ch % d.channels) hlt (Nat.mod_lt _ hC)]
  · rw [if_neg hk, if_neg hk]

/-- The per-stream loop of a looping stream whose decoder holds `L ≥ 1` frames,
from write position `dst` and cursor `pos ≤ L`: with fuel for two rounds per
frame still to fill (and one more when the cursor is at the end) the loop ends
with the buffer full; output frame `k ≥ dst` has received source frame
`(pos + (k - dst)) mod L`, the frames before `dst` are untouched, the registry
entry and the callbacks are as before, and the cursor is again at most `L`. -/
theorem mixLoop_looping (B outCh C L : Nat) (v : ℚ) (stream : AltsoundStreamInfo)
    (hloop : stream.loop = true) (hL : 1 ≤ L) (hC : 1 ≤ C) :
    ∀ (fuel : Nat) (s : MixState), s.decoder.length = L → s.decoder.channels = C →
      s.decoder.pos ≤ L → s.dstBaseFrame ≤ B →
      2 * (B - s.dstBaseFrame) + (if L ≤ s.decoder.pos then 1 else 0) ≤ fuel →
      ∃ r, mixLoop B outCh C v stream fuel s = some r
        ∧ r.dstBaseFrame = B ∧ r.internal = s.internal ∧ r.fired = s.fired
        ∧ r.decoder = { s.decoder with pos := r.decoder.pos } ∧ r.decoder.pos ≤ L
        ∧ ∀ k ch, ch < outCh →
            r.mixBuffer (k * outCh + ch)
              = if s.dstBaseFrame ≤ k ∧ k < B then
                  s.mixBuffer (k * outCh + ch)
                    + s.decoder.pcm
                        (((s.decoder.pos + (k - s.dstBaseFrame)) % L) * C + ch % C) * v
                else s.mixBuffer (k * outCh + ch) := by
  intro fuel
  induction fuel with
  | zero =>
    intro s _ _ hpos hdst hfuel
    have hB : ¬ s.dstBaseFrame < B := by omega
    refine ⟨s, by simp [mixLoop, hB], by omega, rfl, rfl, rfl, hpos, ?_⟩
    intro k ch _
    rw [if_neg (by omega)]
  | succ fuel ih =>
    intro s hlen hchan hpos hdst hfuel
    by_cases hlt : s.dstBaseFrame < B
    swap
    · refine ⟨s, by simp [mixLoop, hlt], by omega, rfl, rfl, rfl, hpos, ?_⟩
      intro k ch _
      rw [if_neg (by omega)]
    have hn := (read_frames s.decoder s.tempBuffer (B - s.dstBaseFrame)).1
    have hd := (read_frames s.decoder s.tempBuffer (B - s.dstBaseFrame)).2
    have hmixed : ∀ k ch, ch < outCh →
        (if C = outCh then
            mixFrames (fun frame ch => frame * C + ch) s.mixBuffer
              (altsound_ma_decoder_read_pcm_frames s.decoder s.tempBuffer
                (B - s.dstBaseFrame)).2.1 s.dstBaseFrame
              (altsound_ma_decoder_read_pcm_frames s.decoder s.tempBuffer
                (B - s.dstBaseFrame)).1 outCh v
          else
            mixFrames (fun frame ch => frame * C + ch % C) s.mixBuffer
              (altsound_ma_decoder_read_pcm_frames s.decoder s.tempBuffer
                (B - s.dstBaseFrame)).2.1 s.dstBaseFrame
              (altsound_ma_decoder_read_pcm_frames s.decoder s.tempBuffer
                (B - s.dstBaseFrame)).1 outCh v) (k * outCh + ch)
          = if s.dstBaseFrame ≤ k ∧
                k < s.dstBaseFrame + min (B - s.dstBaseFrame) (L - s.decoder.pos) then
              s.mixBuffer (k * outCh + ch)
                + s.decoder.pcm ((s.decoder.pos + (k - s.dstBaseFrame)) * C + ch % C) * v
            else s.mixBuffer (k * outCh + ch) := by
      intro k ch hch
      have h := mixStep_coord s.decoder s.mixBuffer s.tempBuffer s.dstBaseFrame
        (B - s.dstBaseFrame) outCh v (by omega) k ch hch
      rw [hchan, hlen] at h
      exact h
    simp only [mixLoop, if_pos hlt]
    by_cases hz : (altsound_ma_decoder_read_pcm_frames s.decoder s.tempBuffer
        (B - s.dstBaseFrame)).1 = 0
    · simp only [if_pos hz, hloop, if_true]
      have hposL : s.decoder.pos = L := by
        rw [hn, hlen] at hz
        omega
      have hih := ih
        { s with
          tempBuffer := (altsound_ma_decoder_read_pcm_frames s.decoder s.tempBuffer
            (B - s.dstBaseFrame)).2.1,
          decoder := altsound_ma_decoder_seek_to_pcm_frame
            (altsound_ma_decoder_read_pcm_frames s.decoder s.tempBuffer
              (B - s.dstBaseFrame)).2.2 0 }
        hlen hchan (Nat.zero_le _) hdst
        (by
          simp only [altsound_ma_decoder_seek_to_pcm_frame]
          rw [if_neg (by omega)]
          rw [if_pos (by omega)] at hfuel
          omega)
      obtain ⟨r, hr, h1, h2, h3, h4, h5, h6⟩ := hih
      refine ⟨r, hr, h1, h2, h3, ?_, h5, ?_⟩
      · rw [h4]
        simp [altsound_ma_decoder_seek_to_pcm_frame, hd]
      · intro k ch hch
        rw [h6 k ch hch]
        simp only [altsound_ma_decoder_seek_to_pcm_frame, hd, hposL, Nat.zero_add,
          Nat.add_mod_left]
    · simp only [if_neg hz]
      have hn0 : 0 < min (B - s.dstBaseFrame) (L - s.decoder.pos) := by
        rw [hn, hlen] at hz
        omega
      by_cases hshort : (altsound_ma_decoder_read_pcm_frames s.decoder s.tempBuffer
          (B - s.dstBaseFrame)).1 < B - s.dstBaseFrame
      · simp only [if_pos hshort, hloop, if_true]
        have hnR : min (B - s.dstBaseFrame) (L - s.decoder.pos) = L - s.decoder.pos := by
          rw [hn, hlen] at hshort
          omega
        have hih := ih
          { s with
            mixBuffer :=
              (if C = outCh then
                mixFrames (fun frame ch => frame * C + ch) s.mixBuffer
                  (altsound_ma_decoder_read_pcm_frames s.decoder s.tempBuffer
                    (B - s.dstBaseFrame)).2.1 s.dstBaseFrame
                  (altsound_ma_decoder_read_pcm_frames s.decoder s.tempBuffer
                    (B - s.dstBaseFrame)).1 outCh v
              else
                mixFrames (fun frame ch => frame * C + ch % C) s.mixBuffer
                  (altsound_ma_decoder_read_pcm_frames s.decoder s.tempBuffer
                    (B - s.dstBaseFrame)).2.1 s.dstBaseFrame
                  (altsound_ma_decoder_read_pcm_frames s.decoder s.tempBuffer
                    (B - s.dstBaseFrame)).1 outCh v),
            tempBuffer := (altsound_ma_decoder_read_pcm_frames s.decoder s.tempBuffer
              (B - s.dstBaseFrame)).2.1,
            decoder := altsound_ma_decoder_seek_to_pcm_frame
              (altsound_ma_decoder_read_pcm_frames s.decoder s.tempBuffer
                (B - s.dstBaseFrame)).2.2 0,
            dstBaseFrame := s.dstBaseFrame + (altsound_ma_decoder_read_pcm_frames s.decoder
              s.tempBuffer (B - s.dstBaseFrame)).1 }
          hlen hchan (Nat.zero_le _)
          (by
            simp only [hn, hlen]
            omega)
          (by
            simp only [altsound_ma_decoder_seek_to_pcm_frame, hn, hlen]
            rw [if_neg (by omega)]
            omega)
        obtain ⟨r, hr, h1, h2, h3, h4, h5, h6⟩ := hih
        refine ⟨r, hr, h1, h2, h3, ?_, h5, ?_⟩
        · rw [h4]
          simp [altsound_ma_decoder_seek_to_pcm_frame, hd]
        · intro k ch hch
          rw [h6 k ch hch]
          dsimp only
          rw [hmixed k ch hch]
          simp only [altsound_ma_decoder_seek_to_pcm_frame, hd, hn, hlen, hnR, Nat.zero_add]
          by_cases hk1 : s.dstBaseFrame ≤ k
          · by_cases hk2 : k < B
            · by_cases hk3 : k < s.dstBaseFrame + (L - s.decoder.pos)
              · have hmod : (s.decoder.pos + (k - s.dstBaseFrame)) % L
                    = s.decoder.pos + (k - s.dstBaseFrame) := Nat.mod_eq_of_lt (by omega)
                rw [if_neg (by omega), if_pos ⟨hk1, hk3⟩, if_pos ⟨hk1, hk2⟩, hmod]
              · have hmod : (s.decoder.pos + (k - s.dstBaseFrame)) % L
                    = (k - (s.dstBaseFrame + (L - s.decoder.pos))) % L := by
                  have : s.decoder.pos + (k - s.dstBaseFrame)
                      = L + (k - (s.dstBaseFrame + (L - s.decoder.pos))) := by omega
                  rw [this, Nat.add_mod_left]
                rw [if_pos (by omega), if_neg (by omega), if_pos ⟨hk1, hk2⟩, hmod]
            · rw [if_neg (by omega), if_neg (by omega), if_neg (by omega)]
          · rw [if_neg (by omega), if_neg (by omega), if_neg (by omega)]
      · simp only [if_neg hshort]
        have hnB : min (B - s.dstBaseFrame) (L - s.decoder.pos) = B - s.dstBaseFrame := by
          rw [hn, hlen] at hshort
          omega
        rw [mixLoop_done]
        · refine ⟨_, rfl, ?_, rfl, rfl, ?_, ?_, ?_⟩
          · simp only [hn, hlen, hnB]
            omega
          · simp only [hd]
          · simp only [hd, hlen, hnB]
            omega
          · intro k ch hch
            simp only
            rw [hmixed k ch hch, hnB]
            by_cases hk : s.dstBaseFrame ≤ k ∧ k < B
            · have hmod : (s.decoder.pos + (k - s.dstBaseFrame)) % L
                  = s.decoder.pos + (k - s.dstBaseFrame) := Nat.mod_eq_of_lt (by omega)
              rw [if_pos (by omega), if_pos hk, hmod]
            · rw [if_neg (by omega), if_neg hk]
        · simp only [hn, hlen, hnB]
          omega

/-- One tick of a looping stream whose decoder holds at least one frame. -/
theorem mixStream_looping (fuel B outCh : Nat) (globalVol masterVol : ℚ)
    (stream : AltsoundStreamInfo) (internal : _internal_stream_data) (dec : Decoder)
    (mix temp : Nat → ℚ) (fired : List SyncCall)
    (hloop : stream.loop = true) (hL : 1 ≤ dec.length) (hC : 1 ≤ dec.channels)
    (hin : internal.channels = dec.channels) (hpos : dec.pos ≤ dec.length)
    (hfuel : 2 * B + 1 ≤ fuel) :
    ∃ r, mixStream fuel B outCh globalVol masterVol stream internal dec mix temp fired = some r
      ∧ r.dstBaseFrame = B ∧ r.internal = internal ∧ r.fired = fired
      ∧ r.decoder = { dec with pos := r.decoder.pos } ∧ r.decoder.pos ≤ dec.length
      ∧ ∀ k ch, k < B → ch < outCh →
          r.mixBuffer (k * outCh + ch)
            = mix (k * outCh + ch)
              + dec.pcm (((dec.pos + k) % dec.length) * dec.channels + ch % dec.channels)
                * (stream.gain * stream.ducking * globalVol * masterVol) := by
  unfold mixStream
  rw [hin]
  obtain ⟨r, hr, h1, h2, h3, h4, h5, h6⟩ := mixLoop_looping B outCh dec.channels dec.length
    (stream.gain * stream.ducking * globalVol * masterVol) stream hloop hL hC fuel
    { mixBuffer := mix, tempBuffer := temp, internal := internal, decoder := dec,
      dstBaseFrame := 0, fired := fired } rfl rfl hpos (Nat.zero_le _)
    (by
      simp only []
      split_ifs <;> omega)
  refine ⟨r, hr, h1, h2, h3, h4, h5, ?_⟩
  intro k ch hk hch
  rw [h6 k ch hch]
  simp only [Nat.sub_zero]
  rw [if_pos ⟨Nat.zero_le _, hk⟩]

/-- C25: for a stream with the loop flag set whose decoder holds `L ≥ 1` frames,
every mixer tick fills the whole buffer from it.  After any number of ticks the
stream's registry entry is as it was (it stays playing), no end-of-stream
callback has been fired and the cursor `p` is at most `L`; and the next tick
ends with the buffer full, output frame `k` having received source frame
`(p + k) mod L`, channel `ch mod in_channels`, times the effective volume. -/
theorem C25_looping_stream_fills_buffer (fuel B outCh : Nat) (globalVol masterVol : ℚ)
    (stream : AltsoundStreamInfo) (internal : _internal_stream_data) (dec : Decoder)
    (temp : Nat → ℚ) (fired : List SyncCall) (n : Nat)
    (hloop : stream.loop = true) (hL : 1 ≤ dec.length) (hC : 1 ≤ dec.channels)
    (hin : internal.channels = dec.channels) (hpos : dec.pos ≤ dec.length)
    (hfuel : 2 * B + 1 ≤ fuel) :
    ∃ s, streamTicks fuel B outCh globalVol masterVol stream n
            { mixBuffer := fun _ => 0, tempBuffer := temp, internal := internal,
              decoder := dec, dstBaseFrame := 0, fired := fired } = some s
      ∧ s.internal = internal ∧ s.fired = fired
      ∧ s.decoder = { dec with pos := s.decoder.pos } ∧ s.decoder.pos ≤ dec.length
      ∧ ∀ mix : Nat → ℚ,
          ∃ r, mixStream fuel B outCh globalVol masterVol stream s.internal s.decoder mix
                  s.tempBuffer s.fired = some r
            ∧ r.dstBaseFrame = B ∧ r.internal = internal ∧ r.fired = fired
            ∧ ∀ k ch, k < B → ch < outCh →
                r.mixBuffer (k * outCh + ch)
                  = mix (k * outCh + ch)
                    + dec.pcm (((s.decoder.pos + k) % dec.length) * dec.channels
                        + ch % dec.channels)
                      * (stream.gain * stream.ducking * globalVol * masterVol) := by
  have hstate : ∃ s, streamTicks fuel B outCh globalVol masterVol stream n
            { mixBuffer := fun _ => 0, tempBuffer := temp, internal := internal,
              decoder := dec, dstBaseFrame := 0, fired := fired } = some s
      ∧ s.internal = internal ∧ s.fired = fired
      ∧ s.decoder = { dec with pos := s.decoder.pos } ∧ s.decoder.pos ≤ dec.length := by
    induction n with
    | zero => exact ⟨_, rfl, rfl, rfl, rfl, hpos⟩
    | succ n ih =>
      obtain ⟨s, hs, h1, h2, h3, h4⟩ := ih
      have hlen : s.decoder.length = dec.length := by rw [h3]
      have hch : s.decoder.channels = dec.channels := by rw [h3]
      obtain ⟨r, hr, _, r2, r3, r4, r5, _⟩ := mixStream_looping fuel B outCh globalVol masterVol
        stream s.internal s.decoder (fun _ => 0) s.tempBuffer s.fired hloop
        (by rw [hlen]; exact hL) (by rw [hch]; exact hC) (by rw [h1, hch]; exact hin)
        (by rw [hlen]; exact h4) hfuel
      refine ⟨r, ?_, by rw [r2, h1], by rw [r3, h2], ?_, by rw [← hlen]; exact r5⟩
      · simp only [streamTicks, hs, hr]
      · rw [r4, h3]
  obtain ⟨s, hs, h1, h2, h3, h4⟩ := hstate
  have hlen : s.decoder.length = dec.length := by rw [h3]
  have hch : s.decoder.channels = dec.channels := by rw [h3]
  have hpcm : s.decoder.pcm = dec.pcm := by rw [h3]
  refine ⟨s, hs, h1, h2, h3, h4, ?_⟩
  intro mix
  obtain ⟨r, hr, r1, r2, r3, _, _, r6⟩ := mixStream_looping fuel B outCh globalVol masterVol
    stream s.internal s.decoder mix s.tempBuffer s.fired hloop
    (by rw [hlen]; exact hL) (by rw [hch]; exact hC) (by rw [h1, hch]; exact hin)
    (by rw [hlen]; exact h4) hfuel
  refine ⟨r, hr, r1, by rw [r2, h1], by rw [r3, h2], ?_⟩
  intro k ch hk hc
  rw [r6 k ch hk hc, hlen, hch, hpcm]

/-- C25 at a stereo stream of three frames with the cursor at frame `1`, a buffer
of four frames and an effective volume of `1`: the third tick ends with the
buffer full and the stream still playing. -/
theorem C25_looping_stream_fills_buffer_witness :
    ∃ s, streamTicks 9 4 2 1 1
            { hstream := 1, hsync := 5, gain := 1, ducking := 1, loop := true } 2
            { mixBuffer := fun _ => 0, tempBuffer := fun _ => 0,
              internal :=
                { decoder := some { pcm := fun i => (i : ℚ) + 1, length := 3, channels := 2,
                                    pos := 1 },
                  playing := true, paused := false, sample_rate := 44100, channels := 2,
                  sync_callback := some 7, sync_userdata := 9 },
              decoder := { pcm := fun i => (i : ℚ) + 1, length := 3, channels := 2, pos := 1 },
              dstBaseFrame := 0, fired := [] } = some s
      ∧ s.internal.playing = true ∧ s.fired = [] := by
  obtain ⟨s, hs, h1, h2, _⟩ := C25_looping_stream_fills_buffer 9 4 2 1 1
    { hstream := 1, hsync := 5, gain := 1, ducking := 1, loop := true }
    { decoder := some { pcm := fun i => (i : ℚ) + 1, length := 3, channels := 2, pos := 1 },
      playing := true, paused := false, sample_rate := 44100, channels := 2,
      sync_callback := some 7, sync_userdata := 9 }
    { pcm := fun i => (i : ℚ) + 1, length := 3, channels := 2, pos := 1 }
    (fun _ => 0) [] 2 rfl (by decide) (by decide) rfl (by decide) (by decide)
  exact ⟨s, hs, by rw [h1], h2⟩

/-! ## The snapshot and the whole tick -/

/-- Every pair of the snapshot comes from a slot that is not null, is keyed by
the slot's handle, which is not the no-stream handle, and has a registry entry
with a decoder, the playing flag set and the paused flag clear. -/
theorem activeStreams_mem (channel_stream : List (Option AltsoundStreamInfo))
    (g_streamMap : Nat → Option _internal_stream_data) (p : AltsoundStreamInfo × Nat)
    (hp : p ∈ activeStreams channel_stream g_streamMap) :
    some p.1 ∈ channel_stream ∧ p.2 = p.1.hstream ∧ p.2 ≠ MINIAUDIO_NO_STREAM
      ∧ ∃ it, g_streamMap p.2 = some it ∧ it.decoder.isSome = true ∧ it.playing = true
          ∧ it.paused = false := by
  unfold activeStreams at hp
  rw [List.mem_filterMap] at hp
  obtain ⟨slot, hmem, hs⟩ := hp
  cases slot with
  | none => simp at hs
  | some stream =>
    simp only at hs
    split_ifs at hs with h0
    cases hmap : g_streamMap stream.hstream with
    | none =>
      rw [hmap] at hs
      simp at hs
    | some it =>
      rw [hmap] at hs
      simp only at hs
      split_ifs at hs with hact
      cases hs
      exact ⟨hmem, rfl, h0, it, hmap, hact.1, hact.2.1, hact.2.2⟩

/-- The loop over the active streams leaves alone every registry entry whose key
is not in the snapshot. -/
theorem mixActive_other (fuel B outCh : Nat) (globalVol masterVol : ℚ) (h : Nat) :
    ∀ (l : List (AltsoundStreamInfo × Nat)) (t t1 : TickState),
      (∀ p ∈ l, p.2 ≠ h) →
      mixActive fuel B outCh globalVol masterVol l t = some t1 →
      t1.g_streamMap h = t.g_streamMap h := by
  intro l
  induction l with
  | nil =>
    intro t t1 _ ht
    simp only [mixActive] at ht
    cases ht
    rfl
  | cons p rest ih =>
    intro t t1 hk ht
    obtain ⟨stream, key⟩ := p
    have hkey : key ≠ h := hk (stream, key) (List.mem_cons_self _ _)
    have hrest : ∀ p ∈ rest, p.2 ≠ h := fun p hp => hk p (List.mem_cons_of_mem _ hp)
    simp only [mixActive] at ht
    cases hmap : t.g_streamMap key with
    | none =>
      rw [hmap] at ht
      exact ih t t1 hrest ht
    | some internal =>
      rw [hmap] at ht
      simp only at ht
      cases hdec : internal.decoder with
      | none =>
        rw [hdec] at ht
        exact ih t t1 hrest ht
      | some decoder =>
        rw [hdec] at ht
        simp only at ht
        cases hmix : mixStream fuel B outCh globalVol masterVol stream internal decoder
            t.mixBuffer t.tempBuffer t.fired with
        | none =>
          rw [hmix] at ht
          cases ht
        | some r =>
          rw [hmix] at ht
          simp only at ht
          rw [ih _ t1 hrest ht]
          exact Function.update_noteq (Ne.symm hkey) _ _

/-- The loop over the active streams never sets a playing flag, and the calls
it adds to the record are calls for streams of the snapshot that do not loop
and whose registry entry it leaves not playing. -/
theorem mixActive_fired (fuel B outCh : Nat) (globalVol masterVol : ℚ) :
    ∀ (l : List (AltsoundStreamInfo × Nat)) (t t1 : TickState),
      mixActive fuel B outCh globalVol masterVol l t = some t1 →
      (∀ key it, t.g_streamMap key = some it → it.playing = false →
          ∃ it1, t1.g_streamMap key = some it1 ∧ it1.playing = false)
      ∧ ∃ extra, t1.fired = t.fired ++ extra
          ∧ ∀ c ∈ extra, ∃ p ∈ l, c.hstream = p.1.hstream ∧ p.1.loop = false
              ∧ ∃ it1, t1.g_streamMap p.2 = some it1 ∧ it1.playing = false := by
  intro l
  induction l with
  | nil =>
    intro t t1 ht
    simp only [mixActive] at ht
    cases ht
    exact ⟨fun key it hit hp => ⟨it, hit, hp⟩, [], by simp, by simp⟩
  | cons p rest ih =>
    intro t t1 ht
    obtain ⟨stream, key⟩ := p
    have hlift : ∀ t0 : TickState,
        ((∀ key it, t0.g_streamMap key = some it → it.playing = false →
            ∃ it1, t1.g_streamMap key = some it1 ∧ it1.playing = false)
          ∧ ∃ extra, t1.fired = t0.fired ++ extra
            ∧ ∀ c ∈ extra, ∃ p ∈ rest, c.hstream = p.1.hstream ∧ p.1.loop = false
                ∧ ∃ it1, t1.g_streamMap p.2 = some it1 ∧ it1.playing = false) →
        ((∀ key it, t0.g_streamMap key = some it → it.playing = false →
            ∃ it1, t1.g_streamMap key = some it1 ∧ it1.playing = false)
          ∧ ∃ extra, t1.fired = t0.fired ++ extra
            ∧ ∀ c ∈ extra, ∃ p ∈ (stream, key) :: rest, c.hstream = p.1.hstream
                ∧ p.1.loop = false
                ∧ ∃ it1, t1.g_streamMap p.2 = some it1 ∧ it1.playing = false) := by
      rintro t0 ⟨hm, extra, he, hc⟩
      refine ⟨hm, extra, he, ?_⟩
      intro c hcm
      obtain ⟨p, hp, h⟩ := hc c hcm
      exact ⟨p, List.mem_cons_of_mem _ hp, h⟩
    simp only [mixActive] at ht
    cases hmap : t.g_streamMap key with
    | none =>
      rw [hmap] at ht
      exact hlift t (ih t t1 ht)
    | some internal =>
      rw [hmap] at ht
      simp only at ht
      cases hdec : internal.decoder with
      | none =>
        rw [hdec] at ht
        exact hlift t (ih t t1 ht)
      | some decoder =>
        rw [hdec] at ht
        simp only at ht
        cases hmix : mixStream fuel B outCh globalVol masterVol stream internal decoder
            t.mixBuffer t.tempBuffer t.fired with
        | none =>
          rw [hmix] at ht
          cases ht
        | some r =>
          rw [hmix] at ht
          simp only at ht
          obtain ⟨hm2, extra2, he2, hc2⟩ := ih _ t1 ht
          simp only at hm2 he2
          obtain ⟨_, _, _, _, hcase⟩ := mixLoop_inv B outCh internal.channels
            (stream.gain * stream.ducking * globalVol * masterVol) stream fuel _ r
            (Nat.zero_le _) hmix
          simp only at hcase
          have hmono : ∀ key0 it, t.g_streamMap key0 = some it → it.playing = false →
              ∃ it1, t1.g_streamMap key0 = some it1 ∧ it1.playing = false := by
            intro key0 it hit hp
            by_cases hk : key0 = key
            · subst hk
              rw [hmap] at hit
              simp only [Option.some.injEq] at hit
              subst hit
              refine hm2 key0 { r.internal with decoder := some r.decoder }
                (Function.update_same _ _ _) ?_
              rcases hcase with ⟨hi, _⟩ | ⟨_, _, hi, _⟩
              · simp only [hi, hp]
              · simp only [hi]
            · exact hm2 key0 it (by rw [Function.update_noteq hk]; exact hit) hp
          have hrest : ∀ c ∈ extra2, ∃ p ∈ (stream, key) :: rest, c.hstream = p.1.hstream
              ∧ p.1.loop = false
              ∧ ∃ it1, t1.g_streamMap p.2 = some it1 ∧ it1.playing = false := by
            intro c hcm
            obtain ⟨p, hp, h⟩ := hc2 c hcm
            exact ⟨p, List.mem_cons_of_mem _ hp, h⟩
          refine ⟨hmono, ?_⟩
          rcases hcase with ⟨_, hf⟩ | ⟨hloop, _, hi, hf⟩
          · exact ⟨extra2, by rw [he2, hf], hrest⟩
          · refine ⟨_, by rw [he2, hf, List.append_assoc], ?_⟩
            intro c hcm
            rcases List.mem_append.mp hcm with h | h
            · refine ⟨(stream, key), List.mem_cons_self _ _, ?_, hloop,
                hm2 key { r.internal with decoder := some r.decoder }
                  (Function.update_same _ _ _) (by simp only [hi])⟩
              cases hcb : internal.sync_callback with
              | none =>
                rw [hcb] at h
                simp at h
              | some proc =>
                rw [hcb] at h
                simp only [List.mem_singleton] at h
                rw [h]
            · exact hrest c h

/-- A registry entry that is not playing, or is paused, is not in the snapshot,
whatever the channel table holds. -/
theorem activeStreams_inactive (channel_stream : List (Option AltsoundStreamInfo))
    (g_streamMap : Nat → Option _internal_stream_data) (h : Nat)
    (hin : ∀ e, g_streamMap h = some e → e.playing = false ∨ e.paused = true) :
    ∀ p ∈ activeStreams channel_stream g_streamMap, p.2 ≠ h := by
  intro p hp heq
  obtain ⟨_, _, _, it, hit, _, hplay, hpause⟩ := activeStreams_mem _ _ p hp
  rw [heq] at hit
  rcases hin it hit with h1 | h1
  · rw [h1] at hplay
    cases hplay
  · rw [h1] at hpause
    cases hpause

/-- What a tick that ends does to the state: the channel table is as it was, the
registry entries outside the snapshot are as they were, and the callbacks
fired are added at the end of the record, each for a slot whose stream does
not loop and whose registry entry was playing and unpaused before the tick
and is not playing after it. -/
theorem tick_fired (fuel : Nat) (m m1 : Mixer) (ht : AudioMixingTick fuel m = some m1) :
    m1.channel_stream = m.channel_stream
      ∧ (∀ h, (∀ p ∈ activeStreams m.channel_stream m.g_streamMap, p.2 ≠ h) →
          m1.g_streamMap h = m.g_streamMap h)
      ∧ ∃ extra, m1.fired = m.fired ++ extra
          ∧ ∀ c ∈ extra, ∃ stream, some stream ∈ m.channel_stream ∧ stream.loop = false
              ∧ c.hstream = stream.hstream
              ∧ (∃ it, m.g_streamMap stream.hstream = some it ∧ it.playing = true
                  ∧ it.paused = false)
              ∧ ∃ it1, m1.g_streamMap stream.hstream = some it1 ∧ it1.playing = false := by
  unfold AudioMixingTick at ht
  cases hmix : mixActive fuel m.g_bufferSizeFrames m.g_channels m.globalVol m.masterVol
      (activeStreams m.channel_stream m.g_streamMap)
      { g_streamMap := m.g_streamMap, mixBuffer := fun _ => 0, tempBuffer := m.tempBuffer,
        fired := m.fired } with
  | none =>
    rw [hmix] at ht
    cases ht
  | some t =>
    rw [hmix] at ht
    simp only [Option.some.injEq] at ht
    subst ht
    refine ⟨rfl, ?_, ?_⟩
    · intro h hk
      exact mixActive_other fuel _ _ _ _ h _ _ t hk hmix
    · obtain ⟨_, extra, he, hc⟩ := mixActive_fired fuel _ _ _ _ _ _ t hmix
      refine ⟨extra, he, ?_⟩
      intro c hcm
      obtain ⟨p, hp, h1, h2, h3⟩ := hc c hcm
      obtain ⟨a1, a2, _, it, a4, _, a6, a7⟩ := activeStreams_mem _ _ p hp
      refine ⟨p.1, a1, h2, h1, ⟨it, by rw [← a2]; exact a4, a6, a7⟩, ?_⟩
      rw [← a2]
      exact h3

/-- A tick leaves alone a registry entry that is not playing or is paused, and
fires no callback for its handle. -/
theorem tick_inactive (fuel : Nat) (m m1 : Mixer) (h : Nat)
    (hin : ∀ e, m.g_streamMap h = some e → e.playing = false ∨ e.paused = true)
    (ht : AudioMixingTick fuel m = some m1) :
    m1.g_streamMap h = m.g_streamMap h
      ∧ m1.channel_stream = m.channel_stream
      ∧ ∃ extra, m1.fired = m.fired ++ extra ∧ ∀ c ∈ extra, c.hstream ≠ h := by
  obtain ⟨h1, h2, extra, he, hc⟩ := tick_fired fuel m m1 ht
  refine ⟨h2 h (activeStreams_inactive _ _ h hin), h1, extra, he, ?_⟩
  intro c hcm heq
  obtain ⟨stream, _, _, hs, ⟨it, hit, hplay, hpause⟩, _⟩ := hc c hcm
  rw [← hs, heq] at hit
  rcases hin it hit with h3 | h3
  · rw [h3] at hplay
    cases hplay
  · rw [h3] at hpause
    cases hpause

/-- Any number of ticks leaves alone a registry entry that is not playing or is
paused, and fires no callback for its handle. -/
theorem ticks_inactive (fuel : Nat) (h : Nat) :
    ∀ (n : Nat) (m m1 : Mixer),
      (∀ e, m.g_streamMap h = some e → e.playing = false ∨ e.paused = true) →
      AudioMixingTicks fuel n m = some m1 →
      m1.g_streamMap h = m.g_streamMap h
        ∧ m1.channel_stream = m.channel_stream
        ∧ ∃ extra, m1.fired = m.fired ++ extra ∧ ∀ c ∈ extra, c.hstream ≠ h := by
  intro n
  induction n with
  | zero =>
    intro m m1 _ ht
    simp only [AudioMixingTicks] at ht
    cases ht
    exact ⟨rfl, rfl, [], by simp, by simp⟩
  | succ n ih =>
    intro m m1 hin ht
    simp only [AudioMixingTicks] at ht
    cases hprev : AudioMixingTicks fuel n m with
    | none =>
      rw [hprev] at ht
      cases ht
    | some m0 =>
      rw [hprev] at ht
      simp only at ht
      obtain ⟨h1, h2, e1, he1, hc1⟩ := ih m m0 hin hprev
      obtain ⟨k1, k2, e2, he2, hc2⟩ := tick_inactive fuel m0 m1 h (by rw [h1]; exact hin) ht
      refine ⟨by rw [k1, h1], by rw [k2, h2], e1 ++ e2, by rw [he2, he1, List.append_assoc], ?_⟩
      intro c hcm
      rcases List.mem_append.mp hcm with h4 | h4
      · exact hc1 c h4
      · exact hc2 c h4

/-- The per-stream loop ends, with fuel for two rounds per frame and one more,
when the decoder's cursor is within its data and a looping stream has at least
one frame; the decoder keeps its data, the cursor stays within it and the
entry keeps its channel count. -/
theorem mixStream_returns (fuel B outCh : Nat) (globalVol masterVol : ℚ)
    (stream : AltsoundStreamInfo) (internal : _internal_stream_data) (dec : Decoder)
    (mix temp : Nat → ℚ) (fired : List SyncCall)
    (hpos : dec.pos ≤ dec.length) (hC : 1 ≤ dec.channels)
    (hin : internal.channels = dec.channels)
    (hL : stream.loop = true → 1 ≤ dec.length) (hfuel : 2 * B + 1 ≤ fuel) :
    ∃ r, mixStream fuel B outCh globalVol masterVol stream internal dec mix temp fired = some r
      ∧ r.decoder = { dec with pos := r.decoder.pos } ∧ r.decoder.pos ≤ dec.length
      ∧ r.internal.channels = internal.channels := by
  rcases Bool.eq_false_or_eq_true stream.loop with hloop | hloop
  · obtain ⟨r, hr, _, h2, _, h4, h5, _⟩ := mixStream_looping fuel B outCh globalVol masterVol
      stream internal dec mix temp fired hloop (hL hloop) hC hin hpos hfuel
    exact ⟨r, hr, h4, h5, by rw [h2]⟩
  · obtain ⟨f, rfl⟩ : ∃ f, fuel = f + 1 := ⟨fuel - 1, by omega⟩
    by_cases hB : 0 < B
    · obtain ⟨r, hr, _, hdec, hzero, hsome⟩ := mixLoop_nonloop B outCh internal.channels
        (stream.gain * stream.ducking * globalVol * masterVol) stream hloop f
        { mixBuffer := mix, tempBuffer := temp, internal := internal, decoder := dec,
          dstBaseFrame := 0, fired := fired } hB
      simp only at hdec hzero hsome
      refine ⟨r, hr, ?_, ?_, ?_⟩
      · rw [hdec]
      · rw [hdec]
        simp only
        omega
      · by_cases hz : dec.length - dec.pos = 0
        · rw [(hzero hz).1]
        · rw [(hsome hz).1]
    · refine ⟨{ mixBuffer := mix, tempBuffer := temp, internal := internal, decoder := dec,
                dstBaseFrame := 0, fired := fired }, ?_, rfl, hpos, rfl⟩
      have h0 : ¬ (0 < B) := hB
      simp only [mixStream, mixLoop, if_neg h0]

/-- The loop over the active streams ends, with fuel for two rounds per frame
and one more, when every registry entry has its decoder's cursor within the
data and the entries that a looping stream of the snapshot points to hold at
least one frame; the registry is then again such. -/
theorem mixActive_returns (fuel B outCh : Nat) (globalVol masterVol : ℚ) (P : Nat → Prop)
    (hfuel : 2 * B + 1 ≤ fuel) :
    ∀ (l : List (AltsoundStreamInfo × Nat)) (t : TickState),
      (∀ key it d, t.g_streamMap key = some it → it.decoder = some d →
        d.pos ≤ d.length ∧ 1 ≤ d.channels ∧ it.channels = d.channels
          ∧ (P key → 1 ≤ d.length)) →
      (∀ p ∈ l, p.1.loop = true → P p.2) →
      ∃ t1, mixActive fuel B outCh globalVol masterVol l t = some t1
        ∧ ∀ key it d, t1.g_streamMap key = some it → it.decoder = some d →
            d.pos ≤ d.length ∧ 1 ≤ d.channels ∧ it.channels = d.channels
              ∧ (P key → 1 ≤ d.length) := by
  intro l
  induction l with
  | nil =>
    intro t hwf _
    exact ⟨t, rfl, hwf⟩
  | cons p rest ih =>
    intro t hwf hP
    obtain ⟨stream, key⟩ := p
    have hrest : ∀ p ∈ rest, p.1.loop = true → P p.2 :=
      fun p hp => hP p (List.mem_cons_of_mem _ hp)
    simp only [mixActive]
    cases hmap : t.g_streamMap key with
    | none => exact ih t hwf hrest
    | some internal =>
      simp only
      cases hdec : internal.decoder with
      | none => exact ih t hwf hrest
      | some decoder =>
        simp only
        obtain ⟨w1, w2, w3, w4⟩ := hwf key internal decoder hmap hdec
        obtain ⟨r, hr, r1, r2, r3⟩ := mixStream_returns fuel B outCh globalVol masterVol stream
          internal decoder t.mixBuffer t.tempBuffer t.fired w1 w2 w3
          (fun hloop => w4 (hP (stream, key) (List.mem_cons_self _ _) hloop)) hfuel
        rw [hr]
        simp only
        apply ih _ _ hrest
        intro key1 it d hit hd
        simp only at hit
        by_cases hk : key1 = key
        · subst hk
          rw [Function.update_same] at hit
          simp only [Option.some.injEq] at hit
          subst hit
          simp only [Option.some.injEq] at hd
          subst hd
          rw [r1]
          simp only
          exact ⟨r2, w2, by rw [r3, w3], w4⟩
        · rw [Function.update_noteq hk] at hit
          exact hwf key1 it d hit hd

/-- A tick ends, with fuel for two rounds per frame and one more, when every
registry entry has its decoder's cursor within the data, at least one channel
and the channel count of its decoder, and no slot with the loop flag points to
an entry whose decoder is empty. -/
theorem tick_returns (fuel : Nat) (m : Mixer)
    (hwf : ∀ key it d, m.g_streamMap key = some it → it.decoder = some d →
      d.pos ≤ d.length ∧ 1 ≤ d.channels ∧ it.channels = d.channels)
    (hloop : ∀ stream, some stream ∈ m.channel_stream → stream.loop = true →
      ∀ it d, m.g_streamMap stream.hstream = some it → it.decoder = some d → 1 ≤ d.length)
    (hfuel : 2 * m.g_bufferSizeFrames + 1 ≤ fuel) :
    ∃ m1, AudioMixingTick fuel m = some m1 := by
  obtain ⟨t, ht, _⟩ := mixActive_returns fuel m.g_bufferSizeFrames m.g_channels m.globalVol
    m.masterVol
    (fun key => ∃ stream, some stream ∈ m.channel_stream ∧ stream.loop = true
      ∧ stream.hstream = key) hfuel
    (activeStreams m.channel_stream m.g_streamMap)
    { g_streamMap := m.g_streamMap, mixBuffer := fun _ => 0, tempBuffer := m.tempBuffer,
      fired := m.fired }
    (by
      intro key it d hit hd
      obtain ⟨w1, w2, w3⟩ := hwf key it d hit hd
      refine ⟨w1, w2, w3, ?_⟩
      rintro ⟨stream, hmem, hl, rfl⟩
      exact hloop stream hmem hl it d hit hd)
    (by
      intro p hp hl
      obtain ⟨h1, h2, _⟩ := activeStreams_mem _ _ p hp
      exact ⟨p.1, h1, hl, h2.symm⟩)
  unfold AudioMixingTick
  rw [ht]
  exact ⟨_, rfl⟩

/-- A tick that ends with a sink callback installed has called it once, with
the buffer size as frame count and `frameCount * channels` samples. -/
theorem tick_delivers (fuel : Nat) (m m1 : Mixer) (cb : Nat)
    (hcb : m.g_audioCallback = some cb) (ht : AudioMixingTick fuel m = some m1) :
    ∃ d, m1.delivered = m.delivered ++ [d] ∧ d.frameCount = m.g_bufferSizeFrames
      ∧ d.channels = m.g_channels ∧ d.sampleRate = m.g_sampleRate
      ∧ d.samples.length = m.g_bufferSizeFrames * m.g_channels := by
  unfold AudioMixingTick at ht
  cases hmix : mixActive fuel m.g_bufferSizeFrames m.g_channels m.globalVol m.masterVol
      (activeStreams m.channel_stream m.g_streamMap)
      { g_streamMap := m.g_streamMap, mixBuffer := fun _ => 0, tempBuffer := m.tempBuffer,
        fired := m.fired } with
  | none =>
    rw [hmix] at ht
    cases ht
  | some t =>
    rw [hmix] at ht
    simp only [Option.some.injEq] at ht
    subst ht
    simp only [hcb]
    exact ⟨_, rfl, rfl, rfl, rfl, by simp⟩

/-- With no active stream a tick ends, whatever the fuel, and the buffer it
hands to the sink is all zero. -/
theorem tick_silent (fuel : Nat) (m : Mixer) (cb : Nat) (hcb : m.g_audioCallback = some cb)
    (hnone : activeStreams m.channel_stream m.g_streamMap = []) :
    ∃ m1 d, AudioMixingTick fuel m = some m1 ∧ m1.delivered = m.delivered ++ [d]
      ∧ d.samples.length = m.g_bufferSizeFrames * m.g_channels
      ∧ ∀ x ∈ d.samples, x = 0 := by
  unfold AudioMixingTick
  rw [hnone]
  simp only [mixActive, hcb]
  refine ⟨_, _, rfl, rfl, by simp, ?_⟩
  intro x hx
  simp only [List.mem_map] at hx
  obtain ⟨_, _, hx⟩ := hx
  exact hx.symm

/-- A stream that does not loop leaves alone the frames past its last one: its
per-stream loop ends after one read, and every output frame from
`min B (length - pos)` on is as it was. -/
theorem mixStream_nonloop_tail (fuel B outCh : Nat) (globalVol masterVol : ℚ)
    (stream : AltsoundStreamInfo) (internal : _internal_stream_data) (dec : Decoder)
    (mix temp : Nat → ℚ) (fired : List SyncCall) (hloop : stream.loop = false) :
    ∃ r, mixStream (fuel + 1) B outCh globalVol masterVol stream internal dec mix temp fired
          = some r
      ∧ r.dstBaseFrame = min B (dec.length - dec.pos)
      ∧ ∀ k ch, ch < outCh → min B (dec.length - dec.pos) ≤ k →
          r.mixBuffer (k * outCh + ch) = mix (k * outCh + ch) := by
  by_cases hB : 0 < B
  · obtain ⟨r, hr, hdst, _⟩ := mixLoop_nonloop B outCh internal.channels
      (stream.gain * stream.ducking * globalVol * masterVol) stream hloop fuel
      { mixBuffer := mix, tempBuffer := temp, internal := internal, decoder := dec,
        dstBaseFrame := 0, fired := fired } hB
    simp only [Nat.zero_add, Nat.sub_zero] at hdst
    obtain ⟨_, _, hout, _⟩ := mixLoop_inv B outCh internal.channels
      (stream.gain * stream.ducking * globalVol * masterVol) stream (fuel + 1) _ r
      (Nat.zero_le _) hr
    refine ⟨r, hr, hdst, ?_⟩
    intro k ch hch hk
    exact hout k ch hch (Or.inr (by rw [hdst]; exact hk))
  · have h0 : ¬ (0 < B) := hB
    have hB0 : B = 0 := by omega
    refine ⟨{ mixBuffer := mix, tempBuffer := temp, internal := internal, decoder := dec,
              dstBaseFrame := 0, fired := fired }, ?_, ?_, fun _ _ _ _ => rfl⟩
    · simp only [mixStream, mixLoop, if_neg h0]
    · simp [hB0]

/-- C21: with a sink callback installed, every tick that ends hands the sink
exactly one buffer, with frame count `buffer_frames` and
`buffer_frames * channels` samples, whatever the channel table and the registry
hold; the tick does end when the registry entries are well formed and no
looping slot points to an empty decoder; with no active stream every sample of
the buffer is `0`; and a stream that does not loop ends its loop at frame
`min buffer_frames (length - pos)` and leaves every frame from there on as it
was. -/
theorem C21_delivered_buffer_shape (fuel : Nat) (m : Mixer) (cb : Nat)
    (hcb : m.g_audioCallback = some cb) :
    (∀ m1, AudioMixingTick fuel m = some m1 →
        ∃ d, m1.delivered = m.delivered ++ [d] ∧ d.frameCount = m.g_bufferSizeFrames
          ∧ d.channels = m.g_channels
          ∧ d.samples.length = m.g_bufferSizeFrames * m.g_channels)
    ∧ ((∀ key it d, m.g_streamMap key = some it → it.decoder = some d →
          d.pos ≤ d.length ∧ 1 ≤ d.channels ∧ it.channels = d.channels) →
        (∀ stream, some stream ∈ m.channel_stream → stream.loop = true →
          ∀ it d, m.g_streamMap stream.hstream = some it → it.decoder = some d →
            1 ≤ d.length) →
        2 * m.g_bufferSizeFrames + 1 ≤ fuel →
        ∃ m1, AudioMixingTick fuel m = some m1)
    ∧ (activeStreams m.channel_stream m.g_streamMap = [] →
        ∃ m1 d, AudioMixingTick fuel m = some m1 ∧ m1.delivered = m.delivered ++ [d]
          ∧ d.samples.length = m.g_bufferSizeFrames * m.g_channels
          ∧ ∀ x ∈ d.samples, x = 0)
    ∧ (∀ (stream : AltsoundStreamInfo) (internal : _internal_stream_data) (dec : Decoder)
          (mix temp : Nat → ℚ) (fired : List SyncCall), stream.loop = false →
        ∃ r, mixStream (fuel + 1) m.g_bufferSizeFrames m.g_channels m.globalVol m.masterVol
                stream internal dec mix temp fired = some r
          ∧ r.dstBaseFrame = min m.g_bufferSizeFrames (dec.length - dec.pos)
          ∧ ∀ k ch, ch < m.g_channels → min m.g_bufferSizeFrames (dec.length - dec.pos) ≤ k →
              r.mixBuffer (k * m.g_channels + ch) = mix (k * m.g_channels + ch)) := by
  refine ⟨?_, ?_, ?_, ?_⟩
  · intro m1 ht
    obtain ⟨d, h1, h2, h3, _, h5⟩ := tick_delivers fuel m m1 cb hcb ht
    exact ⟨d, h1, h2, h3, h5⟩
  · exact fun hwf hloop hfuel => tick_returns fuel m hwf hloop hfuel
  · exact fun hnone => tick_silent fuel m cb hcb hnone
  · intro stream internal dec mix temp fired hloop
    exact mixStream_nonloop_tail fuel _ _ _ _ stream internal dec mix temp fired hloop

/-- C21 at a mixer with a buffer of four stereo frames and one stream that does
not loop and has two frames left: the tick ends and hands the sink one buffer
of eight samples. -/
theorem C21_delivered_buffer_shape_witness :
    ∃ m1 d,
      AudioMixingTick 9
        { initMixer 44100 2 4 with
          channel_stream :=
            [some { hstream := 1, hsync := 5, gain := 1, ducking := 1, loop := false }],
          g_streamMap := fun h =>
            if h = 1 then
              some { decoder := some { pcm := fun i => (i : ℚ) + 1, length := 6, channels := 2,
                                       pos := 4 },
                     playing := true, paused := false, sample_rate := 44100, channels := 2,
                     sync_callback := some 7, sync_userdata := 9 }
            else none,
          g_audioCallback := some 3 } = some m1
      ∧ m1.delivered = [d] ∧ d.frameCount = 4 ∧ d.samples.length = 8 := by
  have hC := C21_delivered_buffer_shape 9
    { initMixer 44100 2 4 with
      channel_stream :=
        [some { hstream := 1, hsync := 5, gain := 1, ducking := 1, loop := false }],
      g_streamMap := fun h =>
        if h = 1 then
          some { decoder := some { pcm := fun i => (i : ℚ) + 1, length := 6, channels := 2,
                                   pos := 4 },
                 playing := true, paused := false, sample_rate := 44100, channels := 2,
                 sync_callback := some 7, sync_userdata := 9 }
        else none,
      g_audioCallback := some 3 } 3 rfl
  obtain ⟨m1, hm1⟩ := hC.2.1
    (by
      intro key it d hit hd
      simp only at hit
      split_ifs at hit
      simp only [Option.some.injEq] at hit
      subst hit
      simp only [Option.some.injEq] at hd
      subst hd
      exact ⟨by decide, by decide, rfl⟩)
    (by
      intro stream hmem hl
      simp only [List.mem_singleton, Option.some.injEq] at hmem
      subst hmem
      cases hl)
    (by decide)
  obtain ⟨d, h1, h2, _, h4⟩ := hC.1 m1 hm1
  exact ⟨m1, d, hm1, h1, h2, h4⟩

/-- The snapshot does not see a registry entry that is not playing or is paused:
it is the same with the entry taken out of the registry. -/
theorem activeStreams_without (channel_stream : List (Option AltsoundStreamInfo))
    (g_streamMap : Nat → Option _internal_stream_data) (h : Nat)
    (hin : ∀ e, g_streamMap h = some e → e.playing = false ∨ e.paused = true) :
    activeStreams channel_stream (Function.update g_streamMap h none)
      = activeStreams channel_stream g_streamMap := by
  unfold activeStreams
  apply List.filterMap_congr
  intro slot _
  cases slot with
  | none => rfl
  | some stream =>
    simp only
    by_cases hk : stream.hstream = h
    · rw [hk, Function.update_same]
      cases hmap : g_streamMap h with
      | none => rfl
      | some it =>
        simp only
        have hno : ¬ (it.decoder.isSome = true ∧ it.playing = true ∧ it.paused = false) := by
          rintro ⟨_, hplay, hpause⟩
          rcases hin it hmap with h1 | h1
          · rw [h1] at hplay
            cases hplay
          · rw [h1] at hpause
            cases hpause
        rw [if_neg hno]
    · rw [Function.update_noteq hk]

/-- The loop over the active streams does not read a registry entry whose key
is not in the snapshot: with another value under that key it runs the same
way. -/
theorem mixActive_congr (fuel B outCh : Nat) (globalVol masterVol : ℚ) (h : Nat)
    (x : Option _internal_stream_data) :
    ∀ (l : List (AltsoundStreamInfo × Nat)) (t : TickState),
      (∀ p ∈ l, p.2 ≠ h) →
      mixActive fuel B outCh globalVol masterVol l
          { t with g_streamMap := Function.update t.g_streamMap h x }
        = (mixActive fuel B outCh globalVol masterVol l t).map
            (fun r => { r with g_streamMap := Function.update r.g_streamMap h x }) := by
  intro l
  induction l with
  | nil =>
    intro t _
    rfl
  | cons p rest ih =>
    intro t hk
    obtain ⟨stream, key⟩ := p
    have hkey : key ≠ h := hk (stream, key) (List.mem_cons_self _ _)
    have hrest : ∀ p ∈ rest, p.2 ≠ h := fun p hp => hk p (List.mem_cons_of_mem _ hp)
    simp only [mixActive]
    rw [Function.update_noteq hkey]
    cases hmap : t.g_streamMap key with
    | none => exact ih t hrest
    | some internal =>
      simp only
      cases hdec : internal.decoder with
      | none => exact ih t hrest
      | some decoder =>
        simp only
        cases hmix : mixStream fuel B outCh globalVol masterVol stream internal decoder
            t.mixBuffer t.tempBuffer t.fired with
        | none => rfl
        | some r =>
          simp only
          rw [Function.update_comm (Ne.symm hkey)]
          exact ih
            { g_streamMap :=
                Function.update t.g_streamMap key
                  (some { r.internal with decoder := some r.decoder }),
              mixBuffer := r.mixBuffer, tempBuffer := r.tempBuffer, fired := r.fired } hrest

/-- A registry entry that is not playing or is paused contributes nothing to a
tick: the buffers handed to the sink are those of the same tick with the entry
taken out of the registry. -/
theorem tick_without (fuel : Nat) (m : Mixer) (h : Nat)
    (hin : ∀ e, m.g_streamMap h = some e → e.playing = false ∨ e.paused = true) :
    (AudioMixingTick fuel { m with g_streamMap := Function.update m.g_streamMap h none }).map
        (fun r => r.delivered)
      = (AudioMixingTick fuel m).map (fun r => r.delivered) := by
  unfold AudioMixingTick
  simp only
  rw [activeStreams_without _ _ h hin]
  have hc := mixActive_congr fuel m.g_bufferSizeFrames m.g_channels m.globalVol m.masterVol h
    none (activeStreams m.channel_stream m.g_streamMap)
    { g_streamMap := m.g_streamMap, mixBuffer := fun _ => 0, tempBuffer := m.tempBuffer,
      fired := m.fired } (activeStreams_inactive _ _ h hin)
  simp only at hc
  rw [hc]
  cases mixActive fuel m.g_bufferSizeFrames m.g_channels m.globalVol m.masterVol
      (activeStreams m.channel_stream m.g_streamMap)
      { g_streamMap := m.g_streamMap, mixBuffer := fun _ => 0, tempBuffer := m.tempBuffer,
        fired := m.fired } with
  | none => rfl
  | some t => rfl

/-- C27: a stream whose registry entry has the paused flag set keeps its entry,
decoder position included, over any number of ticks; the snapshot of a tick
holds only streams that sit in a slot and are registered with playing set and
paused clear, so never the paused one, and the buffer a tick hands to the sink
is the one it would hand over with the paused entry taken out of the registry;
`MiniAudio_ChannelPause` only sets the paused flag and
`MiniAudio_ChannelPlay(h, false)` only sets playing and clears paused, so
the decoder is where it was. -/
theorem C27_paused_stream_keeps_position (fuel n : Nat) (m m1 : Mixer) (h : Nat)
    (e : _internal_stream_data) (he : m.g_streamMap h = some e) (hp : e.paused = true)
    (ht : AudioMixingTicks fuel n m = some m1) :
    m1.g_streamMap h = some e
    ∧ (∀ p ∈ activeStreams m.channel_stream m.g_streamMap,
        p.2 ≠ h ∧ some p.1 ∈ m.channel_stream ∧ p.2 = p.1.hstream
          ∧ ∃ it, m.g_streamMap p.2 = some it ∧ it.playing = true ∧ it.paused = false)
    ∧ (AudioMixingTick fuel { m with g_streamMap := Function.update m.g_streamMap h none }).map
          (fun r => r.delivered)
        = (AudioMixingTick fuel m).map (fun r => r.delivered)
    ∧ (h ≠ MINIAUDIO_NO_STREAM →
        (MiniAudio_ChannelPlay m1 h false).1.g_streamMap h
          = some { e with playing := true, paused := false })
    ∧ (∀ (m0 : Mixer) (e0 : _internal_stream_data), h ≠ MINIAUDIO_NO_STREAM →
        m0.g_streamMap h = some e0 →
        (MiniAudio_ChannelPause m0 h).1.g_streamMap h = some { e0 with paused := true }) := by
  have hin : ∀ e1, m.g_streamMap h = some e1 → e1.playing = false ∨ e1.paused = true := by
    intro e1 he1
    rw [he] at he1
    cases he1
    exact Or.inr hp
  have hkeep : m1.g_streamMap h = some e := by
    rw [(ticks_inactive fuel h n m m1 hin ht).1, he]
  refine ⟨hkeep, ?_, tick_without fuel m h hin, ?_, ?_⟩
  · intro p hpm
    obtain ⟨a1, a2, _, it, a4, _, a6, a7⟩ := activeStreams_mem _ _ p hpm
    exact ⟨activeStreams_inactive _ _ h hin p hpm, a1, a2, it, a4, a6, a7⟩
  · intro h0
    simp only [MiniAudio_ChannelPlay, if_neg h0, hkeep, Function.update_same]
    cases e.decoder <;> rfl
  · intro m0 e0 h0 he0
    simp only [MiniAudio_ChannelPause, if_neg h0, he0, Function.update_same]

/-- C27 at a stream paused at frame `1` of four, in slot `0` of a mixer with a
buffer of four frames: after three ticks its entry is as it was, and resuming
it leaves the decoder at frame `1`. -/
theorem C27_paused_stream_keeps_position_witness :
    ∃ m1,
      AudioMixingTicks 9 3
        { initMixer 44100 2 4 with
          channel_stream :=
            [some { hstream := 1, hsync := 5, gain := 1, ducking := 1, loop := false }],
          g_streamMap := fun h =>
            if h = 1 then
              some { decoder := some { pcm := fun i => (i : ℚ) + 1, length := 4, channels := 2,
                                       pos := 1 },
                     playing := true, paused := true, sample_rate := 44100, channels := 2,
                     sync_callback := some 7, sync_userdata := 9 }
            else none,
          g_audioCallback := some 3 } = some m1
      ∧ ((MiniAudio_ChannelPlay m1 1 false).1.g_streamMap 1).map
          (fun e => (e.playing, e.paused, e.decoder.map (fun d => d.pos)))
        = some (true, false, some 1) := by
  refine ⟨_, rfl, ?_⟩
  rw [(C27_paused_stream_keeps_position 9 3
    { initMixer 44100 2 4 with
      channel_stream :=
        [some { hstream := 1, hsync := 5, gain := 1, ducking := 1, loop := false }],
      g_streamMap := fun h =>
        if h = 1 then
          some { decoder := some { pcm := fun i => (i : ℚ) + 1, length := 4, channels := 2,
                                   pos := 1 },
                 playing := true, paused := true, sample_rate := 44100, channels := 2,
                 sync_callback := some 7, sync_userdata := 9 }
        else none,
      g_audioCallback := some 3 } _ 1
    { decoder := some { pcm := fun i => (i : ℚ) + 1, length := 4, channels := 2, pos := 1 },
      playing := true, paused := true, sample_rate := 44100, channels := 2,
      sync_callback := some 7, sync_userdata := 9 } rfl rfl rfl).2.2.2.1 (by decide)]
  rfl

/-- The registry functions fire no callback. -/
theorem applyOp_fired (m : Mixer) (op : RegistryOp) : (applyOp m op).1.fired = m.fired := by
  cases op with
  | create file result decoder =>
    simp only [applyOp, MiniAudio_StreamCreateFile]
    cases file with
    | none => rfl
    | some f =>
      simp only
      by_cases hr : result ≠ MA_SUCCESS
      · rw [if_pos hr]
      · rw [if_neg hr]
  | setSync hstream type proc user =>
    simp only [applyOp, MiniAudio_ChannelSetSync]
    cases proc with
    | none => rfl
    | some p =>
      simp only
      by_cases h0 : hstream = MINIAUDIO_NO_STREAM
      · rw [if_pos h0]
      · rw [if_neg h0]
        cases m.g_streamMap hstream with
        | none => rfl
        | some it =>
          simp only
          by_cases ht : type &&& MINIAUDIO_SYNC_END ≠ 0
          · rw [if_pos ht]
          · rw [if_neg ht]
  | play hstream restart =>
    simp only [applyOp, MiniAudio_ChannelPlay]
    by_cases h0 : hstream = MINIAUDIO_NO_STREAM
    · rw [if_pos h0]
    · rw [if_neg h0]
      cases m.g_streamMap hstream with
      | none => rfl
      | some it => rfl
  | pause hstream =>
    simp only [applyOp, MiniAudio_ChannelPause]
    by_cases h0 : hstream = MINIAUDIO_NO_STREAM
    · rw [if_pos h0]
    · rw [if_neg h0]
      cases m.g_streamMap hstream with
      | none => rfl
      | some it => rfl
  | stop hstream =>
    simp only [applyOp, MiniAudio_ChannelStop]
    by_cases h0 : hstream = MINIAUDIO_NO_STREAM
    · rw [if_pos h0]
    · rw [if_neg h0]
      cases m.g_streamMap hstream with
      | none => rfl
      | some it => rfl
  | free hstream =>
    simp only [applyOp, MiniAudio_StreamFree]
    by_cases h0 : hstream = MINIAUDIO_NO_STREAM
    · rw [if_pos h0]
    · rw [if_neg h0]
      cases m.g_streamMap hstream with
      | none => rfl
      | some it => rfl

/-- C26, the claim as stated fails: a stream of two frames that does not loop is
created, put in slot `0`, given an end-of-stream callback and played; the
second tick reads no frame and fires the callback; `MiniAudio_ChannelPlay(1,
false)`, which is what the global resume calls on every slot, sets it playing
again, and the third tick fires the callback a second time. -/
theorem C26_counterexample :
    ((AudioMixingTicks 1 2
        (MiniAudio_ChannelPlay
          (MiniAudio_ChannelSetSync
            { (MiniAudio_StreamCreateFile (initMixer 44100 2 4) (some 0) MA_SUCCESS
                { pcm := fun i => (i : ℚ) + 1, length := 2, channels := 2, pos := 0 }).1 with
              channel_stream :=
                [some { hstream := 1, hsync := 1, gain := 1, ducking := 1, loop := false }] }
            1 MINIAUDIO_SYNC_END (some 7) 9).1
          1 false).1).bind
      (fun m2 => AudioMixingTick 1 (MiniAudio_ChannelPlay m2 1 false).1)).map
        (fun m3 => m3.fired)
      = some [{ proc := 7, hsync := 1, hstream := 1, data := 0, user := 9 },
              { proc := 7, hsync := 1, hstream := 1, data := 0, user := 9 }] := by
  decide

/-- C26 (as the code has it): the registry functions fire no callback; the
per-stream loop of a tick fires the callback of its stream at most once, and
only when the slot's loop flag is false and the read returned no frame (the
decoder is at its end), clearing the playing flag in the same step; every
callback a tick fires is for a slot whose stream does not loop and whose
entry was playing and unpaused before the tick and is not playing after it;
and while an entry is not playing, any number of ticks leave it as it is and
fire no callback for its handle.  So two firings for one handle have a
`MiniAudio_ChannelPlay` of that handle, or a second slot with the handle,
between them. -/
theorem C26_end_callback_once_per_play (fuel : Nat) :
    (∀ (m : Mixer) (op : RegistryOp), (applyOp m op).1.fired = m.fired)
    ∧ (∀ (B outCh : Nat) (globalVol masterVol : ℚ) (stream : AltsoundStreamInfo)
          (internal : _internal_stream_data) (dec : Decoder) (mix temp : Nat → ℚ)
          (fired : List SyncCall) (r : MixState),
        mixStream fuel B outCh globalVol masterVol stream internal dec mix temp fired = some r →
        (r.internal = internal ∧ r.fired = fired)
        ∨ (stream.loop = false ∧ r.decoder.length ≤ r.decoder.pos
            ∧ r.internal = { internal with playing := false }
            ∧ r.fired = fired ++
                (match internal.sync_callback with
                 | some proc =>
                   [{ proc := proc, hsync := stream.hsync, hstream := stream.hstream,
                      data := 0, user := internal.sync_userdata }]
                 | none => [])))
    ∧ (∀ (m m1 : Mixer), AudioMixingTick fuel m = some m1 →
        ∃ extra, m1.fired = m.fired ++ extra
          ∧ ∀ c ∈ extra, ∃ stream, some stream ∈ m.channel_stream ∧ stream.loop = false
              ∧ c.hstream = stream.hstream
              ∧ (∃ it, m.g_streamMap stream.hstream = some it ∧ it.playing = true
                  ∧ it.paused = false)
              ∧ ∃ it1, m1.g_streamMap stream.hstream = some it1 ∧ it1.playing = false)
    ∧ (∀ (n : Nat) (m m1 : Mixer) (h : Nat),
        (∀ e, m.g_streamMap h = some e → e.playing = false) →
        AudioMixingTicks fuel n m = some m1 →
        m1.g_streamMap h = m.g_streamMap h
          ∧ ∃ extra, m1.fired = m.fired ++ extra ∧ ∀ c ∈ extra, c.hstream ≠ h) := by
  refine ⟨applyOp_fired, ?_, ?_, ?_⟩
  · intro B outCh globalVol masterVol stream internal dec mix temp fired r hr
    exact (mixLoop_inv B outCh internal.channels
      (stream.gain * stream.ducking * globalVol * masterVol) stream fuel _ r
      (Nat.zero_le _) hr).2.2.2.2
  · intro m m1 ht
    exact (tick_fired fuel m m1 ht).2.2
  · intro n m m1 h hin ht
    obtain ⟨h1, _, h3⟩ := ticks_inactive fuel h n m m1 (fun e he => Or.inl (hin e he)) ht
    exact ⟨h1, h3⟩

/-- C26 (as the code has it) at the stream of the counterexample: the two ticks
after its creation fire the callback once, and three more ticks without a
`MiniAudio_ChannelPlay` fire nothing. -/
theorem C26_end_callback_once_per_play_witness :
    ∃ m2 m5,
      AudioMixingTicks 1 2
        (MiniAudio_ChannelPlay
          (MiniAudio_ChannelSetSync
            { (MiniAudio_StreamCreateFile (initMixer 44100 2 4) (some 0) MA_SUCCESS
                { pcm := fun i => (i : ℚ) + 1, length := 2, channels := 2, pos := 0 }).1 with
              channel_stream :=
                [some { hstream := 1, hsync := 1, gain := 1, ducking := 1, loop := false }] }
            1 MINIAUDIO_SYNC_END (some 7) 9).1
          1 false).1 = some m2
      ∧ m2.fired = [{ proc := 7, hsync := 1, hstream := 1, data := 0, user := 9 }]
      ∧ AudioMixingTicks 1 3 m2 = some m5
      ∧ ∃ extra, m5.fired = m2.fired ++ extra ∧ ∀ c ∈ extra, c.hstream ≠ 1 := by
  refine ⟨_, _, rfl, by decide, rfl, ?_⟩
  refine ((C26_end_callback_once_per_play 1).2.2.2 3 _ _ 1 ?_ ?_).2
  · intro e he
    have h1 : e = { decoder := some { pcm := fun i => (i : ℚ) + 1, length := 2,
                                       channels := 2, pos := 2 },
                    playing := false, paused := false, sample_rate := 44100, channels := 2,
                    sync_callback := some 7, sync_userdata := 9 } :=
      (Option.some.inj he).symm
    rw [h1]
  · rfl

/-! ## The registry functions -/

/-- What a registry call does to `g_nextStreamId`: a successful create advances
it by one modulo `2^32`, every other call leaves it. -/
theorem applyOp_next (m : Mixer) (op : RegistryOp) :
    (applyOp m op).1.g_nextStreamId
      = if successfulCreates [op] = 1 then (m.g_nextStreamId + 1) % 4294967296
        else m.g_nextStreamId := by
  cases op with
  | create file result decoder =>
    simp only [applyOp, MiniAudio_StreamCreateFile, successfulCreates]
    cases file with
    | none => rfl
    | some f =>
      simp only
      by_cases hr : result = MA_SUCCESS
      · have hn : ¬ (result ≠ MA_SUCCESS) := fun h => h hr
        simp only [if_neg hn, if_pos hr, Nat.zero_add, if_true]
      · have hn : result ≠ MA_SUCCESS := hr
        have h01 : ¬ ((0 : Nat) = 1) := by decide
        simp only [if_pos hn, if_neg hr, if_neg h01]
  | setSync hstream type proc user =>
    simp only [applyOp, MiniAudio_ChannelSetSync, successfulCreates]
    cases proc with
    | none => rfl
    | some p =>
      simp only
      by_cases h0 : hstream = MINIAUDIO_NO_STREAM
      · rw [if_pos h0]
        rfl
      · rw [if_neg h0]
        cases m.g_streamMap hstream with
        | none => rfl
        | some it =>
          simp only
          by_cases ht : type &&& MINIAUDIO_SYNC_END ≠ 0
          · rw [if_pos ht]
            rfl
          · rw [if_neg ht]
            rfl
  | play hstream restart =>
    simp only [applyOp, MiniAudio_ChannelPlay, successfulCreates]
    by_cases h0 : hstream = MINIAUDIO_NO_STREAM
    · rw [if_pos h0]
      rfl
    · rw [if_neg h0]
      cases m.g_streamMap hstream with
      | none => rfl
      | some it => rfl
  | pause hstream =>
    simp only [applyOp, MiniAudio_ChannelPause, successfulCreates]
    by_cases h0 : hstream = MINIAUDIO_NO_STREAM
    · rw [if_pos h0]
      rfl
    · rw [if_neg h0]
      cases m.g_streamMap hstream with
      | none => rfl
      | some it => rfl
  | stop hstream =>
    simp only [applyOp, MiniAudio_ChannelStop, successfulCreates]
    by_cases h0 : hstream = MINIAUDIO_NO_STREAM
    · rw [if_pos h0]
      rfl
    · rw [if_neg h0]
      cases m.g_streamMap hstream with
      | none => rfl
      | some it => rfl
  | free hstream =>
    simp only [applyOp, MiniAudio_StreamFree, successfulCreates]
    by_cases h0 : hstream = MINIAUDIO_NO_STREAM
    · rw [if_pos h0]
      rfl
    · rw [if_neg h0]
      cases m.g_streamMap hstream with
      | none => rfl
      | some it => rfl

theorem successfulCreates_cons (op : RegistryOp) (ops : List RegistryOp) :
    successfulCreates (op :: ops) = successfulCreates [op] + successfulCreates ops := by
  cases op with
  | create file result decoder =>
    cases file with
    | none => simp [successfulCreates]
    | some f =>
      by_cases hr : result = MA_SUCCESS
      · simp [successfulCreates, hr]
        omega
      · simp [successfulCreates, hr]
  | setSync hstream type proc user => simp [successfulCreates]
  | play hstream restart => simp [successfulCreates]
  | pause hstream => simp [successfulCreates]
  | stop hstream => simp [successfulCreates]
  | free hstream => simp [successfulCreates]

theorem successfulCreates_le_one (op : RegistryOp) : successfulCreates [op] ≤ 1 := by
  cases op with
  | create file result decoder =>
    cases file with
    | none => simp [successfulCreates]
    | some f =>
      by_cases hr : result = MA_SUCCESS
      · simp [successfulCreates, hr]
      · simp [successfulCreates, hr]
  | setSync hstream type proc user => simp [successfulCreates]
  | play hstream restart => simp [successfulCreates]
  | pause hstream => simp [successfulCreates]
  | stop hstream => simp [successfulCreates]
  | free hstream => simp [successfulCreates]

theorem successfulCreates_append (l1 l2 : List RegistryOp) :
    successfulCreates (l1 ++ l2) = successfulCreates l1 + successfulCreates l2 := by
  induction l1 with
  | nil => simp [successfulCreates]
  | cons op ops ih =>
    rw [List.cons_append, successfulCreates_cons, ih, successfulCreates_cons op ops]
    omega

/-- The handles of the successful creates of a sequence: the first is
`g_nextStreamId`, and each next one is the one before plus one modulo `2^32`. -/
theorem createdHandles_eq :
    ∀ (ops : List RegistryOp) (m : Mixer), m.g_nextStreamId < 4294967296 →
      createdHandles m ops
        = (List.range (successfulCreates ops)).map
            (fun i => (m.g_nextStreamId + i) % 4294967296) := by
  intro ops
  induction ops with
  | nil =>
    intro m _
    rfl
  | cons op ops ih =>
    intro m hm
    have hnext := applyOp_next m op
    have hlt : (applyOp m op).1.g_nextStreamId < 4294967296 := by
      rw [hnext]
      split_ifs
      · exact Nat.mod_lt _ (by decide)
      · exact hm
    have hih := ih (applyOp m op).1 hlt
    rw [successfulCreates_cons]
    have hle := successfulCreates_le_one op
    by_cases h1 : successfulCreates [op] = 1
    · rw [if_pos h1] at hnext
      have hcons : createdHandles m (op :: ops)
          = m.g_nextStreamId :: createdHandles (applyOp m op).1 ops := by
        cases op with
        | create file result decoder =>
          cases file with
          | none => simp [successfulCreates] at h1
          | some f =>
            by_cases hr : result = MA_SUCCESS
            · have hn : ¬ (result ≠ MA_SUCCESS) := fun h => h hr
              simp only [createdHandles, if_pos hr, applyOp, MiniAudio_StreamCreateFile,
                if_neg hn]
            · simp [successfulCreates, hr] at h1
        | setSync hstream type proc user => simp [successfulCreates] at h1
        | play hstream restart => simp [successfulCreates] at h1
        | pause hstream => simp [successfulCreates] at h1
        | stop hstream => simp [successfulCreates] at h1
        | free hstream => simp [successfulCreates] at h1
      rw [hcons, hih, hnext, h1, Nat.add_comm 1, List.range_succ_eq_map, List.map_cons,
        List.map_map]
      congr 1
      · rw [Nat.add_zero, Nat.mod_eq_of_lt hm]
      · apply List.map_congr_left
        intro i _
        simp only [Function.comp]
        rw [Nat.add_mod, Nat.mod_mod, ← Nat.add_mod]
        congr 1
        omega
    · have h0 : successfulCreates [op] = 0 := by omega
      rw [if_neg h1] at hnext
      have hcons : createdHandles m (op :: ops) = createdHandles (applyOp m op).1 ops := by
        cases op with
        | create file result decoder =>
          cases file with
          | none => rfl
          | some f =>
            by_cases hr : result = MA_SUCCESS
            · simp [successfulCreates, hr] at h0
            · simp only [createdHandles, if_neg hr]
        | setSync hstream type proc user => rfl
        | play hstream restart => rfl
        | pause hstream => rfl
        | stop hstream => rfl
        | free hstream => rfl
      rw [hcons, hih, hnext, h0, Nat.zero_add]

/-- A run of `n` rounds, each a successful create followed by a free, holds `n`
successful creates. -/
theorem successfulCreates_rounds (decoder : Decoder) (g : Nat → Nat) (n : Nat) :
    successfulCreates ((List.range n).flatMap (fun i =>
      [RegistryOp.create (some 0) MA_SUCCESS decoder, RegistryOp.free (g i)])) = n := by
  induction n with
  | zero => rfl
  | succ n ih =>
    rw [List.range_succ, List.flatMap_append, successfulCreates_append, ih]
    simp [successfulCreates]

/-- C28, the claim as stated fails: `g_nextStreamId` is a `uint32_t`.  From the
state init leaves, in a run of rounds that each create a stream and free it,
the first create returns `1`, the 4294967296th returns `0`, the no-stream
handle, which is not greater than the handles before it, and the next returns
`1` again, the handle of the first, freed stream. -/
theorem C28_counterexample :
    (createdHandles (initMixer 44100 2 256)
        ((List.range 4294967297).flatMap (fun i =>
          [RegistryOp.create (some 0) MA_SUCCESS
              { pcm := fun _ => 0, length := 1, channels := 2, pos := 0 },
           RegistryOp.free ((1 + i) % 4294967296)])))[0]? = some 1
    ∧ (createdHandles (initMixer 44100 2 256)
        ((List.range 4294967297).flatMap (fun i =>
          [RegistryOp.create (some 0) MA_SUCCESS
              { pcm := fun _ => 0, length := 1, channels := 2, pos := 0 },
           RegistryOp.free ((1 + i) % 4294967296)])))[4294967295]? = some MINIAUDIO_NO_STREAM
    ∧ (createdHandles (initMixer 44100 2 256)
        ((List.range 4294967297).flatMap (fun i =>
          [RegistryOp.create (some 0) MA_SUCCESS
              { pcm := fun _ => 0, length := 1, channels := 2, pos := 0 },
           RegistryOp.free ((1 + i) % 4294967296)])))[4294967296]? = some 1 := by
  have hlt : (initMixer 44100 2 256).g_nextStreamId < 4294967296 := by decide
  rw [createdHandles_eq _ _ hlt, successfulCreates_rounds]
  have h0 : (0 : Nat) < 4294967297 := by decide
  have h1 : (4294967295 : Nat) < 4294967297 := by decide
  have h2 : (4294967296 : Nat) < 4294967297 := by decide
  rw [List.getElem?_map, List.getElem?_map, List.getElem?_map, List.getElem?_range h0,
    List.getElem?_range h1, List.getElem?_range h2]
  exact ⟨rfl, by decide, by decide⟩

/-- C28 (as the code has it): while fewer than `2^32` handles have been used up,
that is `g_nextStreamId` is at least `1` and below `2^32` and `g_nextStreamId`
plus the number of successful creates of the sequence is at most `2^32`, the
handles the
successful creates return, in order, are strictly increasing, each at least
`1` and below `2^32`; the first is `g_nextStreamId`.  A create that fails (null
file, or decoder open failure) returns the no-stream handle, adds no registry
entry and leaves `g_nextStreamId` as it is. -/
theorem C28_handles_increase_below_wrap (m : Mixer) (ops : List RegistryOp)
    (h1 : 1 ≤ m.g_nextStreamId) (h2 : m.g_nextStreamId < 4294967296)
    (hb : m.g_nextStreamId + successfulCreates ops ≤ 4294967296) :
    List.Pairwise (fun a b => a < b) (createdHandles m ops)
    ∧ (createdHandles m ops).length = successfulCreates ops
    ∧ (∀ h ∈ createdHandles m ops,
        MINIAUDIO_NO_STREAM < h ∧ m.g_nextStreamId ≤ h ∧ h < 4294967296)
    ∧ (∀ (m0 : Mixer) (file : Option Nat) (result : Int) (decoder : Decoder),
        file = none ∨ result ≠ MA_SUCCESS →
        (MiniAudio_StreamCreateFile m0 file result decoder).2 = MINIAUDIO_NO_STREAM
        ∧ (MiniAudio_StreamCreateFile m0 file result decoder).1.g_streamMap = m0.g_streamMap
        ∧ (MiniAudio_StreamCreateFile m0 file result decoder).1.g_nextStreamId
            = m0.g_nextStreamId) := by
  have hform : createdHandles m ops
      = (List.range (successfulCreates ops)).map (fun i => m.g_nextStreamId + i) := by
    rw [createdHandles_eq ops m h2]
    apply List.map_congr_left
    intro i hi
    exact Nat.mod_eq_of_lt (by have := List.mem_range.mp hi; omega)
  refine ⟨?_, ?_, ?_, ?_⟩
  · rw [hform, List.pairwise_map]
    exact (List.pairwise_lt_range _).imp (by intro a b h; omega)
  · rw [hform, List.length_map, List.length_range]
  · intro h hh
    rw [hform, List.mem_map] at hh
    obtain ⟨i, hi, rfl⟩ := hh
    have := List.mem_range.mp hi
    unfold MINIAUDIO_NO_STREAM
    omega
  · intro m0 file result decoder hfail
    cases file with
    | none => exact ⟨rfl, rfl, rfl⟩
    | some f =>
      rcases hfail with hf | hr
      · cases hf
      · simp only [MiniAudio_StreamCreateFile, if_pos hr]
        exact ⟨trivial, trivial, trivial⟩

/-- C28 (as the code has it) from the state init leaves: a failed create, two
creates, a free of the first stream and a third create return the handles `1`,
`2` and `3`. -/
theorem C28_handles_increase_below_wrap_witness :
    List.Pairwise (fun a b => a < b)
        (createdHandles (initMixer 44100 2 256)
          [RegistryOp.create none MA_SUCCESS
              { pcm := fun _ => 0, length := 1, channels := 2, pos := 0 },
           RegistryOp.create (some 0) MA_SUCCESS
              { pcm := fun _ => 0, length := 1, channels := 2, pos := 0 },
           RegistryOp.create (some 0) MA_SUCCESS
              { pcm := fun _ => 0, length := 1, channels := 2, pos := 0 },
           RegistryOp.free 1,
           RegistryOp.create (some 0) MA_SUCCESS
              { pcm := fun _ => 0, length := 1, channels := 2, pos := 0 }])
    ∧ createdHandles (initMixer 44100 2 256)
          [RegistryOp.create none MA_SUCCESS
              { pcm := fun _ => 0, length := 1, channels := 2, pos := 0 },
           RegistryOp.create (some 0) MA_SUCCESS
              { pcm := fun _ => 0, length := 1, channels := 2, pos := 0 },
           RegistryOp.create (some 0) MA_SUCCESS
              { pcm := fun _ => 0, length := 1, channels := 2, pos := 0 },
           RegistryOp.free 1,
           RegistryOp.create (some 0) MA_SUCCESS
              { pcm := fun _ => 0, length := 1, channels := 2, pos := 0 }] = [1, 2, 3] :=
  ⟨(C28_handles_increase_below_wrap (initMixer 44100 2 256)
      [RegistryOp.create none MA_SUCCESS
          { pcm := fun _ => 0, length := 1, channels := 2, pos := 0 },
       RegistryOp.create (some 0) MA_SUCCESS
          { pcm := fun _ => 0, length := 1, channels := 2, pos := 0 },
       RegistryOp.create (some 0) MA_SUCCESS
          { pcm := fun _ => 0, length := 1, channels := 2, pos := 0 },
       RegistryOp.free 1,
       RegistryOp.create (some 0) MA_SUCCESS
          { pcm := fun _ => 0, length := 1, channels := 2, pos := 0 }]
      (by decide) (by decide) (by decide)).1, by decide⟩

theorem nullFirstSlot_length (h : Nat) :
    ∀ cs : List (Option AltsoundStreamInfo), (nullFirstSlot h cs).length = cs.length := by
  intro cs
  induction cs with
  | nil => rfl
  | cons slot rest ih =>
    cases slot with
    | none => simp only [nullFirstSlot, List.length_cons, ih]
    | some s =>
      simp only [nullFirstSlot]
      by_cases hs : s.hstream = h
      · rw [if_pos hs]
        rfl
      · rw [if_neg hs]
        simp only [List.length_cons, ih]

/-- The free loop leaves alone the slots that hold another handle. -/
theorem nullFirstSlot_other (h : Nat) :
    ∀ (cs : List (Option AltsoundStreamInfo)) (i : Nat) (s : AltsoundStreamInfo),
      cs[i]? = some (some s) → s.hstream ≠ h → (nullFirstSlot h cs)[i]? = some (some s) := by
  intro cs
  induction cs with
  | nil =>
    intro i s hi _
    simp at hi
  | cons slot rest ih =>
    intro i s hi hne
    cases slot with
    | none =>
      cases i with
      | zero => simp at hi
      | succ i =>
        simp only [nullFirstSlot, List.getElem?_cons_succ] at hi ⊢
        exact ih i s hi hne
    | some a =>
      simp only [nullFirstSlot]
      by_cases ha : a.hstream = h
      · rw [if_pos ha]
        cases i with
        | zero =>
          simp only [List.getElem?_cons_zero, Option.some.injEq] at hi
          subst hi
          exact absurd ha hne
        | succ i =>
          simp only [List.getElem?_cons_succ] at hi ⊢
          exact hi
      · rw [if_neg ha]
        cases i with
        | zero => simpa using hi
        | succ i =>
          simp only [List.getElem?_cons_succ] at hi ⊢
          exact ih i s hi hne

/-- The free loop leaves a null slot null. -/
theorem nullFirstSlot_null (h : Nat) :
    ∀ (cs : List (Option AltsoundStreamInfo)) (i : Nat),
      cs[i]? = some none → (nullFirstSlot h cs)[i]? = some none := by
  intro cs
  induction cs with
  | nil =>
    intro i hi
    simp at hi
  | cons slot rest ih =>
    intro i hi
    cases slot with
    | none =>
      cases i with
      | zero => simp [nullFirstSlot]
      | succ i =>
        simp only [nullFirstSlot, List.getElem?_cons_succ] at hi ⊢
        exact ih i hi
    | some a =>
      simp only [nullFirstSlot]
      by_cases ha : a.hstream = h
      · rw [if_pos ha]
        cases i with
        | zero => simp
        | succ i =>
          simp only [List.getElem?_cons_succ] at hi ⊢
          exact hi
      · rw [if_neg ha]
        cases i with
        | zero => simp at hi
        | succ i =>
          simp only [List.getElem?_cons_succ] at hi ⊢
          exact ih i hi

/-- The free loop nulls the first slot that holds the handle. -/
theorem nullFirstSlot_first (h : Nat) :
    ∀ (cs : List (Option AltsoundStreamInfo)) (i : Nat) (s : AltsoundStreamInfo),
      cs[i]? = some (some s) → s.hstream = h →
      (∀ j a, j < i → cs[j]? = some (some a) → a.hstream ≠ h) →
      (nullFirstSlot h cs)[i]? = some none := by
  intro cs
  induction cs with
  | nil =>
    intro i s hi _ _
    simp at hi
  | cons slot rest ih =>
    intro i s hi hs hfirst
    cases slot with
    | none =>
      cases i with
      | zero => simp at hi
      | succ i =>
        simp only [nullFirstSlot, List.getElem?_cons_succ] at hi ⊢
        exact ih i s hi hs (fun j a hj ha => hfirst (j + 1) a (by omega) (by simpa using ha))
    | some a =>
      simp only [nullFirstSlot]
      cases i with
      | zero =>
        simp only [List.getElem?_cons_zero, Option.some.injEq] at hi
        subst hi
        rw [if_pos hs]
        simp
      | succ i =>
        have ha : a.hstream ≠ h := hfirst 0 a (by omega) (by simp)
        rw [if_neg ha]
        simp only [List.getElem?_cons_succ] at hi ⊢
        exact ih i s hi hs (fun j b hj hb => hfirst (j + 1) b (by omega) (by simpa using hb))

/-- The free loop stops at the first slot that holds the handle: a later slot
that holds it too is left as it is. -/
theorem nullFirstSlot_later (h : Nat) :
    ∀ (cs : List (Option AltsoundStreamInfo)) (i : Nat) (s : AltsoundStreamInfo),
      cs[i]? = some (some s) →
      (∃ j a, j < i ∧ cs[j]? = some (some a) ∧ a.hstream = h) →
      (nullFirstSlot h cs)[i]? = some (some s) := by
  intro cs
  induction cs with
  | nil =>
    intro i s hi _
    simp at hi
  | cons slot rest ih =>
    intro i s hi hbefore
    obtain ⟨j, a, hj, hja, hah⟩ := hbefore
    cases i with
    | zero => omega
    | succ i =>
      cases slot with
      | none =>
        simp only [nullFirstSlot, List.getElem?_cons_succ] at hi ⊢
        cases j with
        | zero => simp at hja
        | succ j =>
          simp only [List.getElem?_cons_succ] at hja
          exact ih i s hi ⟨j, a, by omega, hja, hah⟩
      | some b =>
        simp only [nullFirstSlot]
        by_cases hb : b.hstream = h
        · rw [if_pos hb]
          simp only [List.getElem?_cons_succ] at hi ⊢
          exact hi
        · rw [if_neg hb]
          simp only [List.getElem?_cons_succ] at hi ⊢
          cases j with
          | zero =>
            simp only [List.getElem?_cons_zero, Option.some.injEq] at hja
            subst hja
            exact absurd hah hb
          | succ j =>
            simp only [List.getElem?_cons_succ] at hja
            exact ih i s hi ⟨j, a, by omega, hja, hah⟩

/-- Every slot that is not null after the free loop was there before it. -/
theorem nullFirstSlot_mem (h : Nat) :
    ∀ (cs : List (Option AltsoundStreamInfo)) (s : AltsoundStreamInfo),
      some s ∈ nullFirstSlot h cs → some s ∈ cs := by
  intro cs
  induction cs with
  | nil =>
    intro s hs
    simp [nullFirstSlot] at hs
  | cons slot rest ih =>
    intro s hs
    cases slot with
    | none =>
      simp only [nullFirstSlot, List.mem_cons] at hs ⊢
      rcases hs with hs | hs
      · cases hs
      · exact Or.inr (ih s hs)
    | some a =>
      simp only [nullFirstSlot] at hs
      by_cases ha : a.hstream = h
      · rw [if_pos ha] at hs
        simp only [List.mem_cons] at hs ⊢
        rcases hs with hs | hs
        · cases hs
        · exact Or.inr hs
      · rw [if_neg ha] at hs
        simp only [List.mem_cons] at hs ⊢
        rcases hs with hs | hs
        · exact Or.inl hs
        · exact Or.inr (ih s hs)

/-- A slot that holds another handle is still there after the free loop. -/
theorem nullFirstSlot_keeps (h : Nat) :
    ∀ (cs : List (Option AltsoundStreamInfo)) (s : AltsoundStreamInfo),
      some s ∈ cs → s.hstream ≠ h → some s ∈ nullFirstSlot h cs := by
  intro cs s hs hne
  obtain ⟨i, hi⟩ := List.getElem?_of_mem hs
  exact List.getElem?_mem (nullFirstSlot_other h cs i s hi hne)

/-- When at most one slot holds the handle, none does after the free loop. -/
theorem nullFirstSlot_unique (h : Nat) :
    ∀ (cs : List (Option AltsoundStreamInfo)),
      (slotsReferencing h cs).length ≤ 1 →
      ∀ s, some s ∈ nullFirstSlot h cs → s.hstream ≠ h := by
  intro cs
  induction cs with
  | nil =>
    intro _ s hs
    simp [nullFirstSlot] at hs
  | cons slot rest ih =>
    intro hcount s hs
    cases slot with
    | none =>
      simp only [nullFirstSlot, List.mem_cons] at hs
      rcases hs with hs | hs
      · cases hs
      · exact ih (by simpa [slotsReferencing] using hcount) s hs
    | some a =>
      simp only [nullFirstSlot] at hs
      by_cases ha : a.hstream = h
      · rw [if_pos ha] at hs
        simp only [List.mem_cons] at hs
        rcases hs with hs | hs
        · cases hs
        · intro hsh
          have hmem : some s ∈ slotsReferencing h rest := by
            unfold slotsReferencing
            rw [List.mem_filter]
            exact ⟨hs, by simp [hsh]⟩
          have hpos : 0 < (slotsReferencing h rest).length := List.length_pos_of_mem hmem
          have hlen : (slotsReferencing h (some a :: rest)).length
              = (slotsReferencing h rest).length + 1 := by
            simp [slotsReferencing, ha]
          omega
      · rw [if_neg ha] at hs
        simp only [List.mem_cons] at hs
        rcases hs with hs | hs
        · simp only [Option.some.injEq] at hs
          subst hs
          exact ha
        · exact ih (by simpa [slotsReferencing, ha] using hcount) s hs

/-- C29, the claim as stated fails: with handle `1` registered and held by slots
`0` and `2`, `MiniAudio_StreamFree(1)` returns success and nulls slot `0`
only; slot `2` still holds the handle, which is no longer in the registry. -/
theorem C29_counterexample :
    ((MiniAudio_StreamFree
        { initMixer 44100 2 256 with
          channel_stream :=
            [some { hstream := 1, hsync := 1, gain := 1, ducking := 1, loop := false },
             none,
             some { hstream := 1, hsync := 2, gain := 1, ducking := 1, loop := true }],
          g_streamMap := fun h =>
            if h = 1 then
              some { decoder := some { pcm := fun _ => 0, length := 4, channels := 2, pos := 0 },
                     playing := true, paused := false, sample_rate := 44100, channels := 2,
                     sync_callback := none, sync_userdata := 0 }
            else none } 1).2,
     ((MiniAudio_StreamFree
        { initMixer 44100 2 256 with
          channel_stream :=
            [some { hstream := 1, hsync := 1, gain := 1, ducking := 1, loop := false },
             none,
             some { hstream := 1, hsync := 2, gain := 1, ducking := 1, loop := true }],
          g_streamMap := fun h =>
            if h = 1 then
              some { decoder := some { pcm := fun _ => 0, length := 4, channels := 2, pos := 0 },
                     playing := true, paused := false, sample_rate := 44100, channels := 2,
                     sync_callback := none, sync_userdata := 0 }
            else none } 1).1.channel_stream).map (fun slot => slot.map (fun s => s.hstream)),
     ((MiniAudio_StreamFree
        { initMixer 44100 2 256 with
          channel_stream :=
            [some { hstream := 1, hsync := 1, gain := 1, ducking := 1, loop := false },
             none,
             some { hstream := 1, hsync := 2, gain := 1, ducking := 1, loop := true }],
          g_streamMap := fun h =>
            if h = 1 then
              some { decoder := some { pcm := fun _ => 0, length := 4, channels := 2, pos := 0 },
                     playing := true, paused := false, sample_rate := 44100, channels := 2,
                     sync_callback := none, sync_userdata := 0 }
            else none } 1).1.g_streamMap 1).isSome)
      = (1, [none, none, some 1], false) := by
  decide

/-- C29 (as the code has it): for a registered handle `h` other than the
no-stream handle, `MiniAudio_StreamFree(h)` returns success; `h` is no longer
in the registry and every other registry entry is as it was; the channel table
keeps its length, the first slot that holds `h` is nulled, and every other
slot, a later slot holding `h` included, is as it was.  When at most one slot
holds `h`, no slot holds it afterwards. -/
theorem C29_free_nulls_first_slot (m : Mixer) (h : Nat) (e : _internal_stream_data)
    (h0 : h ≠ MINIAUDIO_NO_STREAM) (he : m.g_streamMap h = some e) :
    (MiniAudio_StreamFree m h).2 = 1
    ∧ (MiniAudio_StreamFree m h).1.g_streamMap h = none
    ∧ (∀ k, k ≠ h → (MiniAudio_StreamFree m h).1.g_streamMap k = m.g_streamMap k)
    ∧ (MiniAudio_StreamFree m h).1.channel_stream.length = m.channel_stream.length
    ∧ (∀ (i : Nat) (s : AltsoundStreamInfo), m.channel_stream[i]? = some (some s) → s.hstream ≠ h →
        (MiniAudio_StreamFree m h).1.channel_stream[i]? = some (some s))
    ∧ (∀ (i : Nat), m.channel_stream[i]? = some none →
        (MiniAudio_StreamFree m h).1.channel_stream[i]? = some none)
    ∧ (∀ (i : Nat) (s : AltsoundStreamInfo), m.channel_stream[i]? = some (some s) → s.hstream = h →
        (∀ (j : Nat) (a : AltsoundStreamInfo), j < i → m.channel_stream[j]? = some (some a) → a.hstream ≠ h) →
        (MiniAudio_StreamFree m h).1.channel_stream[i]? = some none)
    ∧ (∀ (i : Nat) (s : AltsoundStreamInfo), m.channel_stream[i]? = some (some s) →
        (∃ (j : Nat) (a : AltsoundStreamInfo), j < i ∧ m.channel_stream[j]? = some (some a) ∧ a.hstream = h) →
        (MiniAudio_StreamFree m h).1.channel_stream[i]? = some (some s))
    ∧ ((slotsReferencing h m.channel_stream).length ≤ 1 →
        ∀ s, some s ∈ (MiniAudio_StreamFree m h).1.channel_stream → s.hstream ≠ h) := by
  have hfree : MiniAudio_StreamFree m h
      = ({ m with
            g_streamMap := Function.update m.g_streamMap h none,
            channel_stream := nullFirstSlot h m.channel_stream,
            g_last_ma_err := MA_SUCCESS }, 1) := by
    simp only [MiniAudio_StreamFree, if_neg h0, he]
  rw [hfree]
  refine ⟨rfl, Function.update_same _ _ _, fun k hk => Function.update_noteq hk _ _,
    nullFirstSlot_length h _, nullFirstSlot_other h _, nullFirstSlot_null h _,
    nullFirstSlot_first h _, nullFirstSlot_later h _, nullFirstSlot_unique h _⟩

/-- C29 (as the code has it) at a table whose slot `1` alone holds handle `2`:
the free returns success, handle `2` is no longer in the registry and slot `1`
is null. -/
theorem C29_free_nulls_first_slot_witness :
    (MiniAudio_StreamFree
        { initMixer 44100 2 256 with
          channel_stream :=
            [some { hstream := 1, hsync := 1, gain := 1, ducking := 1, loop := false },
             some { hstream := 2, hsync := 2, gain := 1, ducking := 1, loop := true }],
          g_streamMap := fun h =>
            if h = 1 ∨ h = 2 then
              some { decoder := some { pcm := fun _ => 0, length := 4, channels := 2, pos := 0 },
                     playing := true, paused := false, sample_rate := 44100, channels := 2,
                     sync_callback := none, sync_userdata := 0 }
            else none } 2).2 = 1
    ∧ (MiniAudio_StreamFree
        { initMixer 44100 2 256 with
          channel_stream :=
            [some { hstream := 1, hsync := 1, gain := 1, ducking := 1, loop := false },
             some { hstream := 2, hsync := 2, gain := 1, ducking := 1, loop := true }],
          g_streamMap := fun h =>
            if h = 1 ∨ h = 2 then
              some { decoder := some { pcm := fun _ => 0, length := 4, channels := 2, pos := 0 },
                     playing := true, paused := false, sample_rate := 44100, channels := 2,
                     sync_callback := none, sync_userdata := 0 }
            else none } 2).1.g_streamMap 2 = none
    ∧ (MiniAudio_StreamFree
        { initMixer 44100 2 256 with
          channel_stream :=
            [some { hstream := 1, hsync := 1, gain := 1, ducking := 1, loop := false },
             some { hstream := 2, hsync := 2, gain := 1, ducking := 1, loop := true }],
          g_streamMap := fun h =>
            if h = 1 ∨ h = 2 then
              some { decoder := some { pcm := fun _ => 0, length := 4, channels := 2, pos := 0 },
                     playing := true, paused := false, sample_rate := 44100, channels := 2,
                     sync_callback := none, sync_userdata := 0 }
            else none } 2).1.channel_stream[1]? = some none := by
  have hC := C29_free_nulls_first_slot
    { initMixer 44100 2 256 with
      channel_stream :=
        [some { hstream := 1, hsync := 1, gain := 1, ducking := 1, loop := false },
         some { hstream := 2, hsync := 2, gain := 1, ducking := 1, loop := true }],
      g_streamMap := fun h =>
        if h = 1 ∨ h = 2 then
          some { decoder := some { pcm := fun _ => 0, length := 4, channels := 2, pos := 0 },
                 playing := true, paused := false, sample_rate := 44100, channels := 2,
                 sync_callback := none, sync_userdata := 0 }
        else none } 2
    { decoder := some { pcm := fun _ => 0, length := 4, channels := 2, pos := 0 },
      playing := true, paused := false, sample_rate := 44100, channels := 2,
      sync_callback := none, sync_userdata := 0 }
    (by decide) rfl
  refine ⟨hC.1, hC.2.1, hC.2.2.2.2.2.2.1 1
    { hstream := 2, hsync := 2, gain := 1, ducking := 1, loop := true } (by simp) rfl ?_⟩
  intro j a hj ha
  have hj0 : j = 0 := by omega
  subst hj0
  simp only [List.getElem?_cons_zero, Option.some.injEq] at ha
  subst ha
  decide

/-- The predicate on the channel table and the registry only reads the slots
and which handles are registered. -/
theorem tableMatchesRegistry_congr (m m1 : Mixer)
    (hcs : m1.channel_stream = m.channel_stream)
    (hkeys : ∀ k, (m1.g_streamMap k).isSome = (m.g_streamMap k).isSome)
    (hm : tableMatchesRegistry m) : tableMatchesRegistry m1 := by
  refine ⟨?_, ?_⟩
  · intro s hs
    rw [hkeys]
    exact hm.1 s (by rw [← hcs]; exact hs)
  · intro k hk
    rw [hkeys] at hk
    obtain ⟨s, hs, hsk⟩ := hm.2 k hk
    exact ⟨s, by rw [hcs]; exact hs, hsk⟩

/-- Writing a registry entry over a registered one leaves the set of registered
handles as it is. -/
theorem update_isSome (g : Nat → Option _internal_stream_data) (h : Nat)
    (e e1 : _internal_stream_data) (he : g h = some e) (k : Nat) :
    (Function.update g h (some e1) k).isSome = (g k).isSome := by
  by_cases hk : k = h
  · subst hk
    rw [Function.update_same, he]
    rfl
  · rw [Function.update_noteq hk]

/-- The calls `MiniAudio_ChannelSetSync`, `MiniAudio_ChannelPlay`,
`MiniAudio_ChannelPause` and `MiniAudio_ChannelStop` leave the channel table
and the set of registered handles as they are. -/
theorem flagOps_keys (m : Mixer) :
    (∀ hstream type proc user,
        (MiniAudio_ChannelSetSync m hstream type proc user).1.channel_stream = m.channel_stream
        ∧ ∀ k, ((MiniAudio_ChannelSetSync m hstream type proc user).1.g_streamMap k).isSome
            = (m.g_streamMap k).isSome)
    ∧ (∀ hstream restart,
        (MiniAudio_ChannelPlay m hstream restart).1.channel_stream = m.channel_stream
        ∧ ∀ k, ((MiniAudio_ChannelPlay m hstream restart).1.g_streamMap k).isSome
            = (m.g_streamMap k).isSome)
    ∧ (∀ hstream,
        (MiniAudio_ChannelPause m hstream).1.channel_stream = m.channel_stream
        ∧ ∀ k, ((MiniAudio_ChannelPause m hstream).1.g_streamMap k).isSome
            = (m.g_streamMap k).isSome)
    ∧ (∀ hstream,
        (MiniAudio_ChannelStop m hstream).1.channel_stream = m.channel_stream
        ∧ ∀ k, ((MiniAudio_ChannelStop m hstream).1.g_streamMap k).isSome
            = (m.g_streamMap k).isSome) := by
  refine ⟨?_, ?_, ?_, ?_⟩
  · intro hstream type proc user
    simp only [MiniAudio_ChannelSetSync]
    cases proc with
    | none => exact ⟨rfl, fun _ => rfl⟩
    | some p =>
      simp only
      by_cases h0 : hstream = MINIAUDIO_NO_STREAM
      · rw [if_pos h0]
        exact ⟨rfl, fun _ => rfl⟩
      · rw [if_neg h0]
        cases hmap : m.g_streamMap hstream with
        | none => exact ⟨rfl, fun _ => rfl⟩
        | some it =>
          simp only
          by_cases ht : type &&& MINIAUDIO_SYNC_END ≠ 0
          · rw [if_pos ht]
            exact ⟨rfl, fun k => update_isSome _ _ it _ hmap k⟩
          · rw [if_neg ht]
            exact ⟨rfl, fun _ => rfl⟩
  · intro hstream restart
    simp only [MiniAudio_ChannelPlay]
    by_cases h0 : hstream = MINIAUDIO_NO_STREAM
    · rw [if_pos h0]
      exact ⟨rfl, fun _ => rfl⟩
    · rw [if_neg h0]
      cases hmap : m.g_streamMap hstream with
      | none => exact ⟨rfl, fun _ => rfl⟩
      | some it => exact ⟨rfl, fun k => update_isSome _ _ it _ hmap k⟩
  · intro hstream
    simp only [MiniAudio_ChannelPause]
    by_cases h0 : hstream = MINIAUDIO_NO_STREAM
    · rw [if_pos h0]
      exact ⟨rfl, fun _ => rfl⟩
    · rw [if_neg h0]
      cases hmap : m.g_streamMap hstream with
      | none => exact ⟨rfl, fun _ => rfl⟩
      | some it => exact ⟨rfl, fun k => update_isSome _ _ it _ hmap k⟩
  · intro hstream
    simp only [MiniAudio_ChannelStop]
    by_cases h0 : hstream = MINIAUDIO_NO_STREAM
    · rw [if_pos h0]
      exact ⟨rfl, fun _ => rfl⟩
    · rw [if_neg h0]
      cases hmap : m.g_streamMap hstream with
      | none => exact ⟨rfl, fun _ => rfl⟩
      | some it => exact ⟨rfl, fun k => update_isSome _ _ it _ hmap k⟩

/-- C30, the claim as stated fails: in the state init leaves the predicate
holds, and a successful `MiniAudio_StreamCreateFile` breaks it: handle `1` is
then in the registry and no slot references it. -/
theorem C30_counterexample :
    tableMatchesRegistry (initMixer 44100 2 256)
    ∧ ¬ tableMatchesRegistry
        (MiniAudio_StreamCreateFile (initMixer 44100 2 256) (some 0) MA_SUCCESS
          { pcm := fun _ => 0, length := 4, channels := 2, pos := 0 }).1 := by
  refine ⟨⟨?_, ?_⟩, ?_⟩
  · intro s hs
    have hs2 : some s ∈ List.replicate 16 (none : Option AltsoundStreamInfo) := hs
    cases List.eq_of_mem_replicate hs2
  · intro k hk
    cases hk
  · rintro ⟨_, horphan⟩
    obtain ⟨s, hs, _⟩ := horphan 1 rfl
    have hs2 : some s ∈ List.replicate 16 (none : Option AltsoundStreamInfo) := hs
    cases List.eq_of_mem_replicate hs2

/-- C30 (as the code has it): the predicate holds in the state init leaves; from
a state where it holds, `MiniAudio_ChannelSetSync`, `MiniAudio_ChannelPlay`,
`MiniAudio_ChannelPause` and `MiniAudio_ChannelStop` keep it, and
`MiniAudio_StreamFree(h)` keeps it when at most one slot holds `h`;
`MiniAudio_StreamCreateFile` keeps the half that every slot's handle is
registered, and a create that fails keeps the whole predicate. -/
theorem C30_table_matches_registry (m : Mixer) (hm : tableMatchesRegistry m) :
    (∀ sampleRate channels bufferSizeFrames,
        tableMatchesRegistry (initMixer sampleRate channels bufferSizeFrames))
    ∧ (∀ hstream type proc user,
        tableMatchesRegistry (MiniAudio_ChannelSetSync m hstream type proc user).1)
    ∧ (∀ hstream restart, tableMatchesRegistry (MiniAudio_ChannelPlay m hstream restart).1)
    ∧ (∀ hstream, tableMatchesRegistry (MiniAudio_ChannelPause m hstream).1)
    ∧ (∀ hstream, tableMatchesRegistry (MiniAudio_ChannelStop m hstream).1)
    ∧ (∀ hstream, (slotsReferencing hstream m.channel_stream).length ≤ 1 →
        tableMatchesRegistry (MiniAudio_StreamFree m hstream).1)
    ∧ (∀ file result decoder,
        slotsRegistered (MiniAudio_StreamCreateFile m file result decoder).1)
    ∧ (∀ file result decoder, file = none ∨ result ≠ MA_SUCCESS →
        tableMatchesRegistry (MiniAudio_StreamCreateFile m file result decoder).1) := by
  obtain ⟨k1, k2, k3, k4⟩ := flagOps_keys m
  refine ⟨?_, ?_, ?_, ?_, ?_, ?_, ?_, ?_⟩
  · intro sampleRate channels bufferSizeFrames
    refine ⟨?_, ?_⟩
    · intro s hs
      simp [initMixer] at hs
    · intro k hk
      cases hk
  · intro hstream type proc user
    exact tableMatchesRegistry_congr m _ (k1 hstream type proc user).1
      (k1 hstream type proc user).2 hm
  · intro hstream restart
    exact tableMatchesRegistry_congr m _ (k2 hstream restart).1 (k2 hstream restart).2 hm
  · intro hstream
    exact tableMatchesRegistry_congr m _ (k3 hstream).1 (k3 hstream).2 hm
  · intro hstream
    exact tableMatchesRegistry_congr m _ (k4 hstream).1 (k4 hstream).2 hm
  · intro hstream hcount
    simp only [MiniAudio_StreamFree]
    by_cases h0 : hstream = MINIAUDIO_NO_STREAM
    · rw [if_pos h0]
      exact tableMatchesRegistry_congr m _ rfl (fun _ => rfl) hm
    · rw [if_neg h0]
      cases hmap : m.g_streamMap hstream with
      | none => exact tableMatchesRegistry_congr m _ rfl (fun _ => rfl) hm
      | some it =>
        refine ⟨?_, ?_⟩
        · intro s hs
          have hne : s.hstream ≠ hstream := nullFirstSlot_unique hstream _ hcount s hs
          have hreg := hm.1 s (nullFirstSlot_mem hstream _ s hs)
          simp only
          rw [Function.update_noteq hne]
          exact hreg
        · intro k hk
          simp only at hk
          have hne : k ≠ hstream := by
            intro heq
            rw [heq, Function.update_same] at hk
            cases hk
          rw [Function.update_noteq hne] at hk
          obtain ⟨s, hs, hsk⟩ := hm.2 k hk
          exact ⟨s, nullFirstSlot_keeps hstream _ s hs (by rw [hsk]; exact hne), hsk⟩
  · intro file result decoder
    simp only [MiniAudio_StreamCreateFile]
    cases file with
    | none => exact hm.1
    | some f =>
      simp only
      by_cases hr : result ≠ MA_SUCCESS
      · rw [if_pos hr]
        exact hm.1
      · rw [if_neg hr]
        intro s hs
        simp only
        by_cases hk : s.hstream = m.g_nextStreamId
        · rw [hk, Function.update_same]
          rfl
        · rw [Function.update_noteq hk]
          exact hm.1 s hs
  · intro file result decoder hfail
    simp only [MiniAudio_StreamCreateFile]
    cases file with
    | none => exact tableMatchesRegistry_congr m _ rfl (fun _ => rfl) hm
    | some f =>
      rcases hfail with hf | hr
      · cases hf
      · simp only [if_pos hr]
        exact tableMatchesRegistry_congr m _ rfl (fun _ => rfl) hm

/-- C30 (as the code has it) at a state with handle `1` registered and held by
slot `0` alone: the predicate holds there and still holds after a pause, after
a play and after the free of handle `1`. -/
theorem C30_table_matches_registry_witness :
    tableMatchesRegistry
        (MiniAudio_ChannelPause
          { initMixer 44100 2 256 with
            channel_stream :=
              [some { hstream := 1, hsync := 1, gain := 1, ducking := 1, loop := false }, none],
            g_streamMap := fun h =>
              if h = 1 then
                some { decoder := some { pcm := fun _ => 0, length := 4, channels := 2,
                                         pos := 0 },
                       playing := true, paused := false, sample_rate := 44100, channels := 2,
                       sync_callback := none, sync_userdata := 0 }
              else none } 1).1
    ∧ tableMatchesRegistry
        (MiniAudio_ChannelPlay
          { initMixer 44100 2 256 with
            channel_stream :=
              [some { hstream := 1, hsync := 1, gain := 1, ducking := 1, loop := false }, none],
            g_streamMap := fun h =>
              if h = 1 then
                some { decoder := some { pcm := fun _ => 0, length := 4, channels := 2,
                                         pos := 0 },
                       playing := true, paused := false, sample_rate := 44100, channels := 2,
                       sync_callback := none, sync_userdata := 0 }
              else none } 1 true).1
    ∧ tableMatchesRegistry
        (MiniAudio_StreamFree
          { initMixer 44100 2 256 with
            channel_stream :=
              [some { hstream := 1, hsync := 1, gain := 1, ducking := 1, loop := false }, none],
            g_streamMap := fun h =>
              if h = 1 then
                some { decoder := some { pcm := fun _ => 0, length := 4, channels := 2,
                                         pos := 0 },
                       playing := true, paused := false, sample_rate := 44100, channels := 2,
                       sync_callback := none, sync_userdata := 0 }
              else none } 1).1 := by
  have hC := C30_table_matches_registry
    { initMixer 44100 2 256 with
      channel_stream :=
        [some { hstream := 1, hsync := 1, gain := 1, ducking := 1, loop := false }, none],
      g_streamMap := fun h =>
        if h = 1 then
          some { decoder := some { pcm := fun _ => 0, length := 4, channels := 2, pos := 0 },
                 playing := true, paused := false, sample_rate := 44100, channels := 2,
                 sync_callback := none, sync_userdata := 0 }
        else none }
    (by
      refine ⟨?_, ?_⟩
      · intro s hs
        simp only [List.mem_cons, Option.some.injEq, List.mem_singleton] at hs
        rcases hs with hs | hs
        · subst hs
          rfl
        · rcases hs with hs | hs
          · cases hs
          · cases hs
      · intro k hk
        by_cases hk1 : k = 1
        · subst hk1
          exact ⟨_, List.mem_cons_self _ _, rfl⟩
        · simp only [if_neg hk1] at hk
          cases hk)
  exact ⟨hC.2.2.2.1 1, hC.2.2.1 1 true, hC.2.2.2.2.2.1 1 (by decide)⟩

/-! ## The framer: volume value, de-duplication, start markers, the volume setting -/

/-- A call of `AltSoundProcessCommand` leaves the global volume and the
ROM-controls-volume setting as the framing step left them. -/
theorem process_global_vol (handleCmd : Engine → Nat → Bool) (e : Engine) (cmd : Nat)
    (attenuation : Int) :
    (AltSoundProcessCommand handleCmd e cmd attenuation).1.global_vol
        = (frame e cmd attenuation).global_vol
    ∧ (AltSoundProcessCommand handleCmd e cmd attenuation).1.rom_controls_vol
        = e.rom_controls_vol := by
  by_cases h : (frame e cmd attenuation).g_cmdData.cmd_filter ≠ 0 ∨
         (frame e cmd attenuation).g_cmdData.cmd_counter % 2 ≠ 0
  · rw [process_absorb handleCmd e cmd attenuation h]
    exact ⟨rfl, frame_rom e cmd attenuation⟩
  · unfold AltSoundProcessCommand
    simp only [if_neg h]
    split
    · simp only [(postprocess_vols _ _).1, (postprocess_vols _ _).2.2]
      exact ⟨trivial, frame_rom e cmd attenuation⟩
    · simp only [(postprocess_vols _ _).1, (postprocess_vols _ _).2.2]
      exact ⟨trivial, frame_rom e cmd attenuation⟩

theorem processCommands_rom (handleCmd : Engine → Nat → Bool) (cmds : List Nat) (e : Engine) :
    (processCommands handleCmd e cmds).rom_controls_vol = e.rom_controls_vol := by
  induction cmds generalizing e with
  | nil => rfl
  | cons c cs ih =>
    simp only [processCommands, List.foldl_cons] at ih ⊢
    rw [ih, (process_global_vol handleCmd e c 0).2]

/-- The value of the WPC-DCS volume formula at the byte `0x7F`. -/
theorem dcsVolume_7F :
    dcsVolume 0x7F = min 1 (((981201 : ℚ) / 1000000) ^ (255 - 127) * 4)
    ∧ |min 1 (((981201 : ℚ) / 1000000) ^ (255 - 127) * 4) - 3524 / 10000| < 5 / 10000
    ∧ ¬ |min 1 (((981201 : ℚ) / 1000000) ^ (255 - 127) * 4) - 4455 / 10000| < 5 / 10000 := by
  have h : ((981201 : ℚ) / 1000000) ^ 128 * 4 ≤ 1 := by norm_num
  have h1 : ((981201 : ℚ) / 1000000) ^ 128 * 4 < 3529 / 10000 := by norm_num
  have h2 : (3519 : ℚ) / 10000 < ((981201 : ℚ) / 1000000) ^ 128 * 4 := by norm_num
  have he : (255 - 127 : Nat) = 128 := by decide
  rw [he, min_eq_right h]
  refine ⟨?_, ?_, ?_⟩
  · rw [dcsVolume_byte 0x7F (by decide)]
    have h0 : ¬ ((0x7F : Nat) = 0) := by decide
    rw [if_neg h0, he, min_eq_right h]
  · rw [abs_lt]
    constructor
    · linarith
    · linarith
  · rw [abs_lt]
    rintro ⟨h3, _⟩
    linarith

/-- The WPC-DCS volume scenario `0x55, 0xAA, 0x7F, 0x80` from the init state
with ROM-controls-volume enabled sets the global volume to the value of the
formula at `0x7F`. -/
theorem dcs_scenario_volume (handleCmd : Engine → Nat → Bool) (gen : ALTSOUND_HARDWARE_GEN)
    (hgen : gen = .WPCDCS ∨ gen = .WPCSECURITY ∨ gen = .WPC95DCS ∨ gen = .WPC95) :
    (processCommands handleCmd (initEngine gen true) [0x55, 0xAA, 0x7F, 0x80]).global_vol
      = dcsVolume 0x7F := by
  have hsplit : processCommands handleCmd (initEngine gen true) [0x55, 0xAA, 0x7F, 0x80]
      = (AltSoundProcessCommand handleCmd
          (processCommands handleCmd (initEngine gen true) [0x55, 0xAA, 0x7F])
          (0x7F ^^^ 0xFF) 0).1 := rfl
  have hg := processCommands_gen handleCmd [0x55, 0xAA, 0x7F] (initEngine gen true)
  have hr := processCommands_rom handleCmd [0x55, 0xAA, 0x7F] (initEngine gen true)
  have hd := processCommands_cmdData handleCmd [0x55, 0xAA, 0x7F] (initEngine gen true)
  have hbuf : (runData gen initCmdData [0x55, 0xAA, 0x7F]).cmd_buffer.b0 = 0x7F
      ∧ (runData gen initCmdData [0x55, 0xAA, 0x7F]).cmd_buffer.b1 = 0xAA
      ∧ (runData gen initCmdData [0x55, 0xAA, 0x7F]).cmd_buffer.b2 = 0x55 := by
    rcases hgen with h | h | h | h
    · subst h
      decide
    · subst h
      decide
    · subst h
      decide
    · subst h
      decide
  have hgen2 : (processCommands handleCmd (initEngine gen true) [0x55, 0xAA, 0x7F]).g_hardwareGen
      = .WPCDCS ∨
      (processCommands handleCmd (initEngine gen true) [0x55, 0xAA, 0x7F]).g_hardwareGen
      = .WPCSECURITY ∨
      (processCommands handleCmd (initEngine gen true) [0x55, 0xAA, 0x7F]).g_hardwareGen
      = .WPC95DCS ∨
      (processCommands handleCmd (initEngine gen true) [0x55, 0xAA, 0x7F]).g_hardwareGen
      = .WPC95 := by
    rw [hg]
    exact hgen
  have hf := (frame_dcs_volume
    (processCommands handleCmd (initEngine gen true) [0x55, 0xAA, 0x7F]) 0x7F 0 hgen2
    (by rw [hd]; exact hbuf.1) (by rw [hd]; exact hbuf.2.1) (by rw [hd]; exact hbuf.2.2)).2
  rw [hsplit, (process_global_vol _ _ _ _).1, hf, hr]
  rfl

/-- C34, the claim as stated fails: in the WPC-DCS volume scenario with volume
byte `0x7F` the global volume is `min(1, (981201/1000000)^(255 - 127) * 4)`,
and the distance of that value from `0.4455` is not below `0.0005` (the value
is about `0.3524`). -/
theorem C34_counterexample :
    (processCommands (fun _ _ => true) (initEngine .WPCDCS true)
        [0x55, 0xAA, 0x7F, 0x80]).global_vol
      = min 1 (((981201 : ℚ) / 1000000) ^ (255 - 127) * 4)
    ∧ ¬ |min 1 (((981201 : ℚ) / 1000000) ^ (255 - 127) * 4) - 4455 / 10000| < 5 / 10000 := by
  refine ⟨?_, dcsVolume_7F.2.2⟩
  rw [dcs_scenario_volume (fun _ _ => true) .WPCDCS (Or.inl rfl)]
  exact dcsVolume_7F.1

/-- C34 (as the code has it): for the WPC-DCS volume scenario with volume byte
`0x7F`, from the init state with ROM-controls-volume enabled, the global
volume the framer sets is `min(1, (981201/1000000)^(255 - 127) * 4)`, which is
approximately `0.3524`: its distance from `0.3524` is below `0.0005`. -/
theorem C34_dcs_volume_at_7F (handleCmd : Engine → Nat → Bool) (gen : ALTSOUND_HARDWARE_GEN)
    (hgen : gen = .WPCDCS ∨ gen = .WPCSECURITY ∨ gen = .WPC95DCS ∨ gen = .WPC95) :
    (processCommands handleCmd (initEngine gen true) [0x55, 0xAA, 0x7F, 0x80]).global_vol
      = min 1 (((981201 : ℚ) / 1000000) ^ (255 - 127) * 4)
    ∧ |min 1 (((981201 : ℚ) / 1000000) ^ (255 - 127) * 4) - 3524 / 10000| < 5 / 10000 := by
  refine ⟨?_, dcsVolume_7F.2.1⟩
  rw [dcs_scenario_volume handleCmd gen hgen]
  exact dcsVolume_7F.1

/-- C34 (as the code has it) at generation WPCDCS. -/
theorem C34_dcs_volume_at_7F_witness :
    (processCommands (fun _ _ => true) (initEngine .WPCDCS true)
        [0x55, 0xAA, 0x7F, 0x80]).global_vol
      = min 1 (((981201 : ℚ) / 1000000) ^ (255 - 127) * 4)
    ∧ |min 1 (((981201 : ℚ) / 1000000) ^ (255 - 127) * 4) - 3524 / 10000| < 5 / 10000 :=
  C34_dcs_volume_at_7F (fun _ _ => true) .WPCDCS (Or.inl rfl)

/-- One call with an S11-family generation and the filter flag clear: the byte
is emitted, as it is, exactly when it differs from the byte before it; the
filter flag stays clear and the byte becomes the byte before the next one. -/
theorem s11_step (gen : ALTSOUND_HARDWARE_GEN) (d : CmdData) (cmd : Nat)
    (hgen : gen = .WPCALPHA_1 ∨ gen = .S11 ∨ gen = .S11X ∨ gen = .S11B2 ∨ gen = .S11C)
    (hf : d.cmd_filter = 0) :
    stepEmit gen d cmd = (if cmd ≠ d.cmd_buffer.b0 then [cmd] else [])
    ∧ (stepData gen d cmd).cmd_filter = 0
    ∧ (stepData gen d cmd).cmd_buffer.b0 = cmd := by
  rw [stepEmit_eq, stepData_eq, framedData_s11 gen d cmd hgen]
  by_cases h : cmd ≠ d.cmd_buffer.b0
  · simp only [if_pos h, hf]
    simp [combine_zero, shiftBuffer]
  · simp only [if_neg h, hf]
    simp [shiftBuffer]

/-- Over any sequence of bytes, with an S11-family generation and the filter
flag clear, the emissions are those of the rule as the spec words it. -/
theorem s11_run (gen : ALTSOUND_HARDWARE_GEN)
    (hgen : gen = .WPCALPHA_1 ∨ gen = .S11 ∨ gen = .S11X ∨ gen = .S11B2 ∨ gen = .S11C) :
    ∀ (cmds : List Nat) (d : CmdData), d.cmd_filter = 0 →
      runEmit gen d cmds = s11Expected d.cmd_buffer.b0 cmds := by
  intro cmds
  induction cmds with
  | nil =>
    intro d _
    rfl
  | cons c cs ih =>
    intro d hf
    obtain ⟨h1, h2, h3⟩ := s11_step gen d c hgen hf
    simp only [runEmit, s11Expected]
    rw [h1, ih _ h2, h3]

/-- A run of `n + 1` equal values after a different one gives one emission. -/
theorem s11Expected_run (prev a : Nat) (h : a ≠ prev) (n : Nat) :
    s11Expected prev (List.replicate (n + 1) a) = [a] := by
  have hrest : ∀ k, s11Expected a (List.replicate k a) = [] := by
    intro k
    induction k with
    | zero => rfl
    | succ k ih => simp [List.replicate_succ, s11Expected, ih]
  simp [List.replicate_succ, s11Expected, h, hrest]

/-- C35: with generation WPCALPHA_1, S11, S11X, S11B2 or S11C and the framer
started from the init state, over every sequence of commands the emissions are
exactly the commands that differ from the one immediately before them (the
first being compared with the filler `~0`, which no byte equals), each emitted
on its own call as `(0 << 8) | cmd`; a command equal to its predecessor is
absorbed; so a run of `n ≥ 1` equal bytes gives exactly one emission, and it
is made on the first byte of the run. -/
theorem C35_s11_emits_iff_differs (handleCmd : Engine → Nat → Bool)
    (gen : ALTSOUND_HARDWARE_GEN) (romVol : Bool)
    (hgen : gen = .WPCALPHA_1 ∨ gen = .S11 ∨ gen = .S11X ∨ gen = .S11B2 ∨ gen = .S11C) :
    (∀ cmds : List Nat,
        emitted (processCommands handleCmd (initEngine gen romVol) cmds)
          = s11Expected NOT0 cmds)
    ∧ (∀ (cmds : List Nat) (cmd : Nat),
        emitted (processCommands handleCmd (initEngine gen romVol) (cmds ++ [cmd]))
          = emitted (processCommands handleCmd (initEngine gen romVol) cmds)
            ++ (if cmd ≠ (cmds.reverse.headD NOT0) then [(0 <<< 8) ||| cmd] else []))
    ∧ (∀ (a n : Nat), a ≤ 255 → 1 ≤ n →
        emitted (processCommands handleCmd (initEngine gen romVol) [a]) = [a]
        ∧ emitted (processCommands handleCmd (initEngine gen romVol) (List.replicate n a))
            = [a]) := by
  have hmain : ∀ cmds : List Nat,
      emitted (processCommands handleCmd (initEngine gen romVol) cmds)
        = s11Expected NOT0 cmds := by
    intro cmds
    rw [processCommands_emitted]
    have h := s11_run gen hgen cmds initCmdData rfl
    simp only [initEngine, emitted, List.filterMap_nil, List.nil_append]
    exact h
  have happ : ∀ (cmds : List Nat) (prev cmd : Nat),
      s11Expected prev (cmds ++ [cmd])
        = s11Expected prev cmds
          ++ (if cmd ≠ (cmds.reverse.headD prev) then [cmd] else []) := by
    intro cmds
    induction cmds with
    | nil =>
      intro prev cmd
      simp [s11Expected]
    | cons c cs ih =>
      intro prev cmd
      have hlast : (c :: cs).reverse.headD prev = cs.reverse.headD c := by
        rw [List.reverse_cons]
        cases cs.reverse with
        | nil => rfl
        | cons x xs => rfl
      rw [hlast, List.cons_append]
      simp only [s11Expected]
      rw [ih c cmd, List.append_assoc]
  refine ⟨hmain, ?_, ?_⟩
  · intro cmds cmd
    rw [hmain, hmain, happ]
    simp
  · intro a n ha hn
    have hne : a ≠ NOT0 := by
      unfold NOT0
      omega
    obtain ⟨k, rfl⟩ : ∃ k, n = k + 1 := ⟨n - 1, by omega⟩
    refine ⟨?_, ?_⟩
    · rw [hmain]
      exact s11Expected_run NOT0 a hne 0
    · rw [hmain]
      exact s11Expected_run NOT0 a hne k

/-- C35 at generation S11 and the bytes `0x15, 0x15, 0x15, 0x22, 0x15`: the run
of three gives one emission, on its first byte. -/
theorem C35_s11_emits_iff_differs_witness :
    emitted (processCommands (fun _ _ => true) (initEngine .S11 true)
        [0x15, 0x15, 0x15, 0x22, 0x15]) = s11Expected NOT0 [0x15, 0x15, 0x15, 0x22, 0x15]
    ∧ s11Expected NOT0 [0x15, 0x15, 0x15, 0x22, 0x15] = [0x15, 0x22, 0x15] :=
  ⟨(C35_s11_emits_iff_differs (fun _ _ => true) .S11 true (Or.inr (Or.inl rfl))).1
      [0x15, 0x15, 0x15, 0x22, 0x15], by decide⟩

/-- A value whose bits `0xFC` are all set is at least `0xFC`. -/
theorem start_marker_ge (cmd : Nat) (h : cmd &&& 0xFC = 0xFC) : 0xFC ≤ cmd := by
  have hle : cmd &&& 0xFC ≤ cmd := Nat.and_le_left
  omega

/-- C36: with a Whitestar generation, a byte `start` with
`(start AND 0xFC) = 0xFC` is absorbed whatever the framer state: the call
returns `true`, emits nothing, leaves the parity counter at `1`, the filter
flag clear and the byte in the stored-command register; so no emitted command
has it as its low byte.  If the next byte `X` is not itself a start marker and
is not a volume or ignore byte after `0xFE` (`start = 0xFE` with `X` in
`0x01..0x2F`), the call on `X` emits `(start << 8) | X`. -/
theorem C36_ws_start_marker (handleCmd : Engine → Nat → Bool) (e : Engine) (start X : Nat)
    (attenuation attenuation2 : Int)
    (hgen : e.g_hardwareGen = .WS ∨ e.g_hardwareGen = .WS_1 ∨ e.g_hardwareGen = .WS_2)
    (hstart : start &&& 0xFC = 0xFC) (hbyte : start ≤ 255) :
    (AltSoundProcessCommand handleCmd e start attenuation).2 = true
    ∧ emitted (AltSoundProcessCommand handleCmd e start attenuation).1 = emitted e
    ∧ (AltSoundProcessCommand handleCmd e start attenuation).1.g_cmdData.cmd_counter = 1
    ∧ (AltSoundProcessCommand handleCmd e start attenuation).1.g_cmdData.cmd_filter = 0
    ∧ (AltSoundProcessCommand handleCmd e start attenuation).1.g_cmdData.stored_command
        = (start : Int)
    ∧ (X &&& 0xFC ≠ 0xFC → ¬ (start = 0xFE ∧ 0x01 ≤ X ∧ X ≤ 0x2F) →
        emitted (AltSoundProcessCommand handleCmd
            (AltSoundProcessCommand handleCmd e start attenuation).1 X attenuation2).1
          = emitted e ++ [(start <<< 8) ||| X]) := by
  have hge := start_marker_ge start hstart
  have hF := framedData_ws e.g_hardwareGen e.g_cmdData start hgen
  have hn1 : ¬ (e.g_cmdData.cmd_buffer.b0 = 0xFE ∧ 0x10 ≤ start ∧ start ≤ 0x2F) := by
    intro h
    omega
  have hn2 : ¬ (e.g_cmdData.cmd_buffer.b0 = 0xFE ∧ 0x01 ≤ start ∧ start ≤ 0x0F) := by
    intro h
    omega
  rw [if_neg hn1, if_neg hn2, if_pos hstart] at hF
  have hfd : (frame e start attenuation).g_cmdData
      = { e.g_cmdData with cmd_counter := 1, cmd_filter := 0,
                           cmd_buffer := shiftBuffer e.g_cmdData.cmd_buffer start } := by
    rw [frame_cmdData, hF]
  have habs : (frame e start attenuation).g_cmdData.cmd_filter ≠ 0 ∨
      (frame e start attenuation).g_cmdData.cmd_counter % 2 ≠ 0 := by
    right
    rw [hfd]
    simp
  have hproc := process_absorb handleCmd e start attenuation habs
  have hst : toInt32 start = (start : Int) := toInt32_of_lt start (by omega)
  have hdata : (AltSoundProcessCommand handleCmd e start attenuation).1.g_cmdData
      = { e.g_cmdData with cmd_counter := 1, cmd_filter := 0, stored_command := (start : Int),
                           cmd_buffer := shiftBuffer e.g_cmdData.cmd_buffer start } := by
    rw [hproc]
    simp only [hfd, hst]
  have hem : emitted (AltSoundProcessCommand handleCmd e start attenuation).1 = emitted e := by
    rw [hproc]
    simp only [emitted, frame_calls]
  refine ⟨by rw [hproc], hem, by rw [hdata], by rw [hdata], by rw [hdata], ?_⟩
  intro hX hnot
  have hgen2 : (AltSoundProcessCommand handleCmd e start attenuation).1.g_hardwareGen = .WS
      ∨ (AltSoundProcessCommand handleCmd e start attenuation).1.g_hardwareGen = .WS_1
      ∨ (AltSoundProcessCommand handleCmd e start attenuation).1.g_hardwareGen = .WS_2 := by
    rw [process_gen]
    exact hgen
  have hF2 := framedData_ws _ (AltSoundProcessCommand handleCmd e start attenuation).1.g_cmdData
    X hgen2
  have hb0 : (AltSoundProcessCommand handleCmd e start attenuation).1.g_cmdData.cmd_buffer.b0
      = start := by
    rw [hdata]
    rfl
  have hm1 : ¬ ((AltSoundProcessCommand handleCmd e start attenuation).1.g_cmdData.cmd_buffer.b0
      = 0xFE ∧ 0x10 ≤ X ∧ X ≤ 0x2F) := by
    rw [hb0]
    intro h
    exact hnot ⟨h.1, by omega, h.2.2⟩
  have hm2 : ¬ ((AltSoundProcessCommand handleCmd e start attenuation).1.g_cmdData.cmd_buffer.b0
      = 0xFE ∧ 0x01 ≤ X ∧ X ≤ 0x0F) := by
    rw [hb0]
    intro h
    exact hnot ⟨h.1, h.2.1, by omega⟩
  rw [if_neg hm1, if_neg hm2, if_neg hX] at hF2
  rw [process_emitted, hF2, hem]
  simp only [hdata]
  have hc : ¬ ((0 : Nat) ≠ 0 ∨ (1 + 1) % 4294967296 % 2 ≠ 0) := by decide
  rw [if_neg hc, combine_of_nat start X hbyte]

/-- C36 at generation WS from the init state: `0xFD` is absorbed and the next
byte `0x12` emits `0xFD12`. -/
theorem C36_ws_start_marker_witness :
    (AltSoundProcessCommand (fun _ _ => true) (initEngine .WS true) 0xFD 0).2 = true
    ∧ emitted (AltSoundProcessCommand (fun _ _ => true) (initEngine .WS true) 0xFD 0).1
        = emitted (initEngine .WS true)
    ∧ emitted (AltSoundProcessCommand (fun _ _ => true)
          (AltSoundProcessCommand (fun _ _ => true) (initEngine .WS true) 0xFD 0).1 0x12 0).1
        = emitted (initEngine .WS true) ++ [(0xFD <<< 8) ||| 0x12] := by
  have hC := C36_ws_start_marker (fun _ _ => true) (initEngine .WS true) 0xFD 0x12 0 0
    (Or.inl rfl) (by decide) (by decide)
  exact ⟨hC.1, hC.2.1, hC.2.2.2.2.2 (by decide) (by decide)⟩

/-- The framing rules write the global volume only under the
ROM-controls-volume setting. -/
theorem preprocess_global_vol_off (e : Engine) (cmd : Nat) (hrom : e.rom_controls_vol = false) :
    (altsound_preprocess_commands e cmd).global_vol = e.global_vol := by
  obtain ⟨gen, d, mv, gv, rom, calls⟩ := e
  simp only at hrom
  subst hrom
  cases gen <;> simp only [altsound_preprocess_commands] <;> (repeat (split <;> try rfl))

/-- C37: with ROM-controls-volume disabled, for every hardware generation,
framer state, byte and attenuation, the global volume after the framing step
and after the whole call of `AltSoundProcessCommand` is the global volume
before it; and the framer state after the framing step and after the call
(filter flag, counter, stored command, buffer) and the commands emitted do not
depend on the setting: they are those of the same call with the setting
enabled. -/
theorem C37_volume_untouched_when_rom_control_off (handleCmd : Engine → Nat → Bool)
    (e : Engine) (cmd : Nat) (attenuation : Int) (hrom : e.rom_controls_vol = false) :
    (frame e cmd attenuation).global_vol = e.global_vol
    ∧ (AltSoundProcessCommand handleCmd e cmd attenuation).1.global_vol = e.global_vol
    ∧ (frame e cmd attenuation).g_cmdData
        = (frame { e with rom_controls_vol := true } cmd attenuation).g_cmdData
    ∧ (AltSoundProcessCommand handleCmd e cmd attenuation).1.g_cmdData
        = (AltSoundProcessCommand handleCmd { e with rom_controls_vol := true } cmd
            attenuation).1.g_cmdData
    ∧ emitted (AltSoundProcessCommand handleCmd e cmd attenuation).1
        = emitted (AltSoundProcessCommand handleCmd { e with rom_controls_vol := true } cmd
            attenuation).1 := by
  have hfr : (frame e cmd attenuation).global_vol = e.global_vol := by
    unfold frame
    exact preprocess_global_vol_off _ _ hrom
  refine ⟨hfr, ?_, ?_, ?_, ?_⟩
  · rw [(process_global_vol handleCmd e cmd attenuation).1, hfr]
  · rw [frame_cmdData, frame_cmdData]
  · rw [process_cmdData, process_cmdData]
  · rw [process_emitted, process_emitted]
    rfl

/-- C37 at generation WPCDCS with the setting disabled: the volume sequence
`0x55, 0xAA, 0x7F, 0x80` leaves the global volume at `1` on its last byte. -/
theorem C37_volume_untouched_when_rom_control_off_witness :
    (AltSoundProcessCommand (fun _ _ => true)
        (processCommands (fun _ _ => true) (initEngine .WPCDCS false) [0x55, 0xAA, 0x7F])
        0x80 0).1.global_vol
      = (processCommands (fun _ _ => true) (initEngine .WPCDCS false)
          [0x55, 0xAA, 0x7F]).global_vol
    ∧ (AltSoundProcessCommand (fun _ _ => true)
        (processCommands (fun _ _ => true) (initEngine .WPCDCS false) [0x55, 0xAA, 0x7F])
        0x80 0).1.g_cmdData.cmd_filter = 1 :=
  ⟨(C37_volume_untouched_when_rom_control_off (fun _ _ => true)
      (processCommands (fun _ _ => true) (initEngine .WPCDCS false) [0x55, 0xAA, 0x7F])
      0x80 0 (by decide)).2.1, by decide⟩

/-! ## Pause and resume, and calls with a bad handle -/

/-- What `MiniAudio_ChannelPause` does to the state: the entry of the handle, when
there is one and the handle is not the no-stream handle, gets its paused flag
set; nothing else but the error code changes. -/
theorem pause_effect (m : Mixer) (h : Nat) :
    (MiniAudio_ChannelPause m h).1.channel_stream = m.channel_stream
    ∧ ∀ k, (MiniAudio_ChannelPause m h).1.g_streamMap k
        = if k = h ∧ k ≠ MINIAUDIO_NO_STREAM then
            (m.g_streamMap k).map (fun it => { it with paused := true })
          else m.g_streamMap k := by
  simp only [MiniAudio_ChannelPause]
  by_cases h0 : h = MINIAUDIO_NO_STREAM
  · rw [if_pos h0]
    refine ⟨rfl, fun k => ?_⟩
    have hn : ¬ (k = h ∧ k ≠ MINIAUDIO_NO_STREAM) := by
      rintro ⟨h1, h2⟩
      exact h2 (h1.trans h0)
    rw [if_neg hn]
  · rw [if_neg h0]
    cases hmap : m.g_streamMap h with
    | none =>
      refine ⟨rfl, fun k => ?_⟩
      by_cases hk : k = h
      · subst hk
        rw [if_pos ⟨rfl, h0⟩, hmap]
        rfl
      · rw [if_neg (fun hc => hk hc.1)]
    | some it =>
      refine ⟨rfl, fun k => ?_⟩
      by_cases hk : k = h
      · subst hk
        rw [if_pos ⟨rfl, h0⟩, hmap]
        exact Function.update_same _ _ _
      · rw [if_neg (fun hc => hk hc.1)]
        exact Function.update_noteq hk _ _

/-- What `MiniAudio_ChannelPlay(h, false)` does to the state: the entry of the
handle, when there is one and the handle is not the no-stream handle, gets its
playing flag set and its paused flag cleared; nothing else but the error code
changes. -/
theorem resume_effect (m : Mixer) (h : Nat) :
    (MiniAudio_ChannelPlay m h false).1.channel_stream = m.channel_stream
    ∧ ∀ k, (MiniAudio_ChannelPlay m h false).1.g_streamMap k
        = if k = h ∧ k ≠ MINIAUDIO_NO_STREAM then
            (m.g_streamMap k).map (fun it => { it with playing := true, paused := false })
          else m.g_streamMap k := by
  simp only [MiniAudio_ChannelPlay]
  by_cases h0 : h = MINIAUDIO_NO_STREAM
  · rw [if_pos h0]
    refine ⟨rfl, fun k => ?_⟩
    have hn : ¬ (k = h ∧ k ≠ MINIAUDIO_NO_STREAM) := by
      rintro ⟨h1, h2⟩
      exact h2 (h1.trans h0)
    rw [if_neg hn]
  · rw [if_neg h0]
    cases hmap : m.g_streamMap h with
    | none =>
      refine ⟨rfl, fun k => ?_⟩
      by_cases hk : k = h
      · subst hk
        rw [if_pos ⟨rfl, h0⟩, hmap]
        rfl
      · rw [if_neg (fun hc => hk hc.1)]
    | some it =>
      refine ⟨rfl, fun k => ?_⟩
      by_cases hk : k = h
      · subst hk
        rw [if_pos ⟨rfl, h0⟩, hmap]
        simp only [Function.update_same, Option.map_some', Option.some.injEq]
        cases it.decoder <;> rfl
      · rw [if_neg (fun hc => hk hc.1)]
        exact Function.update_noteq hk _ _

/-- A loop over the slots that applies to the entry of each slot's handle a
change `f` which applied twice is as applied once: the entries of the handles
(other than the no-stream handle) of slots that are not null are changed by
`f`, every other entry is as it was, and so is the channel table. -/
theorem slots_fold (op : Mixer → Nat → Mixer)
    (f : _internal_stream_data → _internal_stream_data) (hf : ∀ it, f (f it) = f it)
    (hop : ∀ m h, (op m h).channel_stream = m.channel_stream
      ∧ ∀ k, (op m h).g_streamMap k
          = if k = h ∧ k ≠ MINIAUDIO_NO_STREAM then (m.g_streamMap k).map f
            else m.g_streamMap k) :
    ∀ (slots : List (Option AltsoundStreamInfo)) (m : Mixer),
      (slots.foldl (fun s slot =>
          match slot with
          | none => s
          | some stream => op s stream.hstream) m).channel_stream = m.channel_stream
      ∧ ∀ k,
        ((∃ stream, some stream ∈ slots ∧ stream.hstream = k) ∧ k ≠ MINIAUDIO_NO_STREAM →
          (slots.foldl (fun s slot =>
            match slot with
            | none => s
            | some stream => op s stream.hstream) m).g_streamMap k = (m.g_streamMap k).map f)
        ∧ (¬ ((∃ stream, some stream ∈ slots ∧ stream.hstream = k)
              ∧ k ≠ MINIAUDIO_NO_STREAM) →
          (slots.foldl (fun s slot =>
            match slot with
            | none => s
            | some stream => op s stream.hstream) m).g_streamMap k = m.g_streamMap k) := by
  intro slots
  induction slots with
  | nil =>
    intro m
    refine ⟨rfl, fun k => ⟨?_, fun _ => rfl⟩⟩
    rintro ⟨⟨s, hs, _⟩, _⟩
    cases hs
  | cons slot rest ih =>
    intro m
    cases slot with
    | none =>
      simp only [List.foldl_cons]
      obtain ⟨h1, h2⟩ := ih m
      refine ⟨h1, fun k => ⟨?_, ?_⟩⟩
      · rintro ⟨⟨s, hs, hsk⟩, h0⟩
        rcases List.mem_cons.mp hs with hs | hs
        · cases hs
        · exact (h2 k).1 ⟨⟨s, hs, hsk⟩, h0⟩
      · intro hn
        refine (h2 k).2 ?_
        rintro ⟨⟨s, hs, hsk⟩, h0⟩
        exact hn ⟨⟨s, List.mem_cons_of_mem _ hs, hsk⟩, h0⟩
    | some stream =>
      simp only [List.foldl_cons]
      obtain ⟨h1, h2⟩ := ih (op m stream.hstream)
      obtain ⟨o1, o2⟩ := hop m stream.hstream
      refine ⟨by rw [h1, o1], fun k => ⟨?_, ?_⟩⟩
      · rintro ⟨⟨s, hs, hsk⟩, h0⟩
        by_cases hr : (∃ s, some s ∈ rest ∧ s.hstream = k) ∧ k ≠ MINIAUDIO_NO_STREAM
        · rw [(h2 k).1 hr, o2 k]
          by_cases hk : k = stream.hstream
          · rw [if_pos ⟨hk, h0⟩, Option.map_map]
            congr 1
            funext it
            exact hf it
          · rw [if_neg (fun hc => hk hc.1)]
        · rw [(h2 k).2 hr, o2 k]
          have hk : k = stream.hstream := by
            rcases List.mem_cons.mp hs with hs | hs
            · simp only [Option.some.injEq] at hs
              subst hs
              exact hsk.symm
            · exact absurd ⟨⟨s, hs, hsk⟩, h0⟩ hr
          rw [if_pos ⟨hk, h0⟩]
      · intro hn
        have hr : ¬ ((∃ s, some s ∈ rest ∧ s.hstream = k) ∧ k ≠ MINIAUDIO_NO_STREAM) := by
          rintro ⟨⟨s, hs, hsk⟩, h0⟩
          exact hn ⟨⟨s, List.mem_cons_of_mem _ hs, hsk⟩, h0⟩
        have hk : ¬ (k = stream.hstream ∧ k ≠ MINIAUDIO_NO_STREAM) := by
          rintro ⟨hk, h0⟩
          exact hn ⟨⟨stream, List.mem_cons_self _ _, hk.symm⟩, h0⟩
        rw [(h2 k).2 hr, o2 k, if_neg hk]

/-- What `AltSoundPause` does: the channel table is as it was; with
`pause = true` the entries of the handles held by slots get their paused flag
set, with `pause = false` they get their playing flag set and their paused
flag cleared; every other entry is as it was. -/
theorem AltSoundPause_effect (m : Mixer) :
    ((AltSoundPause m true).channel_stream = m.channel_stream
      ∧ ∀ k,
        ((∃ stream, some stream ∈ m.channel_stream ∧ stream.hstream = k)
            ∧ k ≠ MINIAUDIO_NO_STREAM →
          (AltSoundPause m true).g_streamMap k
            = (m.g_streamMap k).map (fun it => { it with paused := true }))
        ∧ (¬ ((∃ stream, some stream ∈ m.channel_stream ∧ stream.hstream = k)
            ∧ k ≠ MINIAUDIO_NO_STREAM) →
          (AltSoundPause m true).g_streamMap k = m.g_streamMap k))
    ∧ ((AltSoundPause m false).channel_stream = m.channel_stream
      ∧ ∀ k,
        ((∃ stream, some stream ∈ m.channel_stream ∧ stream.hstream = k)
            ∧ k ≠ MINIAUDIO_NO_STREAM →
          (AltSoundPause m false).g_streamMap k
            = (m.g_streamMap k).map (fun it => { it with playing := true, paused := false }))
        ∧ (¬ ((∃ stream, some stream ∈ m.channel_stream ∧ stream.hstream = k)
            ∧ k ≠ MINIAUDIO_NO_STREAM) →
          (AltSoundPause m false).g_streamMap k = m.g_streamMap k)) := by
  refine ⟨?_, ?_⟩
  · have h := slots_fold (fun s h => (MiniAudio_ChannelPause s h).1)
      (fun it => { it with paused := true }) (fun _ => rfl) pause_effect m.channel_stream m
    simp only [AltSoundPause, if_true]
    exact h
  · have h := slots_fold (fun s h => (MiniAudio_ChannelPlay s h false).1)
      (fun it => { it with playing := true, paused := false }) (fun _ => rfl) resume_effect
      m.channel_stream m
    simp only [AltSoundPause, Bool.false_eq_true, if_false]
    exact h

/-- C31, the claim as stated fails: a stream that sits in slot `0` and is
stopped (not playing, not paused) before the pause is playing after
`AltSoundPause(true)` followed by `AltSoundPause(false)`. -/
theorem C31_counterexample :
    (({ initMixer 44100 2 256 with
          channel_stream :=
            [some { hstream := 1, hsync := 1, gain := 1, ducking := 1, loop := false }],
          g_streamMap := fun h =>
            if h = 1 then
              some { decoder := some { pcm := fun _ => 0, length := 4, channels := 2, pos := 4 },
                     playing := false, paused := false, sample_rate := 44100, channels := 2,
                     sync_callback := none, sync_userdata := 0 }
            else none } : Mixer).g_streamMap 1).map (fun e => (e.playing, e.paused))
        = some (false, false)
    ∧ ((AltSoundPause (AltSoundPause
        { initMixer 44100 2 256 with
          channel_stream :=
            [some { hstream := 1, hsync := 1, gain := 1, ducking := 1, loop := false }],
          g_streamMap := fun h =>
            if h = 1 then
              some { decoder := some { pcm := fun _ => 0, length := 4, channels := 2, pos := 4 },
                     playing := false, paused := false, sample_rate := 44100, channels := 2,
                     sync_callback := none, sync_userdata := 0 }
            else none } true) false).g_streamMap 1).map (fun e => (e.playing, e.paused))
        = some (true, false) := by
  decide

/-- C31 (as the code has it): `AltSoundPause(true)` leaves the channel table as
it is, sets the paused flag of every registered stream whose handle (other
than the no-stream handle) a slot holds, changing nothing else of its entry,
and leaves every other registry entry as it is.  `AltSoundPause(false)` sets
the playing flag and clears the paused flag of every such stream, whatever
they were, and changes nothing else.  So after a pause followed by a resume
every such stream is playing and not paused, with its decoder where it was:
its entry is as before the pause when it was playing and not paused then,
and every other registry entry is as before. -/
theorem C31_pause_then_resume (m : Mixer) :
    (AltSoundPause m true).channel_stream = m.channel_stream
    ∧ (AltSoundPause m false).channel_stream = m.channel_stream
    ∧ (∀ k e, m.g_streamMap k = some e →
        (∃ stream, some stream ∈ m.channel_stream ∧ stream.hstream = k) →
        k ≠ MINIAUDIO_NO_STREAM →
        (AltSoundPause m true).g_streamMap k = some { e with paused := true }
        ∧ (AltSoundPause m false).g_streamMap k
            = some { e with playing := true, paused := false }
        ∧ (AltSoundPause (AltSoundPause m true) false).g_streamMap k
            = some { e with playing := true, paused := false }
        ∧ (e.playing = true → e.paused = false →
            (AltSoundPause (AltSoundPause m true) false).g_streamMap k = some e))
    ∧ (∀ k, ¬ ((∃ stream, some stream ∈ m.channel_stream ∧ stream.hstream = k)
            ∧ k ≠ MINIAUDIO_NO_STREAM) →
        (AltSoundPause m true).g_streamMap k = m.g_streamMap k
        ∧ (AltSoundPause m false).g_streamMap k = m.g_streamMap k
        ∧ (AltSoundPause (AltSoundPause m true) false).g_streamMap k = m.g_streamMap k) := by
  obtain ⟨⟨p1, p2⟩, ⟨r1, r2⟩⟩ := AltSoundPause_effect m
  obtain ⟨_, ⟨q1, q2⟩⟩ := AltSoundPause_effect (AltSoundPause m true)
  refine ⟨p1, r1, ?_, ?_⟩
  · intro k e he hslot h0
    have hp := (p2 k).1 ⟨hslot, h0⟩
    have hr := (r2 k).1 ⟨hslot, h0⟩
    have hq := (q2 k).1 ⟨by rw [p1]; exact hslot, h0⟩
    rw [he] at hp hr
    rw [hp] at hq
    refine ⟨hp, hr, hq, ?_⟩
    intro hplay hpause
    rw [hq]
    obtain ⟨dec, pl, pa, sr, ch, cb, ud⟩ := e
    simp only at hplay hpause
    subst hplay hpause
    rfl
  · intro k hn
    have hp := (p2 k).2 hn
    have hr := (r2 k).2 hn
    have hq := (q2 k).2 (by rw [p1]; exact hn)
    exact ⟨hp, hr, by rw [hq, hp]⟩

/-- C31 (as the code has it) at a stream that sits in slot `0` and is playing at
frame `2`: after the pause it is paused, and after the resume its entry is as
it was before the pause. -/
theorem C31_pause_then_resume_witness :
    (AltSoundPause
        { initMixer 44100 2 256 with
          channel_stream :=
            [some { hstream := 1, hsync := 1, gain := 1, ducking := 1, loop := false }],
          g_streamMap := fun h =>
            if h = 1 then
              some { decoder := some { pcm := fun _ => 0, length := 4, channels := 2, pos := 2 },
                     playing := true, paused := false, sample_rate := 44100, channels := 2,
                     sync_callback := none, sync_userdata := 0 }
            else none } true).g_streamMap 1
      = some { decoder := some { pcm := fun _ => 0, length := 4, channels := 2, pos := 2 },
               playing := true, paused := true, sample_rate := 44100, channels := 2,
               sync_callback := none, sync_userdata := 0 }
    ∧ (AltSoundPause (AltSoundPause
        { initMixer 44100 2 256 with
          channel_stream :=
            [some { hstream := 1, hsync := 1, gain := 1, ducking := 1, loop := false }],
          g_streamMap := fun h =>
            if h = 1 then
              some { decoder := some { pcm := fun _ => 0, length := 4, channels := 2, pos := 2 },
                     playing := true, paused := false, sample_rate := 44100, channels := 2,
                     sync_callback := none, sync_userdata := 0 }
            else none } true) false).g_streamMap 1
      = some { decoder := some { pcm := fun _ => 0, length := 4, channels := 2, pos := 2 },
               playing := true, paused := false, sample_rate := 44100, channels := 2,
               sync_callback := none, sync_userdata := 0 } := by
  have hC := (C31_pause_then_resume
    { initMixer 44100 2 256 with
      channel_stream :=
        [some { hstream := 1, hsync := 1, gain := 1, ducking := 1, loop := false }],
      g_streamMap := fun h =>
        if h = 1 then
          some { decoder := some { pcm := fun _ => 0, length := 4, channels := 2, pos := 2 },
                 playing := true, paused := false, sample_rate := 44100, channels := 2,
                 sync_callback := none, sync_userdata := 0 }
        else none }).2.2.1 1
    { decoder := some { pcm := fun _ => 0, length := 4, channels := 2, pos := 2 },
      playing := true, paused := false, sample_rate := 44100, channels := 2,
      sync_callback := none, sync_userdata := 0 } rfl
    ⟨_, List.mem_cons_self _ _, rfl⟩ (by decide)
  exact ⟨hC.1, hC.2.2.2 rfl rfl⟩

/-- C38: every registry operation that takes a handle, called with the
no-stream handle or with a handle that is not in the registry, returns its
failure value (`0`, or `false`), records `MA_INVALID_ARGS` and changes
nothing else: the registry, the channel table and, for
`MiniAudio_ChannelGetAttribute`, the value pointed to are as they were.  A
second `MiniAudio_StreamFree` of a handle fails in this way. -/
theorem C38_bad_handle_fails (m : Mixer) (hstream : Nat)
    (hbad : hstream = MINIAUDIO_NO_STREAM ∨ m.g_streamMap hstream = none) :
    (∀ restart, MiniAudio_ChannelPlay m hstream restart
        = ({ m with g_last_ma_err := MA_INVALID_ARGS }, 0))
    ∧ MiniAudio_ChannelPause m hstream = ({ m with g_last_ma_err := MA_INVALID_ARGS }, 0)
    ∧ MiniAudio_ChannelStop m hstream = ({ m with g_last_ma_err := MA_INVALID_ARGS }, 0)
    ∧ MiniAudio_StreamFree m hstream = ({ m with g_last_ma_err := MA_INVALID_ARGS }, 0)
    ∧ (∀ type proc user, MiniAudio_ChannelSetSync m hstream type proc user
        = ({ m with g_last_ma_err := MA_INVALID_ARGS }, 0))
    ∧ (∀ attrib, MiniAudio_ChannelSetAttribute m hstream attrib
        = ({ m with g_last_ma_err := MA_INVALID_ARGS }, 0))
    ∧ (∀ attrib value, MiniAudio_ChannelGetAttribute m hstream attrib value
        = ({ m with g_last_ma_err := MA_INVALID_ARGS }, false, value))
    ∧ (∀ (m0 : Mixer) (h : Nat),
        MiniAudio_StreamFree (MiniAudio_StreamFree m0 h).1 h
          = ({ (MiniAudio_StreamFree m0 h).1 with g_last_ma_err := MA_INVALID_ARGS }, 0)) := by
  have hfree : ∀ (m1 : Mixer) (h : Nat),
      h = MINIAUDIO_NO_STREAM ∨ m1.g_streamMap h = none →
      MiniAudio_StreamFree m1 h = ({ m1 with g_last_ma_err := MA_INVALID_ARGS }, 0) := by
    intro m1 h hb
    unfold MiniAudio_StreamFree
    by_cases h0 : h = MINIAUDIO_NO_STREAM
    · rw [if_pos h0]
    · rcases hb with hb | hb
      · exact absurd hb h0
      · rw [if_neg h0, hb]
  refine ⟨?_, ?_, ?_, hfree m hstream hbad, ?_, ?_, ?_, ?_⟩
  · intro restart
    unfold MiniAudio_ChannelPlay
    by_cases h0 : hstream = MINIAUDIO_NO_STREAM
    · rw [if_pos h0]
    · rcases hbad with hb | hb
      · exact absurd hb h0
      · rw [if_neg h0, hb]
  · unfold MiniAudio_ChannelPause
    by_cases h0 : hstream = MINIAUDIO_NO_STREAM
    · rw [if_pos h0]
    · rcases hbad with hb | hb
      · exact absurd hb h0
      · rw [if_neg h0, hb]
  · unfold MiniAudio_ChannelStop
    by_cases h0 : hstream = MINIAUDIO_NO_STREAM
    · rw [if_pos h0]
    · rcases hbad with hb | hb
      · exact absurd hb h0
      · rw [if_neg h0, hb]
  · intro type proc user
    unfold MiniAudio_ChannelSetSync
    cases proc with
    | none => rfl
    | some p =>
      simp only
      by_cases h0 : hstream = MINIAUDIO_NO_STREAM
      · rw [if_pos h0]
      · rcases hbad with hb | hb
        · exact absurd hb h0
        · rw [if_neg h0, hb]
  · intro attrib
    unfold MiniAudio_ChannelSetAttribute
    by_cases h0 : hstream = MINIAUDIO_NO_STREAM
    · rw [if_pos h0]
    · rcases hbad with hb | hb
      · exact absurd hb h0
      · rw [if_neg h0, hb]
  · intro attrib value
    unfold MiniAudio_ChannelGetAttribute
    by_cases h0 : hstream = MINIAUDIO_NO_STREAM ∨ value = none
    · rw [if_pos h0]
    · rcases hbad with hb | hb
      · exact absurd (Or.inl hb) h0
      · rw [if_neg h0, hb]
  · intro m0 h
    apply hfree
    by_cases h0 : h = MINIAUDIO_NO_STREAM
    · exact Or.inl h0
    · right
      unfold MiniAudio_StreamFree
      rw [if_neg h0]
      cases hmap : m0.g_streamMap h with
      | none => exact hmap
      | some it => exact Function.update_same _ _ _

/-- C38 at the state init leaves, where handle `7` is not registered: pausing it
fails with `MA_INVALID_ARGS` and changes nothing else. -/
theorem C38_bad_handle_fails_witness :
    MiniAudio_ChannelPause (initMixer 44100 2 256) 7
      = ({ initMixer 44100 2 256 with g_last_ma_err := MA_INVALID_ARGS }, 0) :=
  (C38_bad_handle_fails (initMixer 44100 2 256) 7 (Or.inr rfl)).2.1

/-! ## Init -/

/-- C32: `AltSoundInit` returns `false` when a processor already exists, when
the manifest cannot be parsed, and when the manifest names a format other than
`g-sound`, `altsound` and `legacy`; in every other case it returns `true`.  A
double init changes nothing at all.  A failed init on an engine that is not
initialised leaves it so: no processor, the framer state as it was,
`g_audioRunning` as it was and no mixing thread started. -/
theorem C32_init_failure (g : Globals) (parsed : Option AltsoundIniProcessor)
    (sampleRate channels bufferSizeFrames : Nat) :
    (g.g_pProcessor ≠ none →
        AltSoundInit g parsed sampleRate channels bufferSizeFrames = (g, false))
    ∧ (g.g_pProcessor = none →
        (parsed = none ∨ ∃ ini, parsed = some ini
            ∧ ini.altsound_format ≠ String.toList "g-sound"
            ∧ ini.altsound_format ≠ String.toList "altsound"
            ∧ ini.altsound_format ≠ String.toList "legacy") →
        (AltSoundInit g parsed sampleRate channels bufferSizeFrames).2 = false
        ∧ (AltSoundInit g parsed sampleRate channels bufferSizeFrames).1.g_pProcessor = none
        ∧ (AltSoundInit g parsed sampleRate channels bufferSizeFrames).1.g_cmdData
            = g.g_cmdData
        ∧ (AltSoundInit g parsed sampleRate channels bufferSizeFrames).1.g_audioRunning
            = g.g_audioRunning
        ∧ (AltSoundInit g parsed sampleRate channels bufferSizeFrames).1.threadsStarted
            = g.threadsStarted)
    ∧ ((AltSoundInit g parsed sampleRate channels bufferSizeFrames).2 = true ↔
        g.g_pProcessor = none
        ∧ ∃ ini, parsed = some ini
            ∧ (ini.altsound_format = String.toList "g-sound"
                ∨ ini.altsound_format = String.toList "altsound"
                ∨ ini.altsound_format = String.toList "legacy")) := by
  refine ⟨?_, ?_, ?_⟩
  · intro hp
    unfold AltSoundInit
    cases hproc : g.g_pProcessor with
    | none => exact absurd hproc hp
    | some p => rfl
  · intro hp hfail
    unfold AltSoundInit
    rw [hp]
    rcases hfail with hnone | ⟨ini, hini, h1, h2, h3⟩
    · rw [hnone]
      exact ⟨rfl, rfl, rfl, rfl, rfl⟩
    · rw [hini]
      have h23 : ¬ (ini.altsound_format = String.toList "altsound"
          ∨ ini.altsound_format = String.toList "legacy") := by
        rintro (h | h)
        · exact h2 h
        · exact h3 h
      simp only [if_neg h1, if_neg h23]
      exact ⟨trivial, trivial, trivial, trivial, trivial⟩
  · unfold AltSoundInit
    cases hproc : g.g_pProcessor with
    | some p =>
      simp only
      constructor
      · intro h
        cases h
      · rintro ⟨h, _⟩
        cases h
    | none =>
      simp only
      cases parsed with
      | none =>
        simp only
        constructor
        · intro h
          cases h
        · rintro ⟨_, ini, h, _⟩
          cases h
      | some ini =>
        simp only
        by_cases h1 : ini.altsound_format = String.toList "g-sound"
        · rw [if_pos h1]
          exact ⟨fun _ => ⟨trivial, ini, rfl, Or.inl h1⟩, fun _ => rfl⟩
        · rw [if_neg h1]
          by_cases h23 : ini.altsound_format = String.toList "altsound"
              ∨ ini.altsound_format = String.toList "legacy"
          · rw [if_pos h23]
            exact ⟨fun _ => ⟨trivial, ini, rfl, Or.inr h23⟩, fun _ => rfl⟩
          · rw [if_neg h23]
            constructor
            · intro h
              cases h
            · rintro ⟨_, ini2, hi, hf⟩
              simp only [Option.some.injEq] at hi
              subst hi
              rcases hf with hf | hf
              · exact absurd hf h1
              · exact absurd hf h23

/-- C32 at an engine that is not initialised and a manifest that names the
format `bogus`: the init fails and no processor exists afterwards. -/
theorem C32_init_failure_witness :
    (AltSoundInit (idleGlobals initCmdData)
        (some { altsound_format := String.toList "bogus", rom_volume_control := true,
                record_sound_cmds := false, skip_count := 0 }) 48000 2 512).2 = false
    ∧ (AltSoundInit (idleGlobals initCmdData)
        (some { altsound_format := String.toList "bogus", rom_volume_control := true,
                record_sound_cmds := false, skip_count := 0 }) 48000 2 512).1.g_pProcessor
        = none := by
  have hC := (C32_init_failure (idleGlobals initCmdData)
    (some { altsound_format := String.toList "bogus", rom_volume_control := true,
            record_sound_cmds := false, skip_count := 0 }) 48000 2 512).2.1 rfl
    (Or.inr ⟨_, rfl, by decide, by decide, by decide⟩)
  exact ⟨hC.1, hC.2.1⟩

/-- C33, the claim as stated fails: on an engine that is not initialised, with
sample rate `44100`, two channels and `256` frames, `AltSoundInit` with a
manifest that cannot be parsed and the arguments `48000`, `1`, `512` returns
`false` and leaves the sample rate at `48000`, the channel count at `1` and
the buffer size at `512`. -/
theorem C33_counterexample :
    ((idleGlobals initCmdData).g_sampleRate, (idleGlobals initCmdData).g_channels,
        (idleGlobals initCmdData).g_bufferSizeFrames) = (44100, 2, 256)
    ∧ (AltSoundInit (idleGlobals initCmdData) none 48000 1 512).2 = false
    ∧ ((AltSoundInit (idleGlobals initCmdData) none 48000 1 512).1.g_sampleRate,
        (AltSoundInit (idleGlobals initCmdData) none 48000 1 512).1.g_channels,
        (AltSoundInit (idleGlobals initCmdData) none 48000 1 512).1.g_bufferSizeFrames)
        = (48000, 1, 512) := by
  decide

/-- C33 (as the code has it): if the manifest is missing or malformed,
`AltSoundInit` fails.  When a processor already exists nothing is changed.
Otherwise the processor (none), the framer state, `g_audioRunning` and the
mixing thread are as before, but the sample rate, the channel count and the
buffer size have been set to the arguments of the call and every slot of the
channel table has been set to null: these are written before the manifest is
parsed. -/
theorem C33_failed_parse_state (g : Globals) (sampleRate channels bufferSizeFrames : Nat) :
    (AltSoundInit g none sampleRate channels bufferSizeFrames).2 = false
    ∧ (g.g_pProcessor ≠ none →
        (AltSoundInit g none sampleRate channels bufferSizeFrames).1 = g)
    ∧ (g.g_pProcessor = none →
        (AltSoundInit g none sampleRate channels bufferSizeFrames).1
          = { g with
              g_sampleRate := sampleRate,
              g_channels := channels,
              g_bufferSizeFrames := bufferSizeFrames,
              channel_stream := List.replicate g.channel_stream.length none }) := by
  unfold AltSoundInit
  cases hproc : g.g_pProcessor with
  | some p =>
    refine ⟨rfl, fun _ => rfl, fun h => ?_⟩
    cases h
  | none =>
    refine ⟨rfl, fun h => absurd rfl h, fun _ => ?_⟩
    simp only
    congr 1
    exact List.map_const _ _

/-- C33 (as the code has it) at an engine that is not initialised and whose
slot `0` is not null: the failed init nulls the slot and sets the three
settings. -/
theorem C33_failed_parse_state_witness :
    (AltSoundInit
        { idleGlobals initCmdData with
          channel_stream :=
            [some { hstream := 1, hsync := 1, gain := 1, ducking := 1, loop := false }, none] }
        none 48000 1 512).1
      = { idleGlobals initCmdData with
          g_sampleRate := 48000,
          g_channels := 1,
          g_bufferSizeFrames := 512,
          channel_stream := [none, none] } :=
  (C33_failed_parse_state
    { idleGlobals initCmdData with
      channel_stream :=
        [some { hstream := 1, hsync := 1, gain := 1, ducking := 1, loop := false }, none] }
    48000 1 512).2.2 rfl

/-! ## Sample categories and ducking profiles -/

theorem toNat_ofNat_upper (n : Nat) (h1 : 97 ≤ n) (h2 : n ≤ 122) :
    (Char.ofNat (n - 32)).toNat = n - 32 := by
  interval_cases n <;> rfl

theorem toNat_ofNat_lower (n : Nat) (h1 : 65 ≤ n) (h2 : n ≤ 90) :
    (Char.ofNat (n + 32)).toNat = n + 32 := by
  interval_cases n <;> rfl

/-- Putting a character in upper case twice is putting it in upper case once. -/
theorem toupper_toupper (c : Char) : toupper (toupper c) = toupper c := by
  unfold toupper
  by_cases h : 97 ≤ c.toNat ∧ c.toNat ≤ 122
  · rw [if_pos h]
    have hn := toNat_ofNat_upper c.toNat h.1 h.2
    have hno : ¬ (97 ≤ (Char.ofNat (c.toNat - 32)).toNat
        ∧ (Char.ofNat (c.toNat - 32)).toNat ≤ 122) := by
      rw [hn]
      omega
    rw [if_neg hno]
  · rw [if_neg h, if_neg h]

/-- The upper case of a character does not depend on its case. -/
theorem toupper_tolower (c : Char) : toupper (tolower c) = toupper c := by
  unfold tolower
  by_cases h : 65 ≤ c.toNat ∧ c.toNat ≤ 90
  · rw [if_pos h]
    have hn := toNat_ofNat_lower c.toNat h.1 h.2
    unfold toupper
    have hyes : 97 ≤ (Char.ofNat (c.toNat + 32)).toNat
        ∧ (Char.ofNat (c.toNat + 32)).toNat ≤ 122 := by
      rw [hn]
      omega
    have hno : ¬ (97 ≤ c.toNat ∧ c.toNat ≤ 122) := by omega
    rw [if_pos hyes, if_neg hno, hn, Nat.add_sub_cancel, Char.ofNat_toNat]
  · rw [if_neg h]

/-- C39: `toSampleType` inverts `toString` on the seven sample categories; its
result depends only on the upper-case form of the string, so two strings that
differ only in letter case give the same category, and so do a string, its
upper-case form and its lower-case form (`music` and `Music` give `MUSIC`);
and a string whose upper-case form is none of the seven names gives
`UNDEFINED`. -/
theorem C39_toSampleType_inverts_toString :
    (∀ t : AltsoundSampleType, toSampleType (toString t) = t)
    ∧ (∀ s1 s2 : List Char, s1.map toupper = s2.map toupper →
        toSampleType s1 = toSampleType s2)
    ∧ (∀ s : List Char, toSampleType (s.map toupper) = toSampleType s
        ∧ toSampleType (s.map tolower) = toSampleType s)
    ∧ toSampleType (String.toList "music") = .MUSIC
    ∧ toSampleType (String.toList "Music") = .MUSIC
    ∧ (∀ s : List Char, (∀ t : AltsoundSampleType, s.map toupper ≠ toString t) →
        toSampleType s = .UNDEFINED) := by
  have hcase : ∀ s1 s2 : List Char, s1.map toupper = s2.map toupper →
      toSampleType s1 = toSampleType s2 := by
    intro s1 s2 h
    unfold toSampleType
    simp only [h]
  refine ⟨?_, hcase, ?_, by decide, by decide, ?_⟩
  · intro t
    cases t <;> decide
  · intro s
    refine ⟨hcase _ _ ?_, hcase _ _ ?_⟩
    · rw [List.map_map]
      apply List.map_congr_left
      intro c _
      exact toupper_toupper c
    · rw [List.map_map]
      apply List.map_congr_left
      intro c _
      exact toupper_tolower c
  · intro s hs
    have h1 := hs .UNDEFINED
    have h2 := hs .MUSIC
    have h3 := hs .JINGLE
    have h4 := hs .SFX
    have h5 := hs .CALLOUT
    have h6 := hs .SOLO
    have h7 := hs .OVERLAY
    simp only [toString] at h1 h2 h3 h4 h5 h6 h7
    unfold toSampleType
    simp only [typeMap, List.lookup, beq_false_of_ne h1, beq_false_of_ne h2,
      beq_false_of_ne h3, beq_false_of_ne h4, beq_false_of_ne h5, beq_false_of_ne h6,
      beq_false_of_ne h7]

/-- C40: for every behavior record and profile number `n`, when the record has a
ducking profile under the key `"profile" + n` (decimal), `getDuckVolume`
returns the factor the profile stores for the category when it is music,
callout, sfx, solo or overlay, and `1` when it is undefined or jingle; when the
record has no profile under that key it returns `1` for every category. -/
theorem C40_getDuckVolume (b : _behavior_info) (n : Nat) :
    (∀ p : _ducking_profile,
        b.ducking_profiles (String.toList "profile" ++ (Nat.repr n).toList) = some p →
        getDuckVolume b n .MUSIC = p.music_duck_vol
        ∧ getDuckVolume b n .CALLOUT = p.callout_duck_vol
        ∧ getDuckVolume b n .SFX = p.sfx_duck_vol
        ∧ getDuckVolume b n .SOLO = p.solo_duck_vol
        ∧ getDuckVolume b n .OVERLAY = p.overlay_duck_vol
        ∧ getDuckVolume b n .UNDEFINED = 1
        ∧ getDuckVolume b n .JINGLE = 1)
    ∧ (b.ducking_profiles (String.toList "profile" ++ (Nat.repr n).toList) = none →
        ∀ t : AltsoundSampleType, getDuckVolume b n t = 1) := by
  refine ⟨?_, ?_⟩
  · intro p hp
    simp only [getDuckVolume, hp, and_self]
  · intro hnone t
    simp only [getDuckVolume, hnone]

/-- C40 at a record whose only profile is `profile3`: the sfx factor of profile
`3` is the stored `1/2`, and profile `4`, which does not exist, gives `1`. -/
theorem C40_getDuckVolume_witness :
    getDuckVolume
        { ducking_profiles := fun key =>
            if key = String.toList "profile3" then
              some { music_duck_vol := 1 / 4, callout_duck_vol := 1, sfx_duck_vol := 1 / 2,
                     solo_duck_vol := 1, overlay_duck_vol := 3 / 4 }
            else none } 3 .SFX = 1 / 2
    ∧ getDuckVolume
        { ducking_profiles := fun key =>
            if key = String.toList "profile3" then
              some { music_duck_vol := 1 / 4, callout_duck_vol := 1, sfx_duck_vol := 1 / 2,
                     solo_duck_vol := 1, overlay_duck_vol := 3 / 4 }
            else none } 4 .SFX = 1 := by
  have h3 := (C40_getDuckVolume
    { ducking_profiles := fun key =>
        if key = String.toList "profile3" then
          some { music_duck_vol := 1 / 4, callout_duck_vol := 1, sfx_duck_vol := 1 / 2,
                 solo_duck_vol := 1, overlay_duck_vol := 3 / 4 }
        else none } 3).1
    { music_duck_vol := 1 / 4, callout_duck_vol := 1, sfx_duck_vol := 1 / 2,
      solo_duck_vol := 1, overlay_duck_vol := 3 / 4 }
    (by
      have hk : String.toList "profile" ++ (Nat.repr 3).toList = String.toList "profile3" := by
        decide
      dsimp only
      rw [if_pos hk])
  have h4 := (C40_getDuckVolume
    { ducking_profiles := fun key =>
        if key = String.toList "profile3" then
          some { music_duck_vol := 1 / 4, callout_duck_vol := 1, sfx_duck_vol := 1 / 2,
                 solo_duck_vol := 1, overlay_duck_vol := 3 / 4 }
        else none } 4).2
    (by
      have hk : ¬ (String.toList "profile" ++ (Nat.repr 4).toList
          = String.toList "profile3") := by
        decide
      dsimp only
      rw [if_neg hk]) .SFX
  exact ⟨h3.2.2.1, h4⟩

/-- C39 at the category `SFX` and at the spelling `sFx`. -/
theorem C39_toSampleType_inverts_toString_witness :
    toSampleType (toString .SFX) = .SFX
    ∧ toSampleType (String.toList "sFx") = toSampleType (String.toList "SFX") :=
  ⟨C39_toSampleType_inverts_toString.1 .SFX,
    C39_toSampleType_inverts_toString.2.1 (String.toList "sFx") (String.toList "SFX")
      (by decide)⟩
end AltSound
